import Mathlib

/-!
Shallow embedding of the audit-template service of the Audit-Backend
repository (src/services/audit_template_service.py,
src/repositories/audit_template_repository.py, src/models/audit_models.py,
src/schemas/audit_template.py, src/schemas/audit_area.py,
src/schemas/audit_question.py, src/services/audit_area_service.py,
src/repositories/audit_area_repository.py).

Rows are the ORM entities; the database is the list of template trees plus a
counter supplying fresh identities (uuid generation is abstracted by the
counter: each newly inserted row receives a distinct identity not present in
the database, which is the only property of uuids the code relies on).
Timestamps are not modelled; the creator/modifier stamps (created_by,
updated_by) are.  HTTPException is modelled by the ApiError type, carrying
the status code through its constructor.
-/

namespace AuditBackend

/-! ## Persisted rows (src/models/audit_models.py) -/

/-- Row of AUDIT.audit_question_options. -/
structure OptionRow where
  id : Nat
  question_id : Nat
  label : String
  value : Int
  isactive : Bool
  created_by : Option Nat := none
  updated_by : Option Nat := none
deriving Repr, DecidableEq

/-- Row of AUDIT.audit_questions, with its options relationship. -/
structure QuestionRow where
  id : Nat
  scope_id : Nat
  text : String
  percentage : Int
  is_mandatory : Bool
  isactive : Bool
  created_by : Option Nat := none
  updated_by : Option Nat := none
  options : List OptionRow
deriving Repr, DecidableEq

/-- Row of AUDIT.audit_scopes, with its questions relationship. -/
structure ScopeRow where
  id : Nat
  area_id : Nat
  name : String
  isactive : Bool
  created_by : Option Nat := none
  updated_by : Option Nat := none
  questions : List QuestionRow
deriving Repr, DecidableEq

/-- Row of AUDIT.audit_areas, with its scopes relationship. -/
structure AreaRow where
  id : Nat
  template_id : Nat
  name : String
  weightage : Int
  isactive : Bool
  created_by : Option Nat := none
  updated_by : Option Nat := none
  scopes : List ScopeRow
deriving Repr, DecidableEq

/-- Row of AUDIT.audit_templates, with its areas relationship. -/
structure TemplateRow where
  id : Nat
  name : String
  isactive : Bool
  created_by : Option Nat := none
  updated_by : Option Nat := none
  areas : List AreaRow
deriving Repr, DecidableEq

/-- The database: all template trees plus the fresh-identity supply. -/
structure DB where
  templates : List TemplateRow
  nextId : Nat
deriving Repr, DecidableEq

/-! ## Request payloads (src/schemas) -/

/-- OptionUpdateNested: id absent means create new. -/
structure OptionUP where
  id : Option Nat := none
  label : String
  value : Int
deriving Repr, DecidableEq

/-- QuestionUpdateNested. -/
structure QuestionUP where
  id : Option Nat := none
  text : String
  percentage : Int
  is_mandatory : Bool := true
  options : List OptionUP := []
deriving Repr, DecidableEq

/-- ScopeUpdateNested. -/
structure ScopeUP where
  id : Option Nat := none
  name : String
  questions : List QuestionUP := []
deriving Repr, DecidableEq

/-- AreaUpdateNested. -/
structure AreaUP where
  id : Option Nat := none
  name : String
  weightage : Int
  scopes : List ScopeUP := []
deriving Repr, DecidableEq

/-- TemplateUpdate: name plus areas with optional ids for merging. -/
structure TemplateUP where
  name : String
  areas : List AreaUP := []
deriving Repr, DecidableEq

/-- OptionCreate (no id field in the create schema). -/
structure OptionCP where
  label : String
  value : Int
deriving Repr, DecidableEq

/-- QuestionCreate; options defaulting to none in the schema is modelled as
the empty list, which is how the service reads it (`or []`). -/
structure QuestionCP where
  text : String
  percentage : Int
  is_mandatory : Bool := true
  options : List OptionCP := []
deriving Repr, DecidableEq

/-- ScopeCreateNested. -/
structure ScopeCP where
  name : String
  questions : List QuestionCP := []
deriving Repr, DecidableEq

/-- AreaCreateNested. -/
structure AreaCP where
  name : String
  weightage : Int
  scopes : List ScopeCP := []
deriving Repr, DecidableEq

/-- TemplateCreate and TemplateCloneRequest: name plus a full-tree payload,
areas defaulting to the empty list. -/
structure TemplateCP where
  name : String
  areas : List AreaCP := []
deriving Repr, DecidableEq

/-- model_dump of a create option viewed through the validator shape. -/
def OptionCP.toU (o : OptionCP) : OptionUP :=
  { label := o.label, value := o.value }

/-- model_dump of a create question viewed through the validator shape. -/
def QuestionCP.toU (q : QuestionCP) : QuestionUP :=
  { text := q.text, percentage := q.percentage, is_mandatory := q.is_mandatory,
    options := q.options.map OptionCP.toU }

/-- model_dump of a create scope viewed through the validator shape. -/
def ScopeCP.toU (s : ScopeCP) : ScopeUP :=
  { name := s.name, questions := s.questions.map QuestionCP.toU }

/-- model_dump of a create area viewed through the validator shape.  The
validators read only names, texts, labels, values and percentages, never the
ids, so create and update payloads share a single validator entry shape. -/
def AreaCP.toU (a : AreaCP) : AreaUP :=
  { name := a.name, weightage := a.weightage, scopes := a.scopes.map ScopeCP.toU }

/-! ## Errors (fastapi.HTTPException as raised by the service) -/

/-- The three kinds of HTTPException the template service raises. -/
inductive ApiError where
  | notFound (detail : String)
  | conflict (detail : String)
  | unprocessable (detail : String)
deriving Repr, DecidableEq

/-- The HTTP status code carried by each error kind. -/
def ApiError.statusCode : ApiError → Nat
  | .notFound _ => 404
  | .conflict _ => 409
  | .unprocessable _ => 422

/-- True on a successful result. -/
def resultOk {α : Type} (r : Except ApiError α) : Bool :=
  match r with
  | .ok _ => true
  | .error _ => false

/-! ## Validators (AuditTemplateService, src/services/audit_template_service.py
lines 116-252).  Each validator walks the payload and raises 422 at the first
violation; the walk order matches the python loops.  Quotation marks of the
python messages are dropped. -/

/-- Inner loop of _validate_empty_question_scopes_areas over questions. -/
def validateQuestionsNonEmptyOpts (aname sname : String) :
    List QuestionUP → Except ApiError Unit
  | [] => .ok ()
  | q :: rest =>
    if q.options.isEmpty then
      .error (.unprocessable ("Question " ++ q.text ++ " in scope " ++ sname ++
        ", area " ++ aname ++ " must have at least one option"))
    else validateQuestionsNonEmptyOpts aname sname rest

/-- Inner loop of _validate_empty_question_scopes_areas over scopes. -/
def validateScopesNonEmpty (aname : String) :
    List ScopeUP → Except ApiError Unit
  | [] => .ok ()
  | s :: rest => do
    if s.questions.isEmpty then
      .error (.unprocessable ("Scope " ++ s.name ++ " in area " ++ aname ++
        " must have at least one question"))
    else do
      validateQuestionsNonEmptyOpts aname s.name s.questions
      validateScopesNonEmpty aname rest

/-- _validate_empty_question_scopes_areas: every area has a scope, every
scope a question, every question an option. -/
def validateEmptyQuestionScopesAreas : List AreaUP → Except ApiError Unit
  | [] => .ok ()
  | a :: rest => do
    if a.scopes.isEmpty then
      .error (.unprocessable ("Area " ++ a.name ++ " must have at least one scope"))
    else do
      validateScopesNonEmpty a.name a.scopes
      validateEmptyQuestionScopesAreas rest

/-- Loop of _validate_area_names with its seen-set accumulator. -/
def validateAreaNamesGo (seen : List String) : List AreaUP → Except ApiError Unit
  | [] => .ok ()
  | a :: rest =>
    let key := a.name.trim.toLower
    if seen.contains key then
      .error (.unprocessable ("Duplicate area name: " ++ a.name))
    else validateAreaNamesGo (key :: seen) rest

/-- _validate_area_names: area names unique in the template
(case-insensitive, trimmed). -/
def validateAreaNames (areas : List AreaUP) : Except ApiError Unit :=
  validateAreaNamesGo [] areas

/-- Inner loop of _validate_scope_names within one area. -/
def validateScopeNamesGo (aname : String) (seen : List String) :
    List ScopeUP → Except ApiError Unit
  | [] => .ok ()
  | s :: rest =>
    let key := s.name.trim.toLower
    if seen.contains key then
      .error (.unprocessable ("Duplicate scope name " ++ s.name ++ " in area " ++ aname))
    else validateScopeNamesGo aname (key :: seen) rest

/-- _validate_scope_names: scope names unique within each area. -/
def validateScopeNames : List AreaUP → Except ApiError Unit
  | [] => .ok ()
  | a :: rest => do
    validateScopeNamesGo a.name [] a.scopes
    validateScopeNames rest

/-- Inner loop of _validate_question_names within one scope. -/
def validateQuestionNamesGo (aname sname : String) (seen : List String) :
    List QuestionUP → Except ApiError Unit
  | [] => .ok ()
  | q :: rest =>
    let key := q.text.trim.toLower
    if seen.contains key then
      .error (.unprocessable ("Duplicate question text " ++ q.text ++
        " in scope " ++ sname ++ ", area " ++ aname))
    else validateQuestionNamesGo aname sname (key :: seen) rest

/-- Middle loop of _validate_question_names over the scopes of one area. -/
def validateQuestionNamesScopes (aname : String) :
    List ScopeUP → Except ApiError Unit
  | [] => .ok ()
  | s :: rest => do
    validateQuestionNamesGo aname s.name [] s.questions
    validateQuestionNamesScopes aname rest

/-- _validate_question_names: question texts unique within each scope. -/
def validateQuestionNames : List AreaUP → Except ApiError Unit
  | [] => .ok ()
  | a :: rest => do
    validateQuestionNamesScopes a.name a.scopes
    validateQuestionNames rest

/-- Inner loop of _validate_option_labels within one question. -/
def validateOptionLabelsGo (sname qtext : String) (seen : List String) :
    List OptionUP → Except ApiError Unit
  | [] => .ok ()
  | o :: rest =>
    let key := o.label.trim.toLower
    if seen.contains key then
      .error (.unprocessable ("Duplicate option label " ++ o.label ++
        " in question " ++ qtext ++ ", scope " ++ sname))
    else validateOptionLabelsGo sname qtext (key :: seen) rest

/-- Loop of _validate_option_labels over the questions of one scope. -/
def validateOptionLabelsQuestions (sname : String) :
    List QuestionUP → Except ApiError Unit
  | [] => .ok ()
  | q :: rest => do
    validateOptionLabelsGo sname q.text [] q.options
    validateOptionLabelsQuestions sname rest

/-- Loop of _validate_option_labels over the scopes of one area. -/
def validateOptionLabelsScopes : List ScopeUP → Except ApiError Unit
  | [] => .ok ()
  | s :: rest => do
    validateOptionLabelsQuestions s.name s.questions
    validateOptionLabelsScopes rest

/-- _validate_option_labels: option labels unique within each question. -/
def validateOptionLabels : List AreaUP → Except ApiError Unit
  | [] => .ok ()
  | a :: rest => do
    validateOptionLabelsScopes a.scopes
    validateOptionLabels rest

/-- Inner loop of _validate_option_values within one question. -/
def validateOptionValuesGo (sname qtext : String) (seen : List Int) :
    List OptionUP → Except ApiError Unit
  | [] => .ok ()
  | o :: rest =>
    if seen.contains o.value then
      .error (.unprocessable ("Duplicate option value in question " ++ qtext ++
        ", scope " ++ sname))
    else validateOptionValuesGo sname qtext (o.value :: seen) rest

/-- Loop of _validate_option_values over the questions of one scope. -/
def validateOptionValuesQuestions (sname : String) :
    List QuestionUP → Except ApiError Unit
  | [] => .ok ()
  | q :: rest => do
    validateOptionValuesGo sname q.text [] q.options
    validateOptionValuesQuestions sname rest

/-- Loop of _validate_option_values over the scopes of one area. -/
def validateOptionValuesScopes : List ScopeUP → Except ApiError Unit
  | [] => .ok ()
  | s :: rest => do
    validateOptionValuesQuestions s.name s.questions
    validateOptionValuesScopes rest

/-- _validate_option_values: option values unique within each question. -/
def validateOptionValues : List AreaUP → Except ApiError Unit
  | [] => .ok ()
  | a :: rest => do
    validateOptionValuesScopes a.scopes
    validateOptionValues rest

/-- The total accumulated by _validate_scope_percentages: scopes with no
questions are skipped by the `continue`, all other questions contribute
their percentage. -/
def scopePercentageTotal (areas : List AreaUP) : Int :=
  (areas.map (fun a =>
    (a.scopes.map (fun s =>
      if s.questions.isEmpty then 0
      else (s.questions.map (·.percentage)).sum)).sum)).sum

/-- The 422 detail raised when question percentages do not sum to 100. -/
def percentageErrorMsg : String :=
  "Total weightage of all questions should be exactly 100%"

/-- _validate_scope_percentages: the question percentages of the whole
payload must sum to exactly 100. -/
def validateScopePercentages (areas : List AreaUP) : Except ApiError Unit :=
  if scopePercentageTotal areas ≠ 100 then
    .error (.unprocessable percentageErrorMsg)
  else .ok ()

/-- The validation sequence shared by create_template, update_template and
clone_template (src/services/audit_template_service.py lines 286-293,
333-340, 577-584): the seven validators in their fixed order, stopping at
the first failure, as the python exceptions do. -/
def validateAll (areas : List AreaUP) : Except ApiError Unit := do
  validateEmptyQuestionScopesAreas areas
  validateAreaNames areas
  validateScopeNames areas
  validateQuestionNames areas
  validateOptionLabels areas
  validateOptionValues areas
  validateScopePercentages areas

/-! ## Repository layer (src/repositories/audit_template_repository.py and
src/repositories/audit_area_repository.py) -/

/-- get_by_name: first active template whose name equals the argument
exactly (the SQL equality on a varchar column is case-sensitive). -/
def getByName (db : DB) (name : String) : Option TemplateRow :=
  db.templates.find? (fun t => t.name == name && t.isactive)

/-- Raw row lookup by id, no activity filter. -/
def findTemplate (db : DB) (tid : Nat) : Option TemplateRow :=
  db.templates.find? (fun t => t.id == tid)

/-- get_by_id: template by id, restricted to active rows. -/
def getById (db : DB) (tid : Nat) : Option TemplateRow :=
  db.templates.find? (fun t => t.id == tid && t.isactive)

/-- The options relationship as eagerly loaded: active options only. -/
def QuestionRow.activeView (q : QuestionRow) : QuestionRow :=
  { q with options := q.options.filter (·.isactive) }

/-- The questions relationship as eagerly loaded: active questions with
their active options. -/
def ScopeRow.activeView (s : ScopeRow) : ScopeRow :=
  { s with questions := (s.questions.filter (·.isactive)).map QuestionRow.activeView }

/-- The scopes relationship as eagerly loaded: active scopes downward. -/
def AreaRow.activeView (a : AreaRow) : AreaRow :=
  { a with scopes := (a.scopes.filter (·.isactive)).map ScopeRow.activeView }

/-- The full eager load of get_by_id_with_details: active areas, scopes,
questions and options.  The template row itself is looked up by id only:
the where clause of the query has no isactive condition on the template. -/
def TemplateRow.activeView (t : TemplateRow) : TemplateRow :=
  { t with areas := (t.areas.filter (·.isactive)).map AreaRow.activeView }

/-- get_by_id_with_details. -/
def getByIdWithDetails (db : DB) (tid : Nat) : Option TemplateRow :=
  (findTemplate db tid).map TemplateRow.activeView

/-- AuditAreaRepository.get_by_id: active area by id, across all
templates. -/
def findAreaActive (db : DB) (aid : Nat) : Option AreaRow :=
  ((db.templates.map (·.areas)).flatten).find? (fun a => a.id == aid && a.isactive)

/-! ## Response serialization (src/services/audit_template_service.py
lines 32-104) -/

/-- OptionResponse. -/
structure OptionDetail where
  id : Nat
  question_id : Nat
  label : String
  value : Int
deriving Repr, DecidableEq

/-- QuestionDetailResponse. -/
structure QuestionDetail where
  id : Nat
  scope_id : Nat
  text : String
  percentage : Int
  is_mandatory : Bool
  options : List OptionDetail
deriving Repr, DecidableEq

/-- ScopeDetailResponse, with the derived total_percentage. -/
structure ScopeDetail where
  id : Nat
  area_id : Nat
  name : String
  questions : List QuestionDetail
  total_percentage : Int
deriving Repr, DecidableEq

/-- AreaDetailResponse. -/
structure AreaDetail where
  id : Nat
  template_id : Nat
  name : String
  weightage : Int
  scopes : List ScopeDetail
deriving Repr, DecidableEq

/-- TemplateDetailResponse, with the derived total_weightage. -/
structure TemplateDetail where
  id : Nat
  name : String
  isactive : Bool
  areas : List AreaDetail
  total_weightage : Int
deriving Repr, DecidableEq

/-- AreaResponse (shallow, no scopes). -/
structure AreaResp where
  id : Nat
  template_id : Nat
  name : String
  weightage : Int
deriving Repr, DecidableEq

/-- TemplateResponse (shallow list form). -/
structure TemplateResp where
  id : Nat
  name : String
  isactive : Bool
  areas : List AreaResp
  total_weightage : Int
deriving Repr, DecidableEq

/-- _compute_total_weightage: sum of weightage over the loaded areas. -/
def computeTotalWeightage (areas : List AreaRow) : Int :=
  (areas.map (·.weightage)).sum

/-- Serialization of one option inside _scope_detail. -/
def optionDetail (o : OptionRow) : OptionDetail :=
  { id := o.id, question_id := o.question_id, label := o.label, value := o.value }

/-- Serialization of one question inside _scope_detail. -/
def questionDetail (q : QuestionRow) : QuestionDetail :=
  { id := q.id, scope_id := q.scope_id, text := q.text,
    percentage := q.percentage, is_mandatory := q.is_mandatory,
    options := q.options.map optionDetail }

/-- _scope_detail: a scope with its questions and the derived
total_percentage, the sum of the loaded question percentages. -/
def scopeDetail (s : ScopeRow) : ScopeDetail :=
  { id := s.id, area_id := s.area_id, name := s.name,
    questions := s.questions.map questionDetail,
    total_percentage := (s.questions.map (·.percentage)).sum }

/-- Serialization of one area inside _template_to_detail_response. -/
def areaDetail (a : AreaRow) : AreaDetail :=
  { id := a.id, template_id := a.template_id, name := a.name,
    weightage := a.weightage, scopes := a.scopes.map scopeDetail }

/-- _template_to_detail_response, applied to the eagerly loaded tree. -/
def templateDetailResponse (t : TemplateRow) : TemplateDetail :=
  { id := t.id, name := t.name, isactive := t.isactive,
    areas := t.areas.map areaDetail,
    total_weightage := computeTotalWeightage t.areas }

/-- _template_to_response (shallow). -/
def templateResponse (t : TemplateRow) : TemplateResp :=
  { id := t.id, name := t.name, isactive := t.isactive,
    areas := t.areas.map (fun a =>
      { id := a.id, template_id := a.template_id, name := a.name,
        weightage := a.weightage }),
    total_weightage := computeTotalWeightage t.areas }

/-! ## create_with_tree (src/repositories/audit_template_repository.py
lines 122-208).  Fresh identities come from the counter; the python code
lets the uuid column default assign them at flush. -/

/-- Build the option rows of one new question. -/
def buildOptions (uid : Option Nat) (qid : Nat) :
    List OptionCP → Nat → List OptionRow × Nat
  | [], fresh => ([], fresh)
  | o :: rest, fresh =>
    let row : OptionRow :=
      { id := fresh, question_id := qid, label := o.label, value := o.value,
        isactive := true, created_by := uid, updated_by := uid }
    let (rows, f) := buildOptions uid qid rest (fresh + 1)
    (row :: rows, f)

/-- Build the question rows of one new scope. -/
def buildQuestions (uid : Option Nat) (sid : Nat) :
    List QuestionCP → Nat → List QuestionRow × Nat
  | [], fresh => ([], fresh)
  | q :: rest, fresh =>
    let (opts, f1) := buildOptions uid fresh q.options (fresh + 1)
    let row : QuestionRow :=
      { id := fresh, scope_id := sid, text := q.text,
        percentage := q.percentage, is_mandatory := q.is_mandatory,
        isactive := true, created_by := uid, updated_by := uid,
        options := opts }
    let (rows, f2) := buildQuestions uid sid rest f1
    (row :: rows, f2)

/-- Build the scope rows of one new area. -/
def buildScopes (uid : Option Nat) (aid : Nat) :
    List ScopeCP → Nat → List ScopeRow × Nat
  | [], fresh => ([], fresh)
  | s :: rest, fresh =>
    let (qs, f1) := buildQuestions uid fresh s.questions (fresh + 1)
    let row : ScopeRow :=
      { id := fresh, area_id := aid, name := s.name,
        isactive := true, created_by := uid, updated_by := uid,
        questions := qs }
    let (rows, f2) := buildScopes uid aid rest f1
    (row :: rows, f2)

/-- Build the area rows of one new template. -/
def buildAreas (uid : Option Nat) (tid : Nat) :
    List AreaCP → Nat → List AreaRow × Nat
  | [], fresh => ([], fresh)
  | a :: rest, fresh =>
    let (ss, f1) := buildScopes uid fresh a.scopes (fresh + 1)
    let row : AreaRow :=
      { id := fresh, template_id := tid, name := a.name,
        weightage := a.weightage, isactive := true,
        created_by := uid, updated_by := uid, scopes := ss }
    let (rows, f2) := buildAreas uid tid rest f1
    (row :: rows, f2)

/-- create_with_tree: template plus its whole tree of new active rows.  The
python flushes level by level, which only affects the order in which uuids
are drawn; the tree built is the same. -/
def createWithTree (db : DB) (name : String) (areas : List AreaCP)
    (uid : Option Nat) : TemplateRow × Nat :=
  let tid := db.nextId
  let (rows, f) := buildAreas uid tid areas (db.nextId + 1)
  ({ id := tid, name := name, isactive := true,
     created_by := uid, updated_by := uid, areas := rows }, f)

/-! ## The identity reconciler of update_template
(src/services/audit_template_service.py lines 347-509).

The python mutates the eagerly loaded object graph; only active children are
loaded, so phase one (soft-delete of persisted nodes absent from the
payload) reaches exactly the active nodes, and the per-level `existing`
maps contain exactly the active children.  Here the merge runs over the
full child lists of the stored tree; rows that the python would not have
loaded (inactive ones) pass through untouched, which is precisely what
commit leaves in the database. -/

/-- The conditional modifier stamp: `if user_id is not None: obj.updated_by
= user_id`. -/
def stampU (uid : Option Nat) (old : Option Nat) : Option Nat :=
  match uid with
  | some u => some u
  | none => old

/-- Soft-delete of one loaded option row. -/
def deactivateOption (uid : Option Nat) (o : OptionRow) : OptionRow :=
  { o with isactive := false, updated_by := stampU uid o.updated_by }

/-- Soft-delete of one loaded question row, cascading into its loaded
(i.e. active) options. -/
def deactivateQuestion (uid : Option Nat) (q : QuestionRow) : QuestionRow :=
  { q with
    isactive := false,
    updated_by := stampU uid q.updated_by,
    options := q.options.map (fun o =>
      if o.isactive then deactivateOption uid o else o) }

/-- Soft-delete of one loaded scope row, cascading into its loaded
questions and their options. -/
def deactivateScope (uid : Option Nat) (s : ScopeRow) : ScopeRow :=
  { s with
    isactive := false,
    updated_by := stampU uid s.updated_by,
    questions := s.questions.map (fun q =>
      if q.isactive then deactivateQuestion uid q else q) }

/-- Soft-delete of one loaded area row, cascading into its loaded scopes,
questions and options. -/
def deactivateArea (uid : Option Nat) (a : AreaRow) : AreaRow :=
  { a with
    isactive := false,
    updated_by := stampU uid a.updated_by,
    scopes := a.scopes.map (fun s =>
      if s.isactive then deactivateScope uid s else s) }

/-- The ids of the loaded (active) rows: the keys of the per-level
`existing` dictionaries. -/
def activeOptionIds (rows : List OptionRow) : List Nat :=
  (rows.filter (·.isactive)).map (·.id)

/-- The keys of an `existing_questions` dictionary. -/
def activeQuestionIds (rows : List QuestionRow) : List Nat :=
  (rows.filter (·.isactive)).map (·.id)

/-- The keys of an `existing_scopes` dictionary. -/
def activeScopeIds (rows : List ScopeRow) : List Nat :=
  (rows.filter (·.isactive)).map (·.id)

/-- The keys of the `existing_areas` dictionary. -/
def activeAreaIds (rows : List AreaRow) : List Nat :=
  (rows.filter (·.isactive)).map (·.id)

/-- The in-place update of a matched option row (lines 493-498). -/
def updOptionRow (uid : Option Nat) (p : OptionUP) (o : OptionRow) : OptionRow :=
  { o with
    label := p.label,
    value := p.value,
    updated_by := stampU uid o.updated_by }

/-- A brand-new option row inserted by the merge. -/
def newOptionRow (uid : Option Nat) (qid oid : Nat) (p : OptionUP) : OptionRow :=
  { id := oid, question_id := qid, label := p.label, value := p.value,
    isactive := true, created_by := uid, updated_by := uid }

/-- The payload loop of the option merge: items whose id is a key of the
`existing` map update that row in place, all others insert a new row. -/
def mergeOptionsGo (activeIds : List Nat) (uid : Option Nat) (qid : Nat) :
    List OptionUP → List OptionRow → Nat → List OptionRow × Nat
  | [], rows, fresh => (rows, fresh)
  | p :: ps, rows, fresh =>
    let m : Option OptionRow :=
      match p.id with
      | some i => if activeIds.contains i then rows.find? (fun o => o.id == i) else none
      | none => none
    match m with
    | some o =>
      mergeOptionsGo activeIds uid qid ps
        (rows.map (fun x => if x.id = o.id then updOptionRow uid p o else x)) fresh
    | none =>
      mergeOptionsGo activeIds uid qid ps
        (rows ++ [newOptionRow uid qid fresh p]) (fresh + 1)

/-- Phase one of the option merge: soft-delete each loaded (active) option
whose id is absent from the payload ids. -/
def phaseAOption (uid : Option Nat) (payloadIds : List Nat) (o : OptionRow) :
    OptionRow :=
  if o.isactive ∧ o.id ∉ payloadIds then deactivateOption uid o else o

/-- The option-level merge (lines 482-508): soft-delete the active options
absent from the payload, then walk the payload. -/
def mergeOptions (persisted : List OptionRow) (payload : List OptionUP)
    (uid : Option Nat) (qid : Nat) (fresh : Nat) : List OptionRow × Nat :=
  mergeOptionsGo (activeOptionIds persisted) uid qid payload
    (persisted.map (phaseAOption uid (payload.filterMap (·.id)))) fresh

/-- The in-place update of a matched question row (lines 456-465), with the
already merged options. -/
def updQuestionRow (uid : Option Nat) (p : QuestionUP) (opts : List OptionRow)
    (q : QuestionRow) : QuestionRow :=
  { q with
    text := p.text,
    percentage := p.percentage,
    is_mandatory := p.is_mandatory,
    updated_by := stampU uid q.updated_by,
    options := opts }

/-- A brand-new question row inserted by the merge, with its merged (all
new) options. -/
def newQuestionRow (uid : Option Nat) (sid qid : Nat) (p : QuestionUP)
    (opts : List OptionRow) : QuestionRow :=
  { id := qid, scope_id := sid, text := p.text, percentage := p.percentage,
    is_mandatory := p.is_mandatory, isactive := true,
    created_by := uid, updated_by := uid, options := opts }

/-- The payload loop of the question merge.  A matched question is updated
in place and its own loaded options are the persisted map of the option
merge; an unmatched item becomes a new row whose option merge starts from
the empty persisted map. -/
def mergeQuestionsGo (activeIds : List Nat) (uid : Option Nat) (sid : Nat) :
    List QuestionUP → List QuestionRow → Nat → List QuestionRow × Nat
  | [], rows, fresh => (rows, fresh)
  | p :: ps, rows, fresh =>
    let m : Option QuestionRow :=
      match p.id with
      | some i => if activeIds.contains i then rows.find? (fun q => q.id == i) else none
      | none => none
    match m with
    | some q =>
      mergeQuestionsGo activeIds uid sid ps
        (rows.map (fun x => if x.id = q.id then
          updQuestionRow uid p (mergeOptions q.options p.options uid q.id fresh).1 q else x))
        (mergeOptions q.options p.options uid q.id fresh).2
    | none =>
      mergeQuestionsGo activeIds uid sid ps
        (rows ++ [newQuestionRow uid sid fresh p
          (mergeOptions [] p.options uid fresh (fresh + 1)).1])
        (mergeOptions [] p.options uid fresh (fresh + 1)).2

/-- Phase one of the question merge: soft-delete, options included, each
loaded (active) question whose id is absent from the payload ids. -/
def phaseAQuestion (uid : Option Nat) (payloadIds : List Nat)
    (q : QuestionRow) : QuestionRow :=
  if q.isactive ∧ q.id ∉ payloadIds then deactivateQuestion uid q else q

/-- The question-level merge (lines 441-508). -/
def mergeQuestions (persisted : List QuestionRow) (payload : List QuestionUP)
    (uid : Option Nat) (sid : Nat) (fresh : Nat) : List QuestionRow × Nat :=
  mergeQuestionsGo (activeQuestionIds persisted) uid sid payload
    (persisted.map (phaseAQuestion uid (payload.filterMap (·.id)))) fresh

/-- The in-place update of a matched scope row (lines 417-421), with the
already merged questions. -/
def updScopeRow (uid : Option Nat) (p : ScopeUP) (qs : List QuestionRow)
    (s : ScopeRow) : ScopeRow :=
  { s with
    name := p.name,
    updated_by := stampU uid s.updated_by,
    questions := qs }

/-- A brand-new scope row inserted by the merge. -/
def newScopeRow (uid : Option Nat) (aid sid : Nat) (p : ScopeUP)
    (qs : List QuestionRow) : ScopeRow :=
  { id := sid, area_id := aid, name := p.name, isactive := true,
    created_by := uid, updated_by := uid, questions := qs }

/-- The payload loop of the scope merge. -/
def mergeScopesGo (activeIds : List Nat) (uid : Option Nat) (aid : Nat) :
    List ScopeUP → List ScopeRow → Nat → List ScopeRow × Nat
  | [], rows, fresh => (rows, fresh)
  | p :: ps, rows, fresh =>
    let m : Option ScopeRow :=
      match p.id with
      | some i => if activeIds.contains i then rows.find? (fun s => s.id == i) else none
      | none => none
    match m with
    | some s =>
      mergeScopesGo activeIds uid aid ps
        (rows.map (fun x => if x.id = s.id then
          updScopeRow uid p (mergeQuestions s.questions p.questions uid s.id fresh).1 s else x))
        (mergeQuestions s.questions p.questions uid s.id fresh).2
    | none =>
      mergeScopesGo activeIds uid aid ps
        (rows ++ [newScopeRow uid aid fresh p
          (mergeQuestions [] p.questions uid fresh (fresh + 1)).1])
        (mergeQuestions [] p.questions uid fresh (fresh + 1)).2

/-- Phase one of the scope merge: soft-delete, with cascade, each loaded
(active) scope whose id is absent from the payload ids. -/
def phaseAScope (uid : Option Nat) (payloadIds : List Nat) (s : ScopeRow) :
    ScopeRow :=
  if s.isactive ∧ s.id ∉ payloadIds then deactivateScope uid s else s

/-- The scope-level merge (lines 393-508). -/
def mergeScopes (persisted : List ScopeRow) (payload : List ScopeUP)
    (uid : Option Nat) (aid : Nat) (fresh : Nat) : List ScopeRow × Nat :=
  mergeScopesGo (activeScopeIds persisted) uid aid payload
    (persisted.map (phaseAScope uid (payload.filterMap (·.id)))) fresh

/-- The in-place update of a matched area row (lines 373-379), with the
already merged scopes. -/
def updAreaRow (uid : Option Nat) (p : AreaUP) (ss : List ScopeRow)
    (a : AreaRow) : AreaRow :=
  { a with
    name := p.name,
    weightage := p.weightage,
    updated_by := stampU uid a.updated_by,
    scopes := ss }

/-- A brand-new area row inserted by the merge. -/
def newAreaRow (uid : Option Nat) (tid aid : Nat) (p : AreaUP)
    (ss : List ScopeRow) : AreaRow :=
  { id := aid, template_id := tid, name := p.name, weightage := p.weightage,
    isactive := true, created_by := uid, updated_by := uid, scopes := ss }

/-- The payload loop of the area merge (lines 372-397). -/
def mergeAreasGo (activeIds : List Nat) (uid : Option Nat) (tid : Nat) :
    List AreaUP → List AreaRow → Nat → List AreaRow × Nat
  | [], rows, fresh => (rows, fresh)
  | p :: ps, rows, fresh =>
    let m : Option AreaRow :=
      match p.id with
      | some i => if activeIds.contains i then rows.find? (fun a => a.id == i) else none
      | none => none
    match m with
    | some a =>
      mergeAreasGo activeIds uid tid ps
        (rows.map (fun x => if x.id = a.id then
          updAreaRow uid p (mergeScopes a.scopes p.scopes uid a.id fresh).1 a else x))
        (mergeScopes a.scopes p.scopes uid a.id fresh).2
    | none =>
      mergeAreasGo activeIds uid tid ps
        (rows ++ [newAreaRow uid tid fresh p
          (mergeScopes [] p.scopes uid fresh (fresh + 1)).1])
        (mergeScopes [] p.scopes uid fresh (fresh + 1)).2

/-- Phase one of the area merge (lines 351-369): soft-delete, with full
cascade, each loaded (active) area whose id is absent from the payload
ids. -/
def phaseAArea (uid : Option Nat) (payloadIds : List Nat) (a : AreaRow) :
    AreaRow :=
  if a.isactive ∧ a.id ∉ payloadIds then deactivateArea uid a else a

/-- The area-level merge (lines 347-397): soft-delete, with full cascade,
the active areas whose id is not among the payload ids, then walk the
payload areas. -/
def mergeAreas (persisted : List AreaRow) (payload : List AreaUP)
    (uid : Option Nat) (tid : Nat) (fresh : Nat) : List AreaRow × Nat :=
  mergeAreasGo (activeAreaIds persisted) uid tid payload
    (persisted.map (phaseAArea uid (payload.filterMap (·.id)))) fresh

/-! ## Service operations (AuditTemplateService) -/

/-- Conflict detail for a duplicate template name. -/
def conflictMsg (name : String) : String :=
  "Template with name " ++ name ++ " already exists"

/-- get_template_detail (lines 262-266). -/
def getTemplateDetail (db : DB) (tid : Nat) : Except ApiError TemplateDetail :=
  match getByIdWithDetails db tid with
  | none => .error (.notFound "Template not found")
  | some t => .ok (templateDetailResponse t)

/-- The database state committed by a successful create_template or
clone_template: the old rows plus the freshly built tree. -/
def createResultDB (db : DB) (p : TemplateCP) (uid : Option Nat) : DB :=
  { templates := db.templates ++ [(createWithTree db p.name p.areas uid).1],
    nextId := (createWithTree db p.name p.areas uid).2 }

/-- The detail reloaded after a successful create_template or
clone_template.  The freshly inserted template is always found by the
reload; the fallback of getD is never taken. -/
def createResultDetail (db : DB) (p : TemplateCP) (uid : Option Nat) :
    TemplateDetail :=
  templateDetailResponse
    (((findTemplate (createResultDB db p uid)
        (createWithTree db p.name p.areas uid).1.id).getD
      (createWithTree db p.name p.areas uid).1).activeView)

/-- create_template (lines 270-305): name-uniqueness check, the seven
validators in order, then atomic creation of the tree and reload of the
detail. -/
def createTemplate (db : DB) (p : TemplateCP) (uid : Option Nat) :
    Except ApiError (DB × TemplateDetail) := do
  match getByName db p.name with
  | some _ => throw (.conflict (conflictMsg p.name))
  | none => pure ()
  let areasData := p.areas.map AreaCP.toU
  validateEmptyQuestionScopesAreas areasData
  validateAreaNames areasData
  validateScopeNames areasData
  validateQuestionNames areasData
  validateOptionLabels areasData
  validateOptionValues areasData
  validateScopePercentages areasData
  pure (createResultDB db p uid, createResultDetail db p uid)

/-- The template row as mutated by update_template: new name, modifier
stamp, and the areas replaced by the four-level merge result. -/
def updatedTemplateRow (db : DB) (tid : Nat) (p : TemplateUP)
    (uid : Option Nat) (t : TemplateRow) : TemplateRow :=
  { t with
    name := p.name,
    updated_by := stampU uid t.updated_by,
    areas := (mergeAreas t.areas p.areas uid tid db.nextId).1 }

/-- update_template (lines 309-513): load the full tree (no activity filter
on the template row itself), re-check the name when changed, run the seven
validators over the payload, set name and stamp, merge all four levels,
commit once and return the reloaded detail. -/
def updateTemplate (db : DB) (tid : Nat) (p : TemplateUP) (uid : Option Nat) :
    Except ApiError (DB × TemplateDetail) := do
  let t ← match findTemplate db tid with
    | none => throw (.notFound "Template not found")
    | some t => pure t
  if p.name = t.name then pure ()
  else
    match getByName db p.name with
    | some _ => throw (.conflict (conflictMsg p.name))
    | none => pure ()
  validateEmptyQuestionScopesAreas p.areas
  validateAreaNames p.areas
  validateScopeNames p.areas
  validateQuestionNames p.areas
  validateOptionLabels p.areas
  validateOptionValues p.areas
  validateScopePercentages p.areas
  let db' : DB :=
    { templates := db.templates.map (fun x =>
        if x.id = tid then updatedTemplateRow db tid p uid t else x),
      nextId := (mergeAreas t.areas p.areas uid tid db.nextId).2 }
  pure (db', templateDetailResponse
    (((findTemplate db' tid).getD (updatedTemplateRow db tid p uid t)).activeView))

/-- delete_template (lines 517-522) together with
AuditTemplateRepository.soft_delete (lines 114-118): 404 unless the id
resolves to an active template, then mark that single row inactive. -/
def deleteTemplate (db : DB) (tid : Nat) (uid : Option Nat) : Except ApiError DB :=
  match getById db tid with
  | none => .error (.notFound "Template not found")
  | some _ =>
    .ok { db with templates := db.templates.map (fun x =>
      if x.id = tid ∧ x.isactive then
        { x with isactive := false, updated_by := stampU uid x.updated_by }
      else x) }

/-- AuditAreaService.delete_area together with
AuditAreaRepository.soft_delete: 404 unless the id resolves to an active
area, then mark that single row inactive. -/
def deleteArea (db : DB) (aid : Nat) (uid : Option Nat) : Except ApiError DB :=
  match findAreaActive db aid with
  | none => .error (.notFound "Area not found")
  | some _ =>
    .ok { db with templates := db.templates.map (fun t =>
      { t with areas := t.areas.map (fun a =>
        if a.id = aid ∧ a.isactive then
          { a with isactive := false, updated_by := stampU uid a.updated_by }
        else a) }) }

/-- DEFAULT_TEMPLATE_NAME (line 22). -/
def defaultTemplateName : String := "Default Audit Template"

/-- DEFAULT_AREAS (lines 23-29): five areas of weightage 20, no scopes. -/
def defaultAreas : List AreaCP :=
  [ { name := "Project Execution", weightage := 20 },
    { name := "Engineering Excellence", weightage := 20 },
    { name := "Communication", weightage := 20 },
    { name := "People Management", weightage := 20 },
    { name := "Learning & Innovation", weightage := 20 } ]

/-- seed_default_template (lines 526-544): return the template of the
default name if one exists, else create it from DEFAULT_AREAS (running no
validators) and return it.  The service serializes through
_template_to_response in both branches. -/
def seedDefaultTemplate (db : DB) (uid : Option Nat) :
    Except ApiError (DB × TemplateResp) :=
  match getByName db defaultTemplateName with
  | some t =>
    .ok (db, templateResponse (((findTemplate db t.id).getD t).activeView))
  | none =>
    let t := (createWithTree db defaultTemplateName defaultAreas uid).1
    let db' : DB := { templates := db.templates ++ [t],
                      nextId := (createWithTree db defaultTemplateName defaultAreas uid).2 }
    .ok (db', templateResponse (((findTemplate db' t.id).getD t).activeView))

/-- clone_template (lines 548-595): 404 unless the source id resolves to an
active template, then exactly the create path under the new name — the new
tree is built entirely from the payload. -/
def cloneTemplate (db : DB) (sourceId : Nat) (p : TemplateCP) (uid : Option Nat) :
    Except ApiError (DB × TemplateDetail) := do
  match getById db sourceId with
  | none => throw (.notFound "Source template not found")
  | some _ => pure ()
  match getByName db p.name with
  | some _ => throw (.conflict (conflictMsg p.name))
  | none => pure ()
  let areasData := p.areas.map AreaCP.toU
  validateEmptyQuestionScopesAreas areasData
  validateAreaNames areasData
  validateScopeNames areasData
  validateQuestionNames areasData
  validateOptionLabels areasData
  validateOptionValues areasData
  validateScopePercentages areasData
  pure (createResultDB db p uid, createResultDetail db p uid)

/-! ## Generic list lemmas used by the reconciliation proofs -/

/-- Filtering on a key commutes with mapping a key-preserving function. -/
theorem filter_map_of_key_eq {α : Type} (key : α → Nat) (fn : α → α)
    (hk : ∀ r, key (fn r) = key r) (l : List α) (i : Nat) :
    (l.map fn).filter (fun r => key r == i) =
      (l.filter (fun r => key r == i)).map fn := by
  induction l with
  | nil => rfl
  | cons x xs ih =>
    simp only [List.map_cons, List.filter_cons, hk]
    cases h : (key x == i) with
    | true => simp [h, ih]
    | false => simp [h, ih]

/-- A member of a list with pairwise distinct keys is the unique survivor of
filtering on its key. -/
theorem filter_key_singleton {α : Type} (key : α → Nat) (l : List α) (a : α)
    (ha : a ∈ l) (hnd : (l.map key).Nodup) :
    l.filter (fun r => key r == key a) = [a] := by
  induction l with
  | nil => cases ha
  | cons x xs ih =>
    simp only [List.map_cons, List.nodup_cons] at hnd
    rcases List.mem_cons.mp ha with rfl | hmem
    · have hnil : xs.filter (fun r => key r == key a) = [] := by
        apply List.filter_eq_nil_iff.mpr
        intro r hr hkey
        exact hnd.1 (by
          have : key r = key a := by simpa using hkey
          rw [← this]
          exact List.mem_map_of_mem key hr)
      simp [List.filter_cons, hnil]
    · have hne : key x ≠ key a := by
        intro hEq
        exact hnd.1 (hEq ▸ List.mem_map_of_mem key hmem)
      simp only [List.filter_cons]
      have : (key x == key a) = false := by simpa using hne
      simp [this, ih hmem hnd.2]

/-- When filtering leaves a single element, find? returns it. -/
theorem find?_eq_of_filter_eq_singleton {α : Type} (p : α → Bool) (l : List α)
    (a : α) (h : l.filter p = [a]) : l.find? p = some a := by
  induction l with
  | nil => simp at h
  | cons x xs ih =>
    cases hp : p x with
    | true =>
      rw [List.filter_cons_of_pos hp] at h
      rw [List.find?_cons_of_pos _ hp]
      exact congrArg some (List.cons_eq_cons.mp h).1
    | false =>
      rw [List.filter_cons_of_neg (by simp [hp])] at h
      rw [List.find?_cons_of_neg _ (by simp [hp])]
      exact ih h

/-- Replacing the row of one key by a row of that same key is a
key-preserving map. -/
theorem key_eq_replace {α : Type} (key : α → Nat) (j : Nat) (x : α)
    (hx : key x = j) : ∀ r, key (if key r = j then x else r) = key r := by
  intro r
  by_cases h : key r = j
  · simp [h, hx]
  · simp [h]

/-- Filtering at one key ignores an update performed at another key. -/
theorem filter_replace_other {α : Type} (key : α → Nat) (l : List α)
    (i j : Nat) (x : α) (hx : key x = j) (hne : i ≠ j) :
    (l.map (fun r => if key r = j then x else r)).filter (fun r => key r == i) =
      l.filter (fun r => key r == i) := by
  rw [filter_map_of_key_eq key _ (key_eq_replace key j x hx)]
  have hcong : (l.filter (fun r => key r == i)).map (fun r => if key r = j then x else r)
      = (l.filter (fun r => key r == i)).map (fun r => r) := by
    apply List.map_congr_left
    intro r hr
    have hki : key r = i := by simpa using (List.mem_filter.mp hr).2
    have hne2 : ¬(key r = j) := by rw [hki]; exact hne
    simp [hne2]
  rw [hcong]
  simp

/-- Filtering at the key of an in-place update produces the updated rows. -/
theorem filter_replace_self {α : Type} (key : α → Nat) (l : List α)
    (i : Nat) (x : α) (hx : key x = i) :
    (l.map (fun r => if key r = i then x else r)).filter (fun r => key r == i) =
      (l.filter (fun r => key r == i)).map (fun _ => x) := by
  rw [filter_map_of_key_eq key _ (key_eq_replace key i x hx)]
  apply List.map_congr_left
  intro r hr
  have : key r = i := by simpa using (List.mem_filter.mp hr).2
  simp [this]

/-! ## Cascade lemmas: the soft delete of a loaded node leaves its entire
subtree inactive, provided the stored tree satisfies the invariant that the
service itself maintains (an inactive node has no active descendants). -/

/-- Every node of the question subtree is inactive. -/
def QuestionRow.subtreeInactive (q : QuestionRow) : Bool :=
  !q.isactive && q.options.all (fun o => !o.isactive)

/-- Every node of the scope subtree is inactive. -/
def ScopeRow.subtreeInactive (s : ScopeRow) : Bool :=
  !s.isactive && s.questions.all QuestionRow.subtreeInactive

/-- Every node of the area subtree is inactive. -/
def AreaRow.subtreeInactive (a : AreaRow) : Bool :=
  !a.isactive && a.scopes.all ScopeRow.subtreeInactive

/-- The stored-tree invariant at a question: if it is inactive, so are its
options. -/
def QuestionRow.cascadeInv (q : QuestionRow) : Bool :=
  q.isactive || q.options.all (fun o => !o.isactive)

/-- The stored-tree invariant at a scope. -/
def ScopeRow.cascadeInv (s : ScopeRow) : Bool :=
  if s.isactive then s.questions.all QuestionRow.cascadeInv
  else s.subtreeInactive

/-- The stored-tree invariant at an area. -/
def AreaRow.cascadeInv (a : AreaRow) : Bool :=
  if a.isactive then a.scopes.all ScopeRow.cascadeInv
  else a.subtreeInactive

/-- Soft-deleting a question leaves its whole subtree inactive. -/
theorem deactivateQuestion_subtreeInactive (uid : Option Nat) (q : QuestionRow) :
    (deactivateQuestion uid q).subtreeInactive = true := by
  simp only [deactivateQuestion, QuestionRow.subtreeInactive, deactivateOption]
  simp only [Bool.not_false, Bool.true_and, List.all_map, List.all_eq_true,
    Function.comp_apply]
  intro o _
  by_cases h : o.isactive <;> simp [h]

/-- Soft-deleting a scope whose questions satisfy the invariant leaves its
whole subtree inactive. -/
theorem deactivateScope_subtreeInactive (uid : Option Nat) (s : ScopeRow)
    (h : s.questions.all QuestionRow.cascadeInv = true) :
    (deactivateScope uid s).subtreeInactive = true := by
  simp only [deactivateScope, ScopeRow.subtreeInactive]
  simp only [Bool.not_false, Bool.true_and, List.all_map, List.all_eq_true,
    Function.comp_apply]
  intro q hq
  by_cases hact : q.isactive
  · simp [hact, deactivateQuestion_subtreeInactive]
  · have hc := (List.all_eq_true.mp h) q hq
    simp only [QuestionRow.cascadeInv] at hc
    have hopts : q.options.all (fun o => !o.isactive) = true := by
      cases hq2 : q.isactive with
      | true => exact absurd hq2 hact
      | false => simpa [hq2] using hc
    simp [hact, QuestionRow.subtreeInactive, hopts]

/-- Soft-deleting an active area satisfying the invariant leaves its whole
subtree inactive. -/
theorem deactivateArea_subtreeInactive (uid : Option Nat) (a : AreaRow)
    (hact : a.isactive = true) (h : a.cascadeInv = true) :
    (deactivateArea uid a).subtreeInactive = true := by
  simp only [AreaRow.cascadeInv, hact, if_true] at h
  simp only [deactivateArea, AreaRow.subtreeInactive]
  simp only [Bool.not_false, Bool.true_and, List.all_map, List.all_eq_true,
    Function.comp_apply]
  intro s hs
  have hc := (List.all_eq_true.mp h) s hs
  by_cases hsa : s.isactive
  · simp only [hsa, if_true]
    apply deactivateScope_subtreeInactive
    simpa [ScopeRow.cascadeInv, hsa] using hc
  · simp only [hsa, if_false, Bool.false_eq_true]
    simpa [ScopeRow.cascadeInv, hsa] using hc

/-! ## Properties of the option-level merge -/

/-- One step of the option payload loop is either an in-place update of a
matched active row or the insertion of a new row. -/
theorem mergeOptionsGo_cons_cases (ids : List Nat) (uid : Option Nat)
    (qid : Nat) (p : OptionUP) (ps : List OptionUP) (rows : List OptionRow)
    (f : Nat) :
    (∃ o i, p.id = some i ∧ ids.contains i = true ∧ o ∈ rows ∧ o.id = i ∧
      mergeOptionsGo ids uid qid (p :: ps) rows f =
        mergeOptionsGo ids uid qid ps
          (rows.map (fun x => if x.id = o.id then updOptionRow uid p o else x)) f)
    ∨ mergeOptionsGo ids uid qid (p :: ps) rows f =
        mergeOptionsGo ids uid qid ps (rows ++ [newOptionRow uid qid f p]) (f + 1) := by
  cases hp : p.id with
  | none => right; simp [mergeOptionsGo, hp]
  | some i =>
    cases hc : ids.contains i with
    | false =>
      right
      have hc' : i ∉ ids := by simpa using hc
      simp [mergeOptionsGo, hp, hc']
    | true =>
      have hc' : i ∈ ids := by simpa using hc
      cases hf : rows.find? (fun o => o.id == i) with
      | none => right; simp [mergeOptionsGo, hp, hc', hf]
      | some o =>
        left
        refine ⟨o, i, rfl, hc, List.mem_of_find?_eq_some hf, ?_, ?_⟩
        · simpa using List.find?_some hf
        · simp [mergeOptionsGo, hp, hc', hf]

/-- The option payload loop never decreases the fresh-identity counter. -/
theorem mergeOptionsGo_mono (ids : List Nat) (uid : Option Nat) (qid : Nat) :
    ∀ (ps : List OptionUP) (rows : List OptionRow) (f : Nat),
      f ≤ (mergeOptionsGo ids uid qid ps rows f).2 := by
  intro ps
  induction ps with
  | nil => intro rows f; simp [mergeOptionsGo]
  | cons p ps ih =>
    intro rows f
    rcases mergeOptionsGo_cons_cases ids uid qid p ps rows f with
      ⟨o, i, _, _, _, _, heq⟩ | heq
    · rw [heq]; exact ih _ _
    · rw [heq]; exact le_trans (Nat.le_succ f) (ih _ _)

/-- The option merge never decreases the fresh-identity counter. -/
theorem mergeOptions_mono (persisted : List OptionRow) (payload : List OptionUP)
    (uid : Option Nat) (qid : Nat) (f : Nat) :
    f ≤ (mergeOptions persisted payload uid qid f).2 := by
  simp only [mergeOptions]
  exact mergeOptionsGo_mono _ _ _ _ _ _

/-- The option payload loop leaves rows of an id it never mentions
untouched. -/
theorem mergeOptionsGo_filter_untouched (ids : List Nat) (uid : Option Nat)
    (qid : Nat) :
    ∀ (ps : List OptionUP) (rows : List OptionRow) (f i : Nat),
      i ∉ ps.filterMap (·.id) → i < f →
      (mergeOptionsGo ids uid qid ps rows f).1.filter (fun r => r.id == i) =
        rows.filter (fun r => r.id == i) := by
  intro ps
  induction ps with
  | nil => intro rows f i _ _; simp [mergeOptionsGo]
  | cons p ps ih =>
    intro rows f i hni hlt
    have hni' : i ∉ ps.filterMap (·.id) := by
      intro h
      apply hni
      cases hp : p.id <;> simp [List.filterMap_cons, hp, h]
    rcases mergeOptionsGo_cons_cases ids uid qid p ps rows f with
      ⟨o, j, hpid, _, _, hoid, heq⟩ | heq
    · rw [heq, ih _ _ _ hni' hlt]
      have hne : i ≠ o.id := by
        rw [hoid]
        intro hEq
        exact hni (by simp [List.filterMap_cons, hpid, hEq])
      exact filter_replace_other (fun r => r.id) rows i o.id
        (updOptionRow uid p o) rfl hne
    · rw [heq, ih _ _ _ hni' (lt_trans hlt (Nat.lt_succ_self f))]
      rw [List.filter_append]
      have hnew : ((newOptionRow uid qid f p).id == i) = false := by
        simp [newOptionRow]
        omega
      simp [List.filter_cons, hnew]

/-- The option payload loop preserves membership of rows whose id is not an
existing-map key. -/
theorem mergeOptionsGo_mem_pres (ids : List Nat) (uid : Option Nat)
    (qid : Nat) :
    ∀ (ps : List OptionUP) (rows : List OptionRow) (f : Nat) (x : OptionRow),
      x ∈ rows → x.id ∉ ids → x ∈ (mergeOptionsGo ids uid qid ps rows f).1 := by
  intro ps
  induction ps with
  | nil => intro rows f x hx _; simpa [mergeOptionsGo] using hx
  | cons p ps ih =>
    intro rows f x hx hxid
    rcases mergeOptionsGo_cons_cases ids uid qid p ps rows f with
      ⟨o, i, _, hc, _, hoid, heq⟩ | heq
    · rw [heq]
      apply ih _ _ _ _ hxid
      have hne : x.id ≠ o.id := by
        rw [hoid]
        intro hEq
        exact hxid (hEq ▸ by simpa using hc)
      have himg : (if x.id = o.id then updOptionRow uid p o else x) = x := by
        simp [hne]
      rw [← himg]
      exact List.mem_map_of_mem _ hx
    · rw [heq]
      exact ih _ _ _ (List.mem_append_left _ hx) hxid

/-- A payload option carrying the id of an active persisted row updates
that row in place; no other payload item disturbs it. -/
theorem mergeOptionsGo_matched (ids : List Nat) (uid : Option Nat)
    (qid : Nat) :
    ∀ (ps : List OptionUP) (rows : List OptionRow) (f : Nat) (p : OptionUP)
      (i : Nat) (a : OptionRow),
      (ps.filterMap (·.id)).Nodup → p ∈ ps → p.id = some i →
      ids.contains i = true → rows.filter (fun r => r.id == i) = [a] →
      i < f →
      (mergeOptionsGo ids uid qid ps rows f).1.filter (fun r => r.id == i) =
        [updOptionRow uid p a] := by
  intro ps
  induction ps with
  | nil => intro rows f p i a _ hp; cases hp
  | cons p' ps ih =>
    intro rows f p i a hnd hp hpid hc hflt hlt
    rcases List.mem_cons.mp hp with rfl | hptail
    · have hfind : rows.find? (fun r => r.id == i) = some a :=
        find?_eq_of_filter_eq_singleton _ _ _ hflt
      have haid : a.id = i := by
        have hma : a ∈ rows.filter (fun r => r.id == i) := by
          rw [hflt]; exact List.mem_singleton_self a
        simpa using (List.mem_filter.mp hma).2
      have hc' : i ∈ ids := by simpa using hc
      have hstep : mergeOptionsGo ids uid qid (p :: ps) rows f =
          mergeOptionsGo ids uid qid ps
            (rows.map (fun x => if x.id = a.id then updOptionRow uid p a else x)) f := by
        simp [mergeOptionsGo, hpid, hc', hfind]
      rw [hstep]
      have hni : i ∉ ps.filterMap (·.id) := by
        rw [List.filterMap_cons, hpid] at hnd
        exact (List.nodup_cons.mp hnd).1
      rw [mergeOptionsGo_filter_untouched _ _ _ _ _ _ _ hni hlt]
      rw [haid]
      rw [filter_replace_self (fun r => r.id) rows i (updOptionRow uid p a)
        (by simp [updOptionRow, haid])]
      rw [hflt]
      rfl
    · have hnd' : (ps.filterMap (·.id)).Nodup := by
        rw [List.filterMap_cons] at hnd
        cases hp' : p'.id with
        | none => rwa [hp'] at hnd
        | some j => rw [hp'] at hnd; exact (List.nodup_cons.mp hnd).2
      rcases mergeOptionsGo_cons_cases ids uid qid p' ps rows f with
        ⟨o, j, hpid', hc', hmem', hoid', heq⟩ | heq
      · rw [heq]
        have hne : i ≠ j := by
          intro hEq
          subst hEq
          rw [List.filterMap_cons, hpid'] at hnd
          have : i ∈ ps.filterMap (·.id) := List.mem_filterMap.mpr ⟨p, hptail, hpid⟩
          exact (List.nodup_cons.mp hnd).1 this
        have hflt' : (rows.map (fun x =>
            if x.id = o.id then updOptionRow uid p' o else x)).filter
              (fun r => r.id == i) = [a] := by
          rw [filter_replace_other (fun r => r.id) rows i o.id
            (updOptionRow uid p' o) rfl (hoid' ▸ hne)]
          exact hflt
        exact ih _ _ _ _ _ hnd' hptail hpid hc hflt' hlt
      · rw [heq]
        have hflt' : (rows ++ [newOptionRow uid qid f p']).filter
            (fun r => r.id == i) = [a] := by
          rw [List.filter_append]
          have hnew : ((newOptionRow uid qid f p').id == i) = false := by
            simp [newOptionRow]
            omega
          simp [List.filter_cons, hnew, hflt]
        exact ih _ _ _ _ _ hnd' hptail hpid hc hflt'
          (lt_trans hlt (Nat.lt_succ_self f))

/-- A payload option with no id, or with an id that is not an existing-map
key, becomes a brand-new row. -/
theorem mergeOptionsGo_new (ids : List Nat) (uid : Option Nat) (qid : Nat) :
    ∀ (ps : List OptionUP) (rows : List OptionRow) (f : Nat) (p : OptionUP),
      p ∈ ps →
      (p.id = none ∨ ∃ i, p.id = some i ∧ ids.contains i = false) →
      (∀ j ∈ ids, j < f) →
      ∃ oid, f ≤ oid ∧
        newOptionRow uid qid oid p ∈ (mergeOptionsGo ids uid qid ps rows f).1 := by
  intro ps
  induction ps with
  | nil => intro rows f p hp; cases hp
  | cons p' ps ih =>
    intro rows f p hp hun hids
    rcases List.mem_cons.mp hp with rfl | hptail
    · have hstep : mergeOptionsGo ids uid qid (p :: ps) rows f =
          mergeOptionsGo ids uid qid ps (rows ++ [newOptionRow uid qid f p]) (f + 1) := by
        rcases hun with hnone | ⟨i, hpid, hc⟩
        · simp [mergeOptionsGo, hnone]
        · have hc' : i ∉ ids := by simpa using hc
          simp [mergeOptionsGo, hpid, hc']
      refine ⟨f, le_refl f, ?_⟩
      rw [hstep]
      apply mergeOptionsGo_mem_pres
      · exact List.mem_append_right _ (List.mem_singleton_self _)
      · intro hmem
        have := hids _ hmem
        simp [newOptionRow] at this
    · rcases mergeOptionsGo_cons_cases ids uid qid p' ps rows f with
        ⟨o, i, _, _, _, _, heq⟩ | heq
      · rw [heq]
        exact ih _ f p hptail hun hids
      · rw [heq]
        have hids' : ∀ j ∈ ids, j < f + 1 :=
          fun j hj => lt_trans (hids j hj) (Nat.lt_succ_self f)
        obtain ⟨oid, hle, hm⟩ := ih _ (f + 1) p hptail hun hids'
        exact ⟨oid, le_trans (Nat.le_succ f) hle, hm⟩

/-! ## Properties of the question-level merge -/

/-- One step of the question payload loop is either an in-place update of a
matched active row (merging its own options) or the insertion of a new row
whose options merge starts from the empty persisted map. -/
theorem mergeQuestionsGo_cons_cases (ids : List Nat) (uid : Option Nat)
    (sid : Nat) (p : QuestionUP) (ps : List QuestionUP)
    (rows : List QuestionRow) (f : Nat) :
    (∃ q i, p.id = some i ∧ ids.contains i = true ∧ q ∈ rows ∧ q.id = i ∧
      mergeQuestionsGo ids uid sid (p :: ps) rows f =
        mergeQuestionsGo ids uid sid ps
          (rows.map (fun x => if x.id = q.id then
            updQuestionRow uid p (mergeOptions q.options p.options uid q.id f).1 q else x))
          (mergeOptions q.options p.options uid q.id f).2)
    ∨ mergeQuestionsGo ids uid sid (p :: ps) rows f =
        mergeQuestionsGo ids uid sid ps
          (rows ++ [newQuestionRow uid sid f p
            (mergeOptions [] p.options uid f (f + 1)).1])
          (mergeOptions [] p.options uid f (f + 1)).2 := by
  cases hp : p.id with
  | none => right; simp [mergeQuestionsGo, hp]
  | some i =>
    cases hc : ids.contains i with
    | false =>
      right
      have hc' : i ∉ ids := by simpa using hc
      simp [mergeQuestionsGo, hp, hc']
    | true =>
      have hc' : i ∈ ids := by simpa using hc
      cases hf : rows.find? (fun q => q.id == i) with
      | none => right; simp [mergeQuestionsGo, hp, hc', hf]
      | some q =>
        left
        refine ⟨q, i, rfl, hc, List.mem_of_find?_eq_some hf, ?_, ?_⟩
        · simpa using List.find?_some hf
        · simp [mergeQuestionsGo, hp, hc', hf]

/-- The question payload loop never decreases the fresh-identity counter. -/
theorem mergeQuestionsGo_mono (ids : List Nat) (uid : Option Nat) (sid : Nat) :
    ∀ (ps : List QuestionUP) (rows : List QuestionRow) (f : Nat),
      f ≤ (mergeQuestionsGo ids uid sid ps rows f).2 := by
  intro ps
  induction ps with
  | nil => intro rows f; simp [mergeQuestionsGo]
  | cons p ps ih =>
    intro rows f
    rcases mergeQuestionsGo_cons_cases ids uid sid p ps rows f with
      ⟨q, i, _, _, _, _, heq⟩ | heq
    · rw [heq]
      exact le_trans (mergeOptions_mono _ _ _ _ _) (ih _ _)
    · rw [heq]
      exact le_trans (Nat.le_succ f)
        (le_trans (mergeOptions_mono _ _ _ _ _) (ih _ _))

/-- The question merge never decreases the fresh-identity counter. -/
theorem mergeQuestions_mono (persisted : List QuestionRow)
    (payload : List QuestionUP) (uid : Option Nat) (sid : Nat) (f : Nat) :
    f ≤ (mergeQuestions persisted payload uid sid f).2 := by
  simp only [mergeQuestions]
  exact mergeQuestionsGo_mono _ _ _ _ _ _

/-- The question payload loop leaves rows of an id it never mentions
untouched. -/
theorem mergeQuestionsGo_filter_untouched (ids : List Nat) (uid : Option Nat)
    (sid : Nat) :
    ∀ (ps : List QuestionUP) (rows : List QuestionRow) (f i : Nat),
      i ∉ ps.filterMap (·.id) → i < f →
      (mergeQuestionsGo ids uid sid ps rows f).1.filter (fun r => r.id == i) =
        rows.filter (fun r => r.id == i) := by
  intro ps
  induction ps with
  | nil => intro rows f i _ _; simp [mergeQuestionsGo]
  | cons p ps ih =>
    intro rows f i hni hlt
    have hni' : i ∉ ps.filterMap (·.id) := by
      intro h
      apply hni
      cases hp : p.id <;> simp [List.filterMap_cons, hp, h]
    rcases mergeQuestionsGo_cons_cases ids uid sid p ps rows f with
      ⟨q, j, hpid, _, _, hqid, heq⟩ | heq
    · rw [heq, ih _ _ _ hni'
        (lt_of_lt_of_le hlt (mergeOptions_mono _ _ _ _ _))]
      have hne : i ≠ q.id := by
        rw [hqid]
        intro hEq
        exact hni (by simp [List.filterMap_cons, hpid, hEq])
      exact filter_replace_other (fun r => r.id) rows i q.id
        (updQuestionRow uid p (mergeOptions q.options p.options uid q.id f).1 q)
        rfl hne
    · rw [heq, ih _ _ _ hni'
        (lt_of_lt_of_le (lt_trans hlt (Nat.lt_succ_self f))
          (mergeOptions_mono _ _ _ _ _))]
      rw [List.filter_append]
      have hnew : ((newQuestionRow uid sid f p
          (mergeOptions [] p.options uid f (f + 1)).1).id == i) = false := by
        simp [newQuestionRow]
        omega
      simp [List.filter_cons, hnew]

/-- The question payload loop preserves membership of rows whose id is not
an existing-map key. -/
theorem mergeQuestionsGo_mem_pres (ids : List Nat) (uid : Option Nat)
    (sid : Nat) :
    ∀ (ps : List QuestionUP) (rows : List QuestionRow) (f : Nat)
      (x : QuestionRow),
      x ∈ rows → x.id ∉ ids → x ∈ (mergeQuestionsGo ids uid sid ps rows f).1 := by
  intro ps
  induction ps with
  | nil => intro rows f x hx _; simpa [mergeQuestionsGo] using hx
  | cons p ps ih =>
    intro rows f x hx hxid
    rcases mergeQuestionsGo_cons_cases ids uid sid p ps rows f with
      ⟨q, i, _, hc, _, hqid, heq⟩ | heq
    · rw [heq]
      apply ih _ _ _ _ hxid
      have hne : x.id ≠ q.id := by
        rw [hqid]
        intro hEq
        exact hxid (hEq ▸ by simpa using hc)
      have himg : (if x.id = q.id then
          updQuestionRow uid p (mergeOptions q.options p.options uid q.id f).1 q
          else x) = x := by
        simp [hne]
      rw [← himg]
      exact List.mem_map_of_mem _ hx
    · rw [heq]
      exact ih _ _ _ (List.mem_append_left _ hx) hxid

/-- A payload question carrying the id of an active persisted row updates
that row in place, merging the payload options against that row's own
options; no other payload item disturbs it. -/
theorem mergeQuestionsGo_matched (ids : List Nat) (uid : Option Nat)
    (sid : Nat) :
    ∀ (ps : List QuestionUP) (rows : List QuestionRow) (f : Nat)
      (p : QuestionUP) (i : Nat) (a : QuestionRow),
      (ps.filterMap (·.id)).Nodup → p ∈ ps → p.id = some i →
      ids.contains i = true → rows.filter (fun r => r.id == i) = [a] →
      i < f →
      ∃ g, f ≤ g ∧
        (mergeQuestionsGo ids uid sid ps rows f).1.filter (fun r => r.id == i) =
          [updQuestionRow uid p (mergeOptions a.options p.options uid a.id g).1 a] := by
  intro ps
  induction ps with
  | nil => intro rows f p i a _ hp; cases hp
  | cons p' ps ih =>
    intro rows f p i a hnd hp hpid hc hflt hlt
    rcases List.mem_cons.mp hp with rfl | hptail
    · have hfind : rows.find? (fun r => r.id == i) = some a :=
        find?_eq_of_filter_eq_singleton _ _ _ hflt
      have haid : a.id = i := by
        have hma : a ∈ rows.filter (fun r => r.id == i) := by
          rw [hflt]; exact List.mem_singleton_self a
        simpa using (List.mem_filter.mp hma).2
      have hc' : i ∈ ids := by simpa using hc
      have hstep : mergeQuestionsGo ids uid sid (p :: ps) rows f =
          mergeQuestionsGo ids uid sid ps
            (rows.map (fun x => if x.id = a.id then
              updQuestionRow uid p (mergeOptions a.options p.options uid a.id f).1 a
              else x))
            (mergeOptions a.options p.options uid a.id f).2 := by
        simp [mergeQuestionsGo, hpid, hc', hfind]
      rw [hstep]
      have hni : i ∉ ps.filterMap (·.id) := by
        rw [List.filterMap_cons, hpid] at hnd
        exact (List.nodup_cons.mp hnd).1
      refine ⟨f, le_refl f, ?_⟩
      rw [mergeQuestionsGo_filter_untouched _ _ _ _ _ _ _ hni
        (lt_of_lt_of_le hlt (mergeOptions_mono _ _ _ _ _))]
      rw [← haid] at hflt ⊢
      rw [filter_replace_self (fun r => r.id) rows a.id
        (updQuestionRow uid p (mergeOptions a.options p.options uid a.id f).1 a) rfl]
      rw [hflt]
      rfl
    · have hnd' : (ps.filterMap (·.id)).Nodup := by
        rw [List.filterMap_cons] at hnd
        cases hp' : p'.id with
        | none => rwa [hp'] at hnd
        | some j => rw [hp'] at hnd; exact (List.nodup_cons.mp hnd).2
      rcases mergeQuestionsGo_cons_cases ids uid sid p' ps rows f with
        ⟨q, j, hpid', hc', hmem', hqid', heq⟩ | heq
      · rw [heq]
        have hne : i ≠ j := by
          intro hEq
          subst hEq
          rw [List.filterMap_cons, hpid'] at hnd
          have : i ∈ ps.filterMap (·.id) := List.mem_filterMap.mpr ⟨p, hptail, hpid⟩
          exact (List.nodup_cons.mp hnd).1 this
        have hflt' : (rows.map (fun x => if x.id = q.id then
            updQuestionRow uid p' (mergeOptions q.options p'.options uid q.id f).1 q
            else x)).filter (fun r => r.id == i) = [a] := by
          rw [filter_replace_other (fun r => r.id) rows i q.id
            (updQuestionRow uid p' (mergeOptions q.options p'.options uid q.id f).1 q)
            rfl (hqid' ▸ hne)]
          exact hflt
        obtain ⟨g, hg, hres⟩ := ih _ _ p i a hnd' hptail hpid hc hflt'
          (lt_of_lt_of_le hlt (mergeOptions_mono _ _ _ _ _))
        exact ⟨g, le_trans (mergeOptions_mono _ _ _ _ _) hg, hres⟩
      · rw [heq]
        have hflt' : (rows ++ [newQuestionRow uid sid f p'
            (mergeOptions [] p'.options uid f (f + 1)).1]).filter
              (fun r => r.id == i) = [a] := by
          rw [List.filter_append]
          have hnew : ((newQuestionRow uid sid f p'
              (mergeOptions [] p'.options uid f (f + 1)).1).id == i) = false := by
            simp [newQuestionRow]
            omega
          simp [List.filter_cons, hnew, hflt]
        obtain ⟨g, hg, hres⟩ := ih _ _ p i a hnd' hptail hpid hc hflt'
          (lt_of_lt_of_le (lt_trans hlt (Nat.lt_succ_self f))
            (mergeOptions_mono _ _ _ _ _))
        exact ⟨g, le_trans (Nat.le_succ f)
          (le_trans (mergeOptions_mono _ _ _ _ _) hg), hres⟩

/-- A payload question with no id, or with an id that is not an
existing-map key, becomes a brand-new row whose option merge starts from
the empty persisted map. -/
theorem mergeQuestionsGo_new (ids : List Nat) (uid : Option Nat) (sid : Nat) :
    ∀ (ps : List QuestionUP) (rows : List QuestionRow) (f : Nat)
      (p : QuestionUP),
      p ∈ ps →
      (p.id = none ∨ ∃ i, p.id = some i ∧ ids.contains i = false) →
      (∀ j ∈ ids, j < f) →
      ∃ nid, f ≤ nid ∧
        newQuestionRow uid sid nid p (mergeOptions [] p.options uid nid (nid + 1)).1
          ∈ (mergeQuestionsGo ids uid sid ps rows f).1 := by
  intro ps
  induction ps with
  | nil => intro rows f p hp; cases hp
  | cons p' ps ih =>
    intro rows f p hp hun hids
    rcases List.mem_cons.mp hp with rfl | hptail
    · have hstep : mergeQuestionsGo ids uid sid (p :: ps) rows f =
          mergeQuestionsGo ids uid sid ps
            (rows ++ [newQuestionRow uid sid f p
              (mergeOptions [] p.options uid f (f + 1)).1])
            (mergeOptions [] p.options uid f (f + 1)).2 := by
        rcases hun with hnone | ⟨i, hpid, hc⟩
        · simp [mergeQuestionsGo, hnone]
        · have hc' : i ∉ ids := by simpa using hc
          simp [mergeQuestionsGo, hpid, hc']
      refine ⟨f, le_refl f, ?_⟩
      rw [hstep]
      apply mergeQuestionsGo_mem_pres
      · exact List.mem_append_right _ (List.mem_singleton_self _)
      · intro hmem
        have := hids _ hmem
        simp [newQuestionRow] at this
    · rcases mergeQuestionsGo_cons_cases ids uid sid p' ps rows f with
        ⟨q, i, _, _, _, _, heq⟩ | heq
      · rw [heq]
        have hids' : ∀ j ∈ ids, j < (mergeOptions q.options p'.options uid q.id f).2 :=
          fun j hj => lt_of_lt_of_le (hids j hj) (mergeOptions_mono _ _ _ _ _)
        obtain ⟨nid, hle, hm⟩ := ih _ _ p hptail hun hids'
        exact ⟨nid, le_trans (mergeOptions_mono _ _ _ _ _) hle, hm⟩
      · rw [heq]
        have hids' : ∀ j ∈ ids, j < (mergeOptions [] p'.options uid f (f + 1)).2 :=
          fun j hj => lt_of_lt_of_le (lt_trans (hids j hj) (Nat.lt_succ_self f))
            (mergeOptions_mono _ _ _ _ _)
        obtain ⟨nid, hle, hm⟩ := ih _ _ p hptail hun hids'
        exact ⟨nid, le_trans (Nat.le_succ f)
          (le_trans (mergeOptions_mono _ _ _ _ _) hle), hm⟩

/-! ## Properties of the scope-level merge -/

/-- One step of the scope payload loop is either an in-place update of a
matched active row (merging its own questions) or the insertion of a new row
whose question merge starts from the empty persisted map. -/
theorem mergeScopesGo_cons_cases (ids : List Nat) (uid : Option Nat)
    (aid : Nat) (p : ScopeUP) (ps : List ScopeUP)
    (rows : List ScopeRow) (f : Nat) :
    (∃ q i, p.id = some i ∧ ids.contains i = true ∧ q ∈ rows ∧ q.id = i ∧
      mergeScopesGo ids uid aid (p :: ps) rows f =
        mergeScopesGo ids uid aid ps
          (rows.map (fun x => if x.id = q.id then
            updScopeRow uid p (mergeQuestions q.questions p.questions uid q.id f).1 q else x))
          (mergeQuestions q.questions p.questions uid q.id f).2)
    ∨ mergeScopesGo ids uid aid (p :: ps) rows f =
        mergeScopesGo ids uid aid ps
          (rows ++ [newScopeRow uid aid f p
            (mergeQuestions [] p.questions uid f (f + 1)).1])
          (mergeQuestions [] p.questions uid f (f + 1)).2 := by
  cases hp : p.id with
  | none => right; simp [mergeScopesGo, hp]
  | some i =>
    cases hc : ids.contains i with
    | false =>
      right
      have hc' : i ∉ ids := by simpa using hc
      simp [mergeScopesGo, hp, hc']
    | true =>
      have hc' : i ∈ ids := by simpa using hc
      cases hf : rows.find? (fun q => q.id == i) with
      | none => right; simp [mergeScopesGo, hp, hc', hf]
      | some q =>
        left
        refine ⟨q, i, rfl, hc, List.mem_of_find?_eq_some hf, ?_, ?_⟩
        · simpa using List.find?_some hf
        · simp [mergeScopesGo, hp, hc', hf]

/-- The scope payload loop never decreases the fresh-identity counter. -/
theorem mergeScopesGo_mono (ids : List Nat) (uid : Option Nat) (aid : Nat) :
    ∀ (ps : List ScopeUP) (rows : List ScopeRow) (f : Nat),
      f ≤ (mergeScopesGo ids uid aid ps rows f).2 := by
  intro ps
  induction ps with
  | nil => intro rows f; simp [mergeScopesGo]
  | cons p ps ih =>
    intro rows f
    rcases mergeScopesGo_cons_cases ids uid aid p ps rows f with
      ⟨q, i, _, _, _, _, heq⟩ | heq
    · rw [heq]
      exact le_trans (mergeQuestions_mono _ _ _ _ _) (ih _ _)
    · rw [heq]
      exact le_trans (Nat.le_succ f)
        (le_trans (mergeQuestions_mono _ _ _ _ _) (ih _ _))

/-- The scope merge never decreases the fresh-identity counter. -/
theorem mergeScopes_mono (persisted : List ScopeRow)
    (payload : List ScopeUP) (uid : Option Nat) (aid : Nat) (f : Nat) :
    f ≤ (mergeScopes persisted payload uid aid f).2 := by
  simp only [mergeScopes]
  exact mergeScopesGo_mono _ _ _ _ _ _

/-- The scope payload loop leaves rows of an id it never mentions
untouched. -/
theorem mergeScopesGo_filter_untouched (ids : List Nat) (uid : Option Nat)
    (aid : Nat) :
    ∀ (ps : List ScopeUP) (rows : List ScopeRow) (f i : Nat),
      i ∉ ps.filterMap (·.id) → i < f →
      (mergeScopesGo ids uid aid ps rows f).1.filter (fun r => r.id == i) =
        rows.filter (fun r => r.id == i) := by
  intro ps
  induction ps with
  | nil => intro rows f i _ _; simp [mergeScopesGo]
  | cons p ps ih =>
    intro rows f i hni hlt
    have hni' : i ∉ ps.filterMap (·.id) := by
      intro h
      apply hni
      cases hp : p.id <;> simp [List.filterMap_cons, hp, h]
    rcases mergeScopesGo_cons_cases ids uid aid p ps rows f with
      ⟨q, j, hpid, _, _, hqid, heq⟩ | heq
    · rw [heq, ih _ _ _ hni'
        (lt_of_lt_of_le hlt (mergeQuestions_mono _ _ _ _ _))]
      have hne : i ≠ q.id := by
        rw [hqid]
        intro hEq
        exact hni (by simp [List.filterMap_cons, hpid, hEq])
      exact filter_replace_other (fun r => r.id) rows i q.id
        (updScopeRow uid p (mergeQuestions q.questions p.questions uid q.id f).1 q)
        rfl hne
    · rw [heq, ih _ _ _ hni'
        (lt_of_lt_of_le (lt_trans hlt (Nat.lt_succ_self f))
          (mergeQuestions_mono _ _ _ _ _))]
      rw [List.filter_append]
      have hnew : ((newScopeRow uid aid f p
          (mergeQuestions [] p.questions uid f (f + 1)).1).id == i) = false := by
        simp [newScopeRow]
        omega
      simp [List.filter_cons, hnew]

/-- The scope payload loop preserves membership of rows whose id is not
an existing-map key. -/
theorem mergeScopesGo_mem_pres (ids : List Nat) (uid : Option Nat)
    (aid : Nat) :
    ∀ (ps : List ScopeUP) (rows : List ScopeRow) (f : Nat)
      (x : ScopeRow),
      x ∈ rows → x.id ∉ ids → x ∈ (mergeScopesGo ids uid aid ps rows f).1 := by
  intro ps
  induction ps with
  | nil => intro rows f x hx _; simpa [mergeScopesGo] using hx
  | cons p ps ih =>
    intro rows f x hx hxid
    rcases mergeScopesGo_cons_cases ids uid aid p ps rows f with
      ⟨q, i, _, hc, _, hqid, heq⟩ | heq
    · rw [heq]
      apply ih _ _ _ _ hxid
      have hne : x.id ≠ q.id := by
        rw [hqid]
        intro hEq
        exact hxid (hEq ▸ by simpa using hc)
      have himg : (if x.id = q.id then
          updScopeRow uid p (mergeQuestions q.questions p.questions uid q.id f).1 q
          else x) = x := by
        simp [hne]
      rw [← himg]
      exact List.mem_map_of_mem _ hx
    · rw [heq]
      exact ih _ _ _ (List.mem_append_left _ hx) hxid

/-- A payload scope carrying the id of an active persisted row updates
that row in place, merging the payload questions against that row's own
questions; no other payload item disturbs it. -/
theorem mergeScopesGo_matched (ids : List Nat) (uid : Option Nat)
    (aid : Nat) :
    ∀ (ps : List ScopeUP) (rows : List ScopeRow) (f : Nat)
      (p : ScopeUP) (i : Nat) (a : ScopeRow),
      (ps.filterMap (·.id)).Nodup → p ∈ ps → p.id = some i →
      ids.contains i = true → rows.filter (fun r => r.id == i) = [a] →
      i < f →
      ∃ g, f ≤ g ∧
        (mergeScopesGo ids uid aid ps rows f).1.filter (fun r => r.id == i) =
          [updScopeRow uid p (mergeQuestions a.questions p.questions uid a.id g).1 a] := by
  intro ps
  induction ps with
  | nil => intro rows f p i a _ hp; cases hp
  | cons p' ps ih =>
    intro rows f p i a hnd hp hpid hc hflt hlt
    rcases List.mem_cons.mp hp with rfl | hptail
    · have hfind : rows.find? (fun r => r.id == i) = some a :=
        find?_eq_of_filter_eq_singleton _ _ _ hflt
      have haid : a.id = i := by
        have hma : a ∈ rows.filter (fun r => r.id == i) := by
          rw [hflt]; exact List.mem_singleton_self a
        simpa using (List.mem_filter.mp hma).2
      have hc' : i ∈ ids := by simpa using hc
      have hstep : mergeScopesGo ids uid aid (p :: ps) rows f =
          mergeScopesGo ids uid aid ps
            (rows.map (fun x => if x.id = a.id then
              updScopeRow uid p (mergeQuestions a.questions p.questions uid a.id f).1 a
              else x))
            (mergeQuestions a.questions p.questions uid a.id f).2 := by
        simp [mergeScopesGo, hpid, hc', hfind]
      rw [hstep]
      have hni : i ∉ ps.filterMap (·.id) := by
        rw [List.filterMap_cons, hpid] at hnd
        exact (List.nodup_cons.mp hnd).1
      refine ⟨f, le_refl f, ?_⟩
      rw [mergeScopesGo_filter_untouched _ _ _ _ _ _ _ hni
        (lt_of_lt_of_le hlt (mergeQuestions_mono _ _ _ _ _))]
      rw [← haid] at hflt ⊢
      rw [filter_replace_self (fun r => r.id) rows a.id
        (updScopeRow uid p (mergeQuestions a.questions p.questions uid a.id f).1 a) rfl]
      rw [hflt]
      rfl
    · have hnd' : (ps.filterMap (·.id)).Nodup := by
        rw [List.filterMap_cons] at hnd
        cases hp' : p'.id with
        | none => rwa [hp'] at hnd
        | some j => rw [hp'] at hnd; exact (List.nodup_cons.mp hnd).2
      rcases mergeScopesGo_cons_cases ids uid aid p' ps rows f with
        ⟨q, j, hpid', hc', hmem', hqid', heq⟩ | heq
      · rw [heq]
        have hne : i ≠ j := by
          intro hEq
          subst hEq
          rw [List.filterMap_cons, hpid'] at hnd
          have : i ∈ ps.filterMap (·.id) := List.mem_filterMap.mpr ⟨p, hptail, hpid⟩
          exact (List.nodup_cons.mp hnd).1 this
        have hflt' : (rows.map (fun x => if x.id = q.id then
            updScopeRow uid p' (mergeQuestions q.questions p'.questions uid q.id f).1 q
            else x)).filter (fun r => r.id == i) = [a] := by
          rw [filter_replace_other (fun r => r.id) rows i q.id
            (updScopeRow uid p' (mergeQuestions q.questions p'.questions uid q.id f).1 q)
            rfl (hqid' ▸ hne)]
          exact hflt
        obtain ⟨g, hg, hres⟩ := ih _ _ p i a hnd' hptail hpid hc hflt'
          (lt_of_lt_of_le hlt (mergeQuestions_mono _ _ _ _ _))
        exact ⟨g, le_trans (mergeQuestions_mono _ _ _ _ _) hg, hres⟩
      · rw [heq]
        have hflt' : (rows ++ [newScopeRow uid aid f p'
            (mergeQuestions [] p'.questions uid f (f + 1)).1]).filter
              (fun r => r.id == i) = [a] := by
          rw [List.filter_append]
          have hnew : ((newScopeRow uid aid f p'
              (mergeQuestions [] p'.questions uid f (f + 1)).1).id == i) = false := by
            simp [newScopeRow]
            omega
          simp [List.filter_cons, hnew, hflt]
        obtain ⟨g, hg, hres⟩ := ih _ _ p i a hnd' hptail hpid hc hflt'
          (lt_of_lt_of_le (lt_trans hlt (Nat.lt_succ_self f))
            (mergeQuestions_mono _ _ _ _ _))
        exact ⟨g, le_trans (Nat.le_succ f)
          (le_trans (mergeQuestions_mono _ _ _ _ _) hg), hres⟩

/-- A payload scope with no id, or with an id that is not an
existing-map key, becomes a brand-new row whose question merge starts from
the empty persisted map. -/
theorem mergeScopesGo_new (ids : List Nat) (uid : Option Nat) (aid : Nat) :
    ∀ (ps : List ScopeUP) (rows : List ScopeRow) (f : Nat)
      (p : ScopeUP),
      p ∈ ps →
      (p.id = none ∨ ∃ i, p.id = some i ∧ ids.contains i = false) →
      (∀ j ∈ ids, j < f) →
      ∃ nid, f ≤ nid ∧
        newScopeRow uid aid nid p (mergeQuestions [] p.questions uid nid (nid + 1)).1
          ∈ (mergeScopesGo ids uid aid ps rows f).1 := by
  intro ps
  induction ps with
  | nil => intro rows f p hp; cases hp
  | cons p' ps ih =>
    intro rows f p hp hun hids
    rcases List.mem_cons.mp hp with rfl | hptail
    · have hstep : mergeScopesGo ids uid aid (p :: ps) rows f =
          mergeScopesGo ids uid aid ps
            (rows ++ [newScopeRow uid aid f p
              (mergeQuestions [] p.questions uid f (f + 1)).1])
            (mergeQuestions [] p.questions uid f (f + 1)).2 := by
        rcases hun with hnone | ⟨i, hpid, hc⟩
        · simp [mergeScopesGo, hnone]
        · have hc' : i ∉ ids := by simpa using hc
          simp [mergeScopesGo, hpid, hc']
      refine ⟨f, le_refl f, ?_⟩
      rw [hstep]
      apply mergeScopesGo_mem_pres
      · exact List.mem_append_right _ (List.mem_singleton_self _)
      · intro hmem
        have := hids _ hmem
        simp [newScopeRow] at this
    · rcases mergeScopesGo_cons_cases ids uid aid p' ps rows f with
        ⟨q, i, _, _, _, _, heq⟩ | heq
      · rw [heq]
        have hids' : ∀ j ∈ ids, j < (mergeQuestions q.questions p'.questions uid q.id f).2 :=
          fun j hj => lt_of_lt_of_le (hids j hj) (mergeQuestions_mono _ _ _ _ _)
        obtain ⟨nid, hle, hm⟩ := ih _ _ p hptail hun hids'
        exact ⟨nid, le_trans (mergeQuestions_mono _ _ _ _ _) hle, hm⟩
      · rw [heq]
        have hids' : ∀ j ∈ ids, j < (mergeQuestions [] p'.questions uid f (f + 1)).2 :=
          fun j hj => lt_of_lt_of_le (lt_trans (hids j hj) (Nat.lt_succ_self f))
            (mergeQuestions_mono _ _ _ _ _)
        obtain ⟨nid, hle, hm⟩ := ih _ _ p hptail hun hids'
        exact ⟨nid, le_trans (Nat.le_succ f)
          (le_trans (mergeQuestions_mono _ _ _ _ _) hle), hm⟩

/-! ## Properties of the area-level merge -/

/-- One step of the area payload loop is either an in-place update of a
matched active row (merging its own scopes) or the insertion of a new row
whose scope merge starts from the empty persisted map. -/
theorem mergeAreasGo_cons_cases (ids : List Nat) (uid : Option Nat)
    (tid : Nat) (p : AreaUP) (ps : List AreaUP)
    (rows : List AreaRow) (f : Nat) :
    (∃ q i, p.id = some i ∧ ids.contains i = true ∧ q ∈ rows ∧ q.id = i ∧
      mergeAreasGo ids uid tid (p :: ps) rows f =
        mergeAreasGo ids uid tid ps
          (rows.map (fun x => if x.id = q.id then
            updAreaRow uid p (mergeScopes q.scopes p.scopes uid q.id f).1 q else x))
          (mergeScopes q.scopes p.scopes uid q.id f).2)
    ∨ mergeAreasGo ids uid tid (p :: ps) rows f =
        mergeAreasGo ids uid tid ps
          (rows ++ [newAreaRow uid tid f p
            (mergeScopes [] p.scopes uid f (f + 1)).1])
          (mergeScopes [] p.scopes uid f (f + 1)).2 := by
  cases hp : p.id with
  | none => right; simp [mergeAreasGo, hp]
  | some i =>
    cases hc : ids.contains i with
    | false =>
      right
      have hc' : i ∉ ids := by simpa using hc
      simp [mergeAreasGo, hp, hc']
    | true =>
      have hc' : i ∈ ids := by simpa using hc
      cases hf : rows.find? (fun q => q.id == i) with
      | none => right; simp [mergeAreasGo, hp, hc', hf]
      | some q =>
        left
        refine ⟨q, i, rfl, hc, List.mem_of_find?_eq_some hf, ?_, ?_⟩
        · simpa using List.find?_some hf
        · simp [mergeAreasGo, hp, hc', hf]

/-- The area payload loop never decreases the fresh-identity counter. -/
theorem mergeAreasGo_mono (ids : List Nat) (uid : Option Nat) (tid : Nat) :
    ∀ (ps : List AreaUP) (rows : List AreaRow) (f : Nat),
      f ≤ (mergeAreasGo ids uid tid ps rows f).2 := by
  intro ps
  induction ps with
  | nil => intro rows f; simp [mergeAreasGo]
  | cons p ps ih =>
    intro rows f
    rcases mergeAreasGo_cons_cases ids uid tid p ps rows f with
      ⟨q, i, _, _, _, _, heq⟩ | heq
    · rw [heq]
      exact le_trans (mergeScopes_mono _ _ _ _ _) (ih _ _)
    · rw [heq]
      exact le_trans (Nat.le_succ f)
        (le_trans (mergeScopes_mono _ _ _ _ _) (ih _ _))

/-- The area merge never decreases the fresh-identity counter. -/
theorem mergeAreas_mono (persisted : List AreaRow)
    (payload : List AreaUP) (uid : Option Nat) (tid : Nat) (f : Nat) :
    f ≤ (mergeAreas persisted payload uid tid f).2 := by
  simp only [mergeAreas]
  exact mergeAreasGo_mono _ _ _ _ _ _

/-- The area payload loop leaves rows of an id it never mentions
untouched. -/
theorem mergeAreasGo_filter_untouched (ids : List Nat) (uid : Option Nat)
    (tid : Nat) :
    ∀ (ps : List AreaUP) (rows : List AreaRow) (f i : Nat),
      i ∉ ps.filterMap (·.id) → i < f →
      (mergeAreasGo ids uid tid ps rows f).1.filter (fun r => r.id == i) =
        rows.filter (fun r => r.id == i) := by
  intro ps
  induction ps with
  | nil => intro rows f i _ _; simp [mergeAreasGo]
  | cons p ps ih =>
    intro rows f i hni hlt
    have hni' : i ∉ ps.filterMap (·.id) := by
      intro h
      apply hni
      cases hp : p.id <;> simp [List.filterMap_cons, hp, h]
    rcases mergeAreasGo_cons_cases ids uid tid p ps rows f with
      ⟨q, j, hpid, _, _, hqid, heq⟩ | heq
    · rw [heq, ih _ _ _ hni'
        (lt_of_lt_of_le hlt (mergeScopes_mono _ _ _ _ _))]
      have hne : i ≠ q.id := by
        rw [hqid]
        intro hEq
        exact hni (by simp [List.filterMap_cons, hpid, hEq])
      exact filter_replace_other (fun r => r.id) rows i q.id
        (updAreaRow uid p (mergeScopes q.scopes p.scopes uid q.id f).1 q)
        rfl hne
    · rw [heq, ih _ _ _ hni'
        (lt_of_lt_of_le (lt_trans hlt (Nat.lt_succ_self f))
          (mergeScopes_mono _ _ _ _ _))]
      rw [List.filter_append]
      have hnew : ((newAreaRow uid tid f p
          (mergeScopes [] p.scopes uid f (f + 1)).1).id == i) = false := by
        simp [newAreaRow]
        omega
      simp [List.filter_cons, hnew]

/-- The area payload loop preserves membership of rows whose id is not
an existing-map key. -/
theorem mergeAreasGo_mem_pres (ids : List Nat) (uid : Option Nat)
    (tid : Nat) :
    ∀ (ps : List AreaUP) (rows : List AreaRow) (f : Nat)
      (x : AreaRow),
      x ∈ rows → x.id ∉ ids → x ∈ (mergeAreasGo ids uid tid ps rows f).1 := by
  intro ps
  induction ps with
  | nil => intro rows f x hx _; simpa [mergeAreasGo] using hx
  | cons p ps ih =>
    intro rows f x hx hxid
    rcases mergeAreasGo_cons_cases ids uid tid p ps rows f with
      ⟨q, i, _, hc, _, hqid, heq⟩ | heq
    · rw [heq]
      apply ih _ _ _ _ hxid
      have hne : x.id ≠ q.id := by
        rw [hqid]
        intro hEq
        exact hxid (hEq ▸ by simpa using hc)
      have himg : (if x.id = q.id then
          updAreaRow uid p (mergeScopes q.scopes p.scopes uid q.id f).1 q
          else x) = x := by
        simp [hne]
      rw [← himg]
      exact List.mem_map_of_mem _ hx
    · rw [heq]
      exact ih _ _ _ (List.mem_append_left _ hx) hxid

/-- A payload area carrying the id of an active persisted row updates
that row in place, merging the payload scopes against that row's own
scopes; no other payload item disturbs it. -/
theorem mergeAreasGo_matched (ids : List Nat) (uid : Option Nat)
    (tid : Nat) :
    ∀ (ps : List AreaUP) (rows : List AreaRow) (f : Nat)
      (p : AreaUP) (i : Nat) (a : AreaRow),
      (ps.filterMap (·.id)).Nodup → p ∈ ps → p.id = some i →
      ids.contains i = true → rows.filter (fun r => r.id == i) = [a] →
      i < f →
      ∃ g, f ≤ g ∧
        (mergeAreasGo ids uid tid ps rows f).1.filter (fun r => r.id == i) =
          [updAreaRow uid p (mergeScopes a.scopes p.scopes uid a.id g).1 a] := by
  intro ps
  induction ps with
  | nil => intro rows f p i a _ hp; cases hp
  | cons p' ps ih =>
    intro rows f p i a hnd hp hpid hc hflt hlt
    rcases List.mem_cons.mp hp with rfl | hptail
    · have hfind : rows.find? (fun r => r.id == i) = some a :=
        find?_eq_of_filter_eq_singleton _ _ _ hflt
      have haid : a.id = i := by
        have hma : a ∈ rows.filter (fun r => r.id == i) := by
          rw [hflt]; exact List.mem_singleton_self a
        simpa using (List.mem_filter.mp hma).2
      have hc' : i ∈ ids := by simpa using hc
      have hstep : mergeAreasGo ids uid tid (p :: ps) rows f =
          mergeAreasGo ids uid tid ps
            (rows.map (fun x => if x.id = a.id then
              updAreaRow uid p (mergeScopes a.scopes p.scopes uid a.id f).1 a
              else x))
            (mergeScopes a.scopes p.scopes uid a.id f).2 := by
        simp [mergeAreasGo, hpid, hc', hfind]
      rw [hstep]
      have hni : i ∉ ps.filterMap (·.id) := by
        rw [List.filterMap_cons, hpid] at hnd
        exact (List.nodup_cons.mp hnd).1
      refine ⟨f, le_refl f, ?_⟩
      rw [mergeAreasGo_filter_untouched _ _ _ _ _ _ _ hni
        (lt_of_lt_of_le hlt (mergeScopes_mono _ _ _ _ _))]
      rw [← haid] at hflt ⊢
      rw [filter_replace_self (fun r => r.id) rows a.id
        (updAreaRow uid p (mergeScopes a.scopes p.scopes uid a.id f).1 a) rfl]
      rw [hflt]
      rfl
    · have hnd' : (ps.filterMap (·.id)).Nodup := by
        rw [List.filterMap_cons] at hnd
        cases hp' : p'.id with
        | none => rwa [hp'] at hnd
        | some j => rw [hp'] at hnd; exact (List.nodup_cons.mp hnd).2
      rcases mergeAreasGo_cons_cases ids uid tid p' ps rows f with
        ⟨q, j, hpid', hc', hmem', hqid', heq⟩ | heq
      · rw [heq]
        have hne : i ≠ j := by
          intro hEq
          subst hEq
          rw [List.filterMap_cons, hpid'] at hnd
          have : i ∈ ps.filterMap (·.id) := List.mem_filterMap.mpr ⟨p, hptail, hpid⟩
          exact (List.nodup_cons.mp hnd).1 this
        have hflt' : (rows.map (fun x => if x.id = q.id then
            updAreaRow uid p' (mergeScopes q.scopes p'.scopes uid q.id f).1 q
            else x)).filter (fun r => r.id == i) = [a] := by
          rw [filter_replace_other (fun r => r.id) rows i q.id
            (updAreaRow uid p' (mergeScopes q.scopes p'.scopes uid q.id f).1 q)
            rfl (hqid' ▸ hne)]
          exact hflt
        obtain ⟨g, hg, hres⟩ := ih _ _ p i a hnd' hptail hpid hc hflt'
          (lt_of_lt_of_le hlt (mergeScopes_mono _ _ _ _ _))
        exact ⟨g, le_trans (mergeScopes_mono _ _ _ _ _) hg, hres⟩
      · rw [heq]
        have hflt' : (rows ++ [newAreaRow uid tid f p'
            (mergeScopes [] p'.scopes uid f (f + 1)).1]).filter
              (fun r => r.id == i) = [a] := by
          rw [List.filter_append]
          have hnew : ((newAreaRow uid tid f p'
              (mergeScopes [] p'.scopes uid f (f + 1)).1).id == i) = false := by
            simp [newAreaRow]
            omega
          simp [List.filter_cons, hnew, hflt]
        obtain ⟨g, hg, hres⟩ := ih _ _ p i a hnd' hptail hpid hc hflt'
          (lt_of_lt_of_le (lt_trans hlt (Nat.lt_succ_self f))
            (mergeScopes_mono _ _ _ _ _))
        exact ⟨g, le_trans (Nat.le_succ f)
          (le_trans (mergeScopes_mono _ _ _ _ _) hg), hres⟩

/-- A payload area with no id, or with an id that is not an
existing-map key, becomes a brand-new row whose scope merge starts from
the empty persisted map. -/
theorem mergeAreasGo_new (ids : List Nat) (uid : Option Nat) (tid : Nat) :
    ∀ (ps : List AreaUP) (rows : List AreaRow) (f : Nat)
      (p : AreaUP),
      p ∈ ps →
      (p.id = none ∨ ∃ i, p.id = some i ∧ ids.contains i = false) →
      (∀ j ∈ ids, j < f) →
      ∃ nid, f ≤ nid ∧
        newAreaRow uid tid nid p (mergeScopes [] p.scopes uid nid (nid + 1)).1
          ∈ (mergeAreasGo ids uid tid ps rows f).1 := by
  intro ps
  induction ps with
  | nil => intro rows f p hp; cases hp
  | cons p' ps ih =>
    intro rows f p hp hun hids
    rcases List.mem_cons.mp hp with rfl | hptail
    · have hstep : mergeAreasGo ids uid tid (p :: ps) rows f =
          mergeAreasGo ids uid tid ps
            (rows ++ [newAreaRow uid tid f p
              (mergeScopes [] p.scopes uid f (f + 1)).1])
            (mergeScopes [] p.scopes uid f (f + 1)).2 := by
        rcases hun with hnone | ⟨i, hpid, hc⟩
        · simp [mergeAreasGo, hnone]
        · have hc' : i ∉ ids := by simpa using hc
          simp [mergeAreasGo, hpid, hc']
      refine ⟨f, le_refl f, ?_⟩
      rw [hstep]
      apply mergeAreasGo_mem_pres
      · exact List.mem_append_right _ (List.mem_singleton_self _)
      · intro hmem
        have := hids _ hmem
        simp [newAreaRow] at this
    · rcases mergeAreasGo_cons_cases ids uid tid p' ps rows f with
        ⟨q, i, _, _, _, _, heq⟩ | heq
      · rw [heq]
        have hids' : ∀ j ∈ ids, j < (mergeScopes q.scopes p'.scopes uid q.id f).2 :=
          fun j hj => lt_of_lt_of_le (hids j hj) (mergeScopes_mono _ _ _ _ _)
        obtain ⟨nid, hle, hm⟩ := ih _ _ p hptail hun hids'
        exact ⟨nid, le_trans (mergeScopes_mono _ _ _ _ _) hle, hm⟩
      · rw [heq]
        have hids' : ∀ j ∈ ids, j < (mergeScopes [] p'.scopes uid f (f + 1)).2 :=
          fun j hj => lt_of_lt_of_le (lt_trans (hids j hj) (Nat.lt_succ_self f))
            (mergeScopes_mono _ _ _ _ _)
        obtain ⟨nid, hle, hm⟩ := ih _ _ p hptail hun hids'
        exact ⟨nid, le_trans (Nat.le_succ f)
          (le_trans (mergeScopes_mono _ _ _ _ _) hle), hm⟩

/-! ## Wrapper-level reconciliation lemmas -/

/-- An active persisted area absent from the payload ids is soft-deleted,
cascade included, and nothing else of its id appears in the merge result. -/
theorem mergeAreas_deleted (persisted : List AreaRow) (payload : List AreaUP)
    (uid : Option Nat) (tid : Nat) (f : Nat) (a : AreaRow)
    (ha : a ∈ persisted) (hact : a.isactive = true)
    (hnot : a.id ∉ payload.filterMap (·.id))
    (hnd : (persisted.map (·.id)).Nodup) (hlt : a.id < f) :
    (mergeAreas persisted payload uid tid f).1.filter (fun r => r.id == a.id)
      = [deactivateArea uid a] := by
  simp only [mergeAreas]
  rw [mergeAreasGo_filter_untouched _ _ _ _ _ _ _ hnot hlt]
  have hkey : ∀ r : AreaRow,
      (phaseAArea uid (payload.filterMap (·.id)) r).id = r.id := by
    intro r
    simp only [phaseAArea]
    split <;> rfl
  rw [filter_map_of_key_eq (fun r => r.id)
    (phaseAArea uid (payload.filterMap (·.id))) hkey]
  rw [filter_key_singleton (fun r => r.id) persisted a ha hnd]
  simp [phaseAArea, hact, hnot]

/-- A payload area matching an active persisted id updates that row in
place: the id survives, the mutable fields take the payload values, and the
row's own scopes are the persisted map of the scope merge. -/
theorem mergeAreas_matched (persisted : List AreaRow) (payload : List AreaUP)
    (uid : Option Nat) (tid : Nat) (f : Nat) (p : AreaUP) (i : Nat)
    (a : AreaRow)
    (hndP : (payload.filterMap (·.id)).Nodup)
    (hp : p ∈ payload) (hpid : p.id = some i)
    (ha : a ∈ persisted) (haid : a.id = i) (hact : a.isactive = true)
    (hndR : (persisted.map (·.id)).Nodup)
    (hlt : ∀ b ∈ persisted, b.id < f) :
    ∃ g, f ≤ g ∧
      (mergeAreas persisted payload uid tid f).1.filter (fun r => r.id == i)
        = [updAreaRow uid p (mergeScopes a.scopes p.scopes uid a.id g).1 a] := by
  simp only [mergeAreas]
  have hppid : i ∈ payload.filterMap (·.id) := List.mem_filterMap.mpr ⟨p, hp, hpid⟩
  have hkey : ∀ r : AreaRow,
      (phaseAArea uid (payload.filterMap (·.id)) r).id = r.id := by
    intro r
    simp only [phaseAArea]
    split <;> rfl
  have hflt : (persisted.map
      (phaseAArea uid (payload.filterMap (·.id)))).filter
        (fun r => r.id == i) = [a] := by
    rw [← haid]
    rw [filter_map_of_key_eq (fun r => r.id)
      (phaseAArea uid (payload.filterMap (·.id))) hkey]
    rw [filter_key_singleton (fun r => r.id) persisted a ha hndR]
    have hno : ¬(a.isactive = true ∧ a.id ∉ payload.filterMap (·.id)) := by
      rintro ⟨_, hno⟩
      exact hno (haid ▸ hppid)
    have heq : phaseAArea uid (payload.filterMap (·.id)) a = a := by
      simp only [phaseAArea]
      rw [if_neg hno]
    simp [heq]
  have hc : (activeAreaIds persisted).contains i = true := by
    have : i ∈ activeAreaIds persisted := by
      apply List.mem_map.mpr
      exact ⟨a, List.mem_filter.mpr ⟨ha, by simp [hact]⟩, haid⟩
    simpa using this
  exact mergeAreasGo_matched _ _ _ _ _ _ _ _ _ hndP hp hpid hc hflt
    (haid ▸ hlt a ha)

/-- A payload area with no id, or whose id is not an active persisted key,
becomes a brand-new row with a fresh id and an empty persisted map for its
scope merge, whatever its name. -/
theorem mergeAreas_new (persisted : List AreaRow) (payload : List AreaUP)
    (uid : Option Nat) (tid : Nat) (f : Nat) (p : AreaUP)
    (hp : p ∈ payload)
    (hun : p.id = none ∨ ∃ i, p.id = some i ∧ i ∉ activeAreaIds persisted)
    (hlt : ∀ b ∈ persisted, b.id < f) :
    ∃ nid, f ≤ nid ∧ nid ∉ persisted.map (·.id) ∧
      newAreaRow uid tid nid p (mergeScopes [] p.scopes uid nid (nid + 1)).1
        ∈ (mergeAreas persisted payload uid tid f).1 := by
  simp only [mergeAreas]
  have hids : ∀ j ∈ activeAreaIds persisted, j < f := by
    intro j hj
    obtain ⟨b, hb, rfl⟩ := List.mem_map.mp hj
    exact hlt b (List.mem_filter.mp hb).1
  have hun' : p.id = none ∨
      ∃ i, p.id = some i ∧ (activeAreaIds persisted).contains i = false := by
    rcases hun with h | ⟨i, hpid, hi⟩
    · exact Or.inl h
    · exact Or.inr ⟨i, hpid, by simpa using hi⟩
  obtain ⟨nid, hle, hm⟩ := mergeAreasGo_new _ _ _ _ _ _ _ hp hun' hids
  refine ⟨nid, hle, ?_, hm⟩
  intro hmem
  obtain ⟨b, hb, hbid⟩ := List.mem_map.mp hmem
  have := hlt b hb
  omega

/-- An active persisted scope absent from the payload ids is soft-deleted,
cascade included, and nothing else of its id appears in the merge result. -/
theorem mergeScopes_deleted (persisted : List ScopeRow) (payload : List ScopeUP)
    (uid : Option Nat) (aid : Nat) (f : Nat) (a : ScopeRow)
    (ha : a ∈ persisted) (hact : a.isactive = true)
    (hnot : a.id ∉ payload.filterMap (·.id))
    (hnd : (persisted.map (·.id)).Nodup) (hlt : a.id < f) :
    (mergeScopes persisted payload uid aid f).1.filter (fun r => r.id == a.id)
      = [deactivateScope uid a] := by
  simp only [mergeScopes]
  rw [mergeScopesGo_filter_untouched _ _ _ _ _ _ _ hnot hlt]
  have hkey : ∀ r : ScopeRow,
      (phaseAScope uid (payload.filterMap (·.id)) r).id = r.id := by
    intro r
    simp only [phaseAScope]
    split <;> rfl
  rw [filter_map_of_key_eq (fun r => r.id)
    (phaseAScope uid (payload.filterMap (·.id))) hkey]
  rw [filter_key_singleton (fun r => r.id) persisted a ha hnd]
  simp [phaseAScope, hact, hnot]

/-- A payload scope matching an active persisted id updates that row in
place: the id survives, the mutable fields take the payload values, and the
row's own questions are the persisted map of the question merge. -/
theorem mergeScopes_matched (persisted : List ScopeRow) (payload : List ScopeUP)
    (uid : Option Nat) (aid : Nat) (f : Nat) (p : ScopeUP) (i : Nat)
    (a : ScopeRow)
    (hndP : (payload.filterMap (·.id)).Nodup)
    (hp : p ∈ payload) (hpid : p.id = some i)
    (ha : a ∈ persisted) (haid : a.id = i) (hact : a.isactive = true)
    (hndR : (persisted.map (·.id)).Nodup)
    (hlt : ∀ b ∈ persisted, b.id < f) :
    ∃ g, f ≤ g ∧
      (mergeScopes persisted payload uid aid f).1.filter (fun r => r.id == i)
        = [updScopeRow uid p (mergeQuestions a.questions p.questions uid a.id g).1 a] := by
  simp only [mergeScopes]
  have hppid : i ∈ payload.filterMap (·.id) := List.mem_filterMap.mpr ⟨p, hp, hpid⟩
  have hkey : ∀ r : ScopeRow,
      (phaseAScope uid (payload.filterMap (·.id)) r).id = r.id := by
    intro r
    simp only [phaseAScope]
    split <;> rfl
  have hflt : (persisted.map
      (phaseAScope uid (payload.filterMap (·.id)))).filter
        (fun r => r.id == i) = [a] := by
    rw [← haid]
    rw [filter_map_of_key_eq (fun r => r.id)
      (phaseAScope uid (payload.filterMap (·.id))) hkey]
    rw [filter_key_singleton (fun r => r.id) persisted a ha hndR]
    have hno : ¬(a.isactive = true ∧ a.id ∉ payload.filterMap (·.id)) := by
      rintro ⟨_, hno⟩
      exact hno (haid ▸ hppid)
    have heq : phaseAScope uid (payload.filterMap (·.id)) a = a := by
      simp only [phaseAScope]
      rw [if_neg hno]
    simp [heq]
  have hc : (activeScopeIds persisted).contains i = true := by
    have : i ∈ activeScopeIds persisted := by
      apply List.mem_map.mpr
      exact ⟨a, List.mem_filter.mpr ⟨ha, by simp [hact]⟩, haid⟩
    simpa using this
  exact mergeScopesGo_matched _ _ _ _ _ _ _ _ _ hndP hp hpid hc hflt
    (haid ▸ hlt a ha)

/-- A payload scope with no id, or whose id is not an active persisted key,
becomes a brand-new row with a fresh id and an empty persisted map for its
question merge, whatever its name. -/
theorem mergeScopes_new (persisted : List ScopeRow) (payload : List ScopeUP)
    (uid : Option Nat) (aid : Nat) (f : Nat) (p : ScopeUP)
    (hp : p ∈ payload)
    (hun : p.id = none ∨ ∃ i, p.id = some i ∧ i ∉ activeScopeIds persisted)
    (hlt : ∀ b ∈ persisted, b.id < f) :
    ∃ nid, f ≤ nid ∧ nid ∉ persisted.map (·.id) ∧
      newScopeRow uid aid nid p (mergeQuestions [] p.questions uid nid (nid + 1)).1
        ∈ (mergeScopes persisted payload uid aid f).1 := by
  simp only [mergeScopes]
  have hids : ∀ j ∈ activeScopeIds persisted, j < f := by
    intro j hj
    obtain ⟨b, hb, rfl⟩ := List.mem_map.mp hj
    exact hlt b (List.mem_filter.mp hb).1
  have hun' : p.id = none ∨
      ∃ i, p.id = some i ∧ (activeScopeIds persisted).contains i = false := by
    rcases hun with h | ⟨i, hpid, hi⟩
    · exact Or.inl h
    · exact Or.inr ⟨i, hpid, by simpa using hi⟩
  obtain ⟨nid, hle, hm⟩ := mergeScopesGo_new _ _ _ _ _ _ _ hp hun' hids
  refine ⟨nid, hle, ?_, hm⟩
  intro hmem
  obtain ⟨b, hb, hbid⟩ := List.mem_map.mp hmem
  have := hlt b hb
  omega

/-- An active persisted question absent from the payload ids is soft-deleted,
cascade included, and nothing else of its id appears in the merge result. -/
theorem mergeQuestions_deleted (persisted : List QuestionRow) (payload : List QuestionUP)
    (uid : Option Nat) (sid : Nat) (f : Nat) (a : QuestionRow)
    (ha : a ∈ persisted) (hact : a.isactive = true)
    (hnot : a.id ∉ payload.filterMap (·.id))
    (hnd : (persisted.map (·.id)).Nodup) (hlt : a.id < f) :
    (mergeQuestions persisted payload uid sid f).1.filter (fun r => r.id == a.id)
      = [deactivateQuestion uid a] := by
  simp only [mergeQuestions]
  rw [mergeQuestionsGo_filter_untouched _ _ _ _ _ _ _ hnot hlt]
  have hkey : ∀ r : QuestionRow,
      (phaseAQuestion uid (payload.filterMap (·.id)) r).id = r.id := by
    intro r
    simp only [phaseAQuestion]
    split <;> rfl
  rw [filter_map_of_key_eq (fun r => r.id)
    (phaseAQuestion uid (payload.filterMap (·.id))) hkey]
  rw [filter_key_singleton (fun r => r.id) persisted a ha hnd]
  simp [phaseAQuestion, hact, hnot]

/-- A payload question matching an active persisted id updates that row in
place: the id survives, the mutable fields take the payload values, and the
row's own options are the persisted map of the option merge. -/
theorem mergeQuestions_matched (persisted : List QuestionRow) (payload : List QuestionUP)
    (uid : Option Nat) (sid : Nat) (f : Nat) (p : QuestionUP) (i : Nat)
    (a : QuestionRow)
    (hndP : (payload.filterMap (·.id)).Nodup)
    (hp : p ∈ payload) (hpid : p.id = some i)
    (ha : a ∈ persisted) (haid : a.id = i) (hact : a.isactive = true)
    (hndR : (persisted.map (·.id)).Nodup)
    (hlt : ∀ b ∈ persisted, b.id < f) :
    ∃ g, f ≤ g ∧
      (mergeQuestions persisted payload uid sid f).1.filter (fun r => r.id == i)
        = [updQuestionRow uid p (mergeOptions a.options p.options uid a.id g).1 a] := by
  simp only [mergeQuestions]
  have hppid : i ∈ payload.filterMap (·.id) := List.mem_filterMap.mpr ⟨p, hp, hpid⟩
  have hkey : ∀ r : QuestionRow,
      (phaseAQuestion uid (payload.filterMap (·.id)) r).id = r.id := by
    intro r
    simp only [phaseAQuestion]
    split <;> rfl
  have hflt : (persisted.map
      (phaseAQuestion uid (payload.filterMap (·.id)))).filter
        (fun r => r.id == i) = [a] := by
    rw [← haid]
    rw [filter_map_of_key_eq (fun r => r.id)
      (phaseAQuestion uid (payload.filterMap (·.id))) hkey]
    rw [filter_key_singleton (fun r => r.id) persisted a ha hndR]
    have hno : ¬(a.isactive = true ∧ a.id ∉ payload.filterMap (·.id)) := by
      rintro ⟨_, hno⟩
      exact hno (haid ▸ hppid)
    have heq : phaseAQuestion uid (payload.filterMap (·.id)) a = a := by
      simp only [phaseAQuestion]
      rw [if_neg hno]
    simp [heq]
  have hc : (activeQuestionIds persisted).contains i = true := by
    have : i ∈ activeQuestionIds persisted := by
      apply List.mem_map.mpr
      exact ⟨a, List.mem_filter.mpr ⟨ha, by simp [hact]⟩, haid⟩
    simpa using this
  exact mergeQuestionsGo_matched _ _ _ _ _ _ _ _ _ hndP hp hpid hc hflt
    (haid ▸ hlt a ha)

/-- A payload question with no id, or whose id is not an active persisted key,
becomes a brand-new row with a fresh id and an empty persisted map for its
option merge, whatever its name. -/
theorem mergeQuestions_new (persisted : List QuestionRow) (payload : List QuestionUP)
    (uid : Option Nat) (sid : Nat) (f : Nat) (p : QuestionUP)
    (hp : p ∈ payload)
    (hun : p.id = none ∨ ∃ i, p.id = some i ∧ i ∉ activeQuestionIds persisted)
    (hlt : ∀ b ∈ persisted, b.id < f) :
    ∃ nid, f ≤ nid ∧ nid ∉ persisted.map (·.id) ∧
      newQuestionRow uid sid nid p (mergeOptions [] p.options uid nid (nid + 1)).1
        ∈ (mergeQuestions persisted payload uid sid f).1 := by
  simp only [mergeQuestions]
  have hids : ∀ j ∈ activeQuestionIds persisted, j < f := by
    intro j hj
    obtain ⟨b, hb, rfl⟩ := List.mem_map.mp hj
    exact hlt b (List.mem_filter.mp hb).1
  have hun' : p.id = none ∨
      ∃ i, p.id = some i ∧ (activeQuestionIds persisted).contains i = false := by
    rcases hun with h | ⟨i, hpid, hi⟩
    · exact Or.inl h
    · exact Or.inr ⟨i, hpid, by simpa using hi⟩
  obtain ⟨nid, hle, hm⟩ := mergeQuestionsGo_new _ _ _ _ _ _ _ hp hun' hids
  refine ⟨nid, hle, ?_, hm⟩
  intro hmem
  obtain ⟨b, hb, hbid⟩ := List.mem_map.mp hmem
  have := hlt b hb
  omega

/-- An active persisted option absent from the payload ids is soft-deleted
and nothing else of its id appears in the merge result. -/
theorem mergeOptions_deleted (persisted : List OptionRow)
    (payload : List OptionUP) (uid : Option Nat) (qid : Nat) (f : Nat)
    (a : OptionRow)
    (ha : a ∈ persisted) (hact : a.isactive = true)
    (hnot : a.id ∉ payload.filterMap (·.id))
    (hnd : (persisted.map (·.id)).Nodup) (hlt : a.id < f) :
    (mergeOptions persisted payload uid qid f).1.filter (fun r => r.id == a.id)
      = [deactivateOption uid a] := by
  simp only [mergeOptions]
  rw [mergeOptionsGo_filter_untouched _ _ _ _ _ _ _ hnot hlt]
  have hkey : ∀ r : OptionRow,
      (phaseAOption uid (payload.filterMap (·.id)) r).id = r.id := by
    intro r
    simp only [phaseAOption]
    split <;> rfl
  rw [filter_map_of_key_eq (fun r => r.id)
    (phaseAOption uid (payload.filterMap (·.id))) hkey]
  rw [filter_key_singleton (fun r => r.id) persisted a ha hnd]
  simp [phaseAOption, hact, hnot]

/-- A payload option matching an active persisted id updates that row in
place: the id survives and label and value take the payload values. -/
theorem mergeOptions_matched (persisted : List OptionRow)
    (payload : List OptionUP) (uid : Option Nat) (qid : Nat) (f : Nat)
    (p : OptionUP) (i : Nat) (a : OptionRow)
    (hndP : (payload.filterMap (·.id)).Nodup)
    (hp : p ∈ payload) (hpid : p.id = some i)
    (ha : a ∈ persisted) (haid : a.id = i) (hact : a.isactive = true)
    (hndR : (persisted.map (·.id)).Nodup)
    (hlt : ∀ b ∈ persisted, b.id < f) :
    (mergeOptions persisted payload uid qid f).1.filter (fun r => r.id == i)
      = [updOptionRow uid p a] := by
  simp only [mergeOptions]
  have hppid : i ∈ payload.filterMap (·.id) := List.mem_filterMap.mpr ⟨p, hp, hpid⟩
  have hkey : ∀ r : OptionRow,
      (phaseAOption uid (payload.filterMap (·.id)) r).id = r.id := by
    intro r
    simp only [phaseAOption]
    split <;> rfl
  have hflt : (persisted.map
      (phaseAOption uid (payload.filterMap (·.id)))).filter
        (fun r => r.id == i) = [a] := by
    rw [← haid]
    rw [filter_map_of_key_eq (fun r => r.id)
      (phaseAOption uid (payload.filterMap (·.id))) hkey]
    rw [filter_key_singleton (fun r => r.id) persisted a ha hndR]
    have hno : ¬(a.isactive = true ∧ a.id ∉ payload.filterMap (·.id)) := by
      rintro ⟨_, hno⟩
      exact hno (haid ▸ hppid)
    have heq : phaseAOption uid (payload.filterMap (·.id)) a = a := by
      simp only [phaseAOption]
      rw [if_neg hno]
    simp [heq]
  have hc : (activeOptionIds persisted).contains i = true := by
    have : i ∈ activeOptionIds persisted := by
      apply List.mem_map.mpr
      exact ⟨a, List.mem_filter.mpr ⟨ha, by simp [hact]⟩, haid⟩
    simpa using this
  exact mergeOptionsGo_matched _ _ _ _ _ _ _ _ _ hndP hp hpid hc hflt
    (haid ▸ hlt a ha)

/-- A payload option with no id, or whose id is not an active persisted
key, becomes a brand-new row with a fresh id, whatever its label. -/
theorem mergeOptions_new (persisted : List OptionRow) (payload : List OptionUP)
    (uid : Option Nat) (qid : Nat) (f : Nat) (p : OptionUP)
    (hp : p ∈ payload)
    (hun : p.id = none ∨ ∃ i, p.id = some i ∧ i ∉ activeOptionIds persisted)
    (hlt : ∀ b ∈ persisted, b.id < f) :
    ∃ nid, f ≤ nid ∧ nid ∉ persisted.map (·.id) ∧
      newOptionRow uid qid nid p ∈ (mergeOptions persisted payload uid qid f).1 := by
  simp only [mergeOptions]
  have hids : ∀ j ∈ activeOptionIds persisted, j < f := by
    intro j hj
    obtain ⟨b, hb, rfl⟩ := List.mem_map.mp hj
    exact hlt b (List.mem_filter.mp hb).1
  have hun' : p.id = none ∨
      ∃ i, p.id = some i ∧ (activeOptionIds persisted).contains i = false := by
    rcases hun with h | ⟨i, hpid, hi⟩
    · exact Or.inl h
    · exact Or.inr ⟨i, hpid, by simpa using hi⟩
  obtain ⟨nid, hle, hm⟩ := mergeOptionsGo_new _ _ _ _ _ _ _ hp hun' hids
  refine ⟨nid, hle, ?_, hm⟩
  intro hmem
  obtain ⟨b, hb, hbid⟩ := List.mem_map.mp hmem
  have := hlt b hb
  omega

/-! ## Shape of a successful update -/

/-- A successful update_template commits exactly the merged template row in
place of the stored one and returns the reloaded detail of the new state. -/
theorem updateTemplate_ok_elim {db : DB} {tid : Nat} {p : TemplateUP}
    {uid : Option Nat} {db' : DB} {d : TemplateDetail} (t : TemplateRow)
    (hfind : findTemplate db tid = some t)
    (h : updateTemplate db tid p uid = .ok (db', d)) :
    db' = { templates := db.templates.map (fun x =>
              if x.id = tid then updatedTemplateRow db tid p uid t else x),
            nextId := (mergeAreas t.areas p.areas uid tid db.nextId).2 }
    ∧ d = templateDetailResponse (((findTemplate db' tid).getD
            (updatedTemplateRow db tid p uid t)).activeView) := by
  unfold updateTemplate at h
  rw [hfind] at h
  simp only [bind, Except.bind, pure, Except.pure] at h
  by_cases hn : p.name = t.name
  · simp only [hn, eq_self_iff_true, if_true] at h
    cases hv1 : validateEmptyQuestionScopesAreas p.areas with
    | error e => rw [hv1] at h; cases h
    | ok u =>
      cases u
      rw [hv1] at h
      cases hv2 : validateAreaNames p.areas with
      | error e => rw [hv2] at h; cases h
      | ok u =>
        cases u
        rw [hv2] at h
        cases hv3 : validateScopeNames p.areas with
        | error e => rw [hv3] at h; cases h
        | ok u =>
          cases u
          rw [hv3] at h
          cases hv4 : validateQuestionNames p.areas with
          | error e => rw [hv4] at h; cases h
          | ok u =>
            cases u
            rw [hv4] at h
            cases hv5 : validateOptionLabels p.areas with
            | error e => rw [hv5] at h; cases h
            | ok u =>
              cases u
              rw [hv5] at h
              cases hv6 : validateOptionValues p.areas with
              | error e => rw [hv6] at h; cases h
              | ok u =>
                cases u
                rw [hv6] at h
                cases hv7 : validateScopePercentages p.areas with
                | error e => rw [hv7] at h; cases h
                | ok u =>
                  cases u
                  rw [hv7] at h
                  simp only [Except.ok.injEq, Prod.mk.injEq] at h
                  obtain ⟨hdb, hd⟩ := h
                  subst hdb
                  exact ⟨rfl, hd.symm⟩
  · simp only [hn, if_false] at h
    cases hg : getByName db p.name with
    | some t' => rw [hg] at h; cases h
    | none =>
      rw [hg] at h
      cases hv1 : validateEmptyQuestionScopesAreas p.areas with
      | error e => rw [hv1] at h; cases h
      | ok u =>
        cases u
        rw [hv1] at h
        cases hv2 : validateAreaNames p.areas with
        | error e => rw [hv2] at h; cases h
        | ok u =>
          cases u
          rw [hv2] at h
          cases hv3 : validateScopeNames p.areas with
          | error e => rw [hv3] at h; cases h
          | ok u =>
            cases u
            rw [hv3] at h
            cases hv4 : validateQuestionNames p.areas with
            | error e => rw [hv4] at h; cases h
            | ok u =>
              cases u
              rw [hv4] at h
              cases hv5 : validateOptionLabels p.areas with
              | error e => rw [hv5] at h; cases h
              | ok u =>
                cases u
                rw [hv5] at h
                cases hv6 : validateOptionValues p.areas with
                | error e => rw [hv6] at h; cases h
                | ok u =>
                  cases u
                  rw [hv6] at h
                  cases hv7 : validateScopePercentages p.areas with
                  | error e => rw [hv7] at h; cases h
                  | ok u =>
                    cases u
                    rw [hv7] at h
                    simp only [Except.ok.injEq, Prod.mk.injEq] at h
                    obtain ⟨hdb, hd⟩ := h
                    subst hdb
                    exact ⟨rfl, hd.symm⟩

/-- Replacing the found row by a row of the same id is seen by find?. -/
theorem findTemplate_replace (l : List TemplateRow) (tid : Nat)
    (t t2 : TemplateRow) (h : l.find? (fun x => x.id == tid) = some t)
    (h2 : t2.id = tid) :
    (l.map (fun x => if x.id = tid then t2 else x)).find?
      (fun x => x.id == tid) = some t2 := by
  induction l with
  | nil => simp at h
  | cons x xs ih =>
    cases hx : (x.id == tid) with
    | true =>
      have hxid : x.id = tid := by simpa using hx
      simp only [List.map_cons]
      rw [if_pos hxid]
      rw [List.find?_cons_of_pos _ (by simp [h2])]
    | false =>
      have hxid : ¬(x.id = tid) := by simpa using hx
      rw [List.find?_cons_of_neg _ (by simp [hx])] at h
      simp only [List.map_cons]
      rw [if_neg hxid]
      rw [List.find?_cons_of_neg _ (by simp [hxid])]
      exact ih h

/-- The area ids of a detail response are the ids of the active stored
areas. -/
theorem detail_area_ids (t : TemplateRow) :
    (templateDetailResponse t.activeView).areas.map (·.id) =
      (t.areas.filter (·.isactive)).map (·.id) := by
  simp [templateDetailResponse, TemplateRow.activeView, areaDetail,
    AreaRow.activeView, List.map_map, Function.comp]

/-- C1, core of the update part: in the committed template, every row at
the omitted area id is the cascade-deactivated original. -/
theorem updateTemplate_omitted_area {db : DB} {tid : Nat} {p : TemplateUP}
    {uid : Option Nat} {db' : DB} {d : TemplateDetail} (t : TemplateRow)
    (a : AreaRow)
    (hfind : findTemplate db tid = some t)
    (hok : updateTemplate db tid p uid = .ok (db', d))
    (ha : a ∈ t.areas) (hact : a.isactive = true)
    (hnot : a.id ∉ p.areas.filterMap (·.id))
    (hnd : (t.areas.map (·.id)).Nodup)
    (hlt : a.id < db.nextId) :
    findTemplate db' tid = some (updatedTemplateRow db tid p uid t) ∧
    (updatedTemplateRow db tid p uid t).areas.filter (fun r => r.id == a.id)
      = [deactivateArea uid a] ∧
    a.id ∉ d.areas.map (·.id) := by
  obtain ⟨hdb, hd⟩ := updateTemplate_ok_elim t hfind hok
  have htid : t.id = tid := by simpa using List.find?_some hfind
  have hT : findTemplate db' tid = some (updatedTemplateRow db tid p uid t) := by
    rw [hdb]
    simp only [findTemplate]
    exact findTemplate_replace db.templates tid t _ hfind htid
  have hfilt : (updatedTemplateRow db tid p uid t).areas.filter
      (fun r => r.id == a.id) = [deactivateArea uid a] := by
    simp only [updatedTemplateRow]
    exact mergeAreas_deleted t.areas p.areas uid tid db.nextId a ha hact hnot hnd hlt
  refine ⟨hT, hfilt, ?_⟩
  rw [hd, hT]
  simp only [Option.getD_some]
  rw [detail_area_ids]
  intro hmem
  obtain ⟨b, hbfilt, hbid⟩ := List.mem_map.mp hmem
  have hb2 := List.mem_filter.mp hbfilt
  have hbsel : b ∈ (updatedTemplateRow db tid p uid t).areas.filter
      (fun r => r.id == a.id) := List.mem_filter.mpr ⟨hb2.1, by simp [hbid]⟩
  rw [hfilt] at hbsel
  have hbeq : b = deactivateArea uid a := by simpa using hbsel
  have : b.isactive = true := by simpa using hb2.2
  rw [hbeq] at this
  simp [deactivateArea] at this

/-- C1: during updateTemplate, every persisted node whose id is absent from
the payload ids at its level is soft-deleted together with all of its
active descendants, down to options (the cascade invariant says exactly
that descendants of already-inactive nodes carry no stray active flags, as
every state the service writes satisfies); after such an update the omitted
area and its whole subtree are inactive and its id is unreachable from the
returned detail and from any subsequent detail read.  The last three
conjuncts state the same cascade for a scope, question or option omitted at
the lower merge levels. -/
theorem claim_C1_omitted_nodes_cascade_inactive :
    (∀ (db : DB) (tid : Nat) (p : TemplateUP) (uid : Option Nat) (db' : DB)
       (d : TemplateDetail) (t : TemplateRow) (a : AreaRow),
      findTemplate db tid = some t →
      updateTemplate db tid p uid = Except.ok (db', d) →
      a ∈ t.areas → a.isactive = true →
      a.id ∉ p.areas.filterMap (·.id) →
      (t.areas.map (·.id)).Nodup →
      a.id < db.nextId →
      a.cascadeInv = true →
      findTemplate db' tid = some (updatedTemplateRow db tid p uid t) ∧
      (updatedTemplateRow db tid p uid t).areas.filter (fun r => r.id == a.id)
        = [deactivateArea uid a] ∧
      (deactivateArea uid a).subtreeInactive = true ∧
      a.id ∉ d.areas.map (·.id) ∧
      (∀ d', getTemplateDetail db' tid = Except.ok d' →
        a.id ∉ d'.areas.map (·.id)))
    ∧ (∀ (persisted : List ScopeRow) (payload : List ScopeUP)
        (uid : Option Nat) (aid f : Nat) (s : ScopeRow),
      s ∈ persisted → s.isactive = true → s.id ∉ payload.filterMap (·.id) →
      (persisted.map (·.id)).Nodup → s.id < f →
      s.questions.all QuestionRow.cascadeInv = true →
      (mergeScopes persisted payload uid aid f).1.filter (fun r => r.id == s.id)
        = [deactivateScope uid s] ∧
      (deactivateScope uid s).subtreeInactive = true)
    ∧ (∀ (persisted : List QuestionRow) (payload : List QuestionUP)
        (uid : Option Nat) (sid f : Nat) (q : QuestionRow),
      q ∈ persisted → q.isactive = true → q.id ∉ payload.filterMap (·.id) →
      (persisted.map (·.id)).Nodup → q.id < f →
      (mergeQuestions persisted payload uid sid f).1.filter (fun r => r.id == q.id)
        = [deactivateQuestion uid q] ∧
      (deactivateQuestion uid q).subtreeInactive = true)
    ∧ (∀ (persisted : List OptionRow) (payload : List OptionUP)
        (uid : Option Nat) (qid f : Nat) (o : OptionRow),
      o ∈ persisted → o.isactive = true → o.id ∉ payload.filterMap (·.id) →
      (persisted.map (·.id)).Nodup → o.id < f →
      (mergeOptions persisted payload uid qid f).1.filter (fun r => r.id == o.id)
        = [deactivateOption uid o] ∧
      (deactivateOption uid o).isactive = false) := by
  refine ⟨?_, ?_, ?_, ?_⟩
  · intro db tid p uid db' d t a hfind hok ha hact hnot hnd hlt hcasc
    obtain ⟨hT, hfilt, hd_notin⟩ :=
      updateTemplate_omitted_area t a hfind hok ha hact hnot hnd hlt
    refine ⟨hT, hfilt, deactivateArea_subtreeInactive uid a hact hcasc,
      hd_notin, ?_⟩
    intro d' hd'
    obtain ⟨hdb, hd⟩ := updateTemplate_ok_elim t hfind hok
    have hdd : d' = d := by
      rw [hd, hT]
      simp only [Option.getD_some]
      simp [getTemplateDetail, getByIdWithDetails, hT] at hd'
      exact hd'.symm
    rw [hdd]
    exact hd_notin
  · intro persisted payload uid aid f s hs hact hnot hnd hlt hcasc
    exact ⟨mergeScopes_deleted persisted payload uid aid f s hs hact hnot hnd hlt,
      deactivateScope_subtreeInactive uid s hcasc⟩
  · intro persisted payload uid sid f q hq hact hnot hnd hlt
    exact ⟨mergeQuestions_deleted persisted payload uid sid f q hq hact hnot hnd hlt,
      deactivateQuestion_subtreeInactive uid q⟩
  · intro persisted payload uid qid f o ho hact hnot hnd hlt
    exact ⟨mergeOptions_deleted persisted payload uid qid f o ho hact hnot hnd hlt,
      rfl⟩

/-- The concrete stored state of the cascade scenario: one active template
with one active area carrying one scope, one question and two options. -/
def c1db : DB :=
  { templates := [
      { id := 0, name := "T", isactive := true, areas := [
        { id := 1, template_id := 0, name := "A", weightage := 100,
          isactive := true, scopes := [
          { id := 2, area_id := 1, name := "S", isactive := true, questions := [
            { id := 3, scope_id := 2, text := "Q", percentage := 100,
              is_mandatory := true, isactive := true, options := [
              { id := 4, question_id := 3, label := "Yes", value := 1,
                isactive := true },
              { id := 5, question_id := 3, label := "No", value := 0,
                isactive := true } ] } ] } ] } ] } ],
    nextId := 6 }

/-- An update payload that omits area 1 entirely, replacing it by a new
area so the percentage validator still accepts the payload. -/
def c1p : TemplateUP :=
  { name := "T", areas := [
      { name := "B", weightage := 50, scopes := [
        { name := "S2", questions := [
          { text := "Q2", percentage := 100, options := [
            { label := "Y", value := 1 } ] } ] } ] } ] }

/-- The committed state of the cascade scenario: area 1 and its whole
subtree inactive, the new area 6 active. -/
def c1after : DB :=
  { templates := [
      { id := 0, name := "T", isactive := true, areas := [
        { id := 1, template_id := 0, name := "A", weightage := 100,
          isactive := false, scopes := [
          { id := 2, area_id := 1, name := "S", isactive := false, questions := [
            { id := 3, scope_id := 2, text := "Q", percentage := 100,
              is_mandatory := true, isactive := false, options := [
              { id := 4, question_id := 3, label := "Yes", value := 1,
                isactive := false },
              { id := 5, question_id := 3, label := "No", value := 0,
                isactive := false } ] } ] } ] },
        { id := 6, template_id := 0, name := "B", weightage := 50,
          isactive := true, scopes := [
          { id := 7, area_id := 6, name := "S2", isactive := true, questions := [
            { id := 8, scope_id := 7, text := "Q2", percentage := 100,
              is_mandatory := true, isactive := true, options := [
              { id := 9, question_id := 8, label := "Y", value := 1,
                isactive := true } ] } ] } ] } ] } ],
    nextId := 10 }

/-- The detail returned by the cascade-scenario update: only the new area
is reachable. -/
def c1detail : TemplateDetail :=
  { id := 0, name := "T", isactive := true, areas := [
      { id := 6, template_id := 0, name := "B", weightage := 50, scopes := [
        { id := 7, area_id := 6, name := "S2", questions := [
          { id := 8, scope_id := 7, text := "Q2", percentage := 100,
            is_mandatory := true, options := [
            { id := 9, question_id := 8, label := "Y", value := 1 } ] } ],
          total_percentage := 100 } ] } ],
    total_weightage := 50 }

/-- The stored template row of the cascade scenario. -/
def c1tmpl : TemplateRow :=
  { id := 0, name := "T", isactive := true, areas := [
      { id := 1, template_id := 0, name := "A", weightage := 100,
        isactive := true, scopes := [
        { id := 2, area_id := 1, name := "S", isactive := true, questions := [
          { id := 3, scope_id := 2, text := "Q", percentage := 100,
            is_mandatory := true, isactive := true, options := [
            { id := 4, question_id := 3, label := "Yes", value := 1,
              isactive := true },
            { id := 5, question_id := 3, label := "No", value := 0,
              isactive := true } ] } ] } ] } ] }

/-- The stored area row that the payload of the cascade scenario omits. -/
def c1area : AreaRow :=
  { id := 1, template_id := 0, name := "A", weightage := 100,
    isactive := true, scopes := [
    { id := 2, area_id := 1, name := "S", isactive := true, questions := [
      { id := 3, scope_id := 2, text := "Q", percentage := 100,
        is_mandatory := true, isactive := true, options := [
        { id := 4, question_id := 3, label := "Yes", value := 1,
          isactive := true },
        { id := 5, question_id := 3, label := "No", value := 0,
          isactive := true } ] } ] } ] }

/-- Witness for C1 at the concrete cascade scenario. -/
theorem claim_C1_witness :
    updateTemplate c1db 0 c1p none = Except.ok (c1after, c1detail) ∧
    (updatedTemplateRow c1db 0 c1p none c1tmpl).areas.filter
      (fun r => r.id == 1) = [deactivateArea none c1area] ∧
    (deactivateArea none c1area).subtreeInactive = true ∧
    1 ∉ c1detail.areas.map (·.id) := by
  have hok : updateTemplate c1db 0 c1p none = Except.ok (c1after, c1detail) := by
    rfl
  have h := claim_C1_omitted_nodes_cascade_inactive.1 c1db 0 c1p none c1after
    c1detail c1tmpl c1area (by decide) hok (by decide) (by decide) (by decide)
    (by decide) (by decide) (by decide)
  exact ⟨hok, h.2.1, h.2.2.1, h.2.2.2.1⟩

/-- C2: in updateTemplate, matching is by identity only, never by name or
position.  At every merge level, a payload item whose id is an active
persisted key updates the existing row in place (same id, payload fields)
and that row's own existing children become the persisted map of the merge
one level down; an item with no id, or with a stale id, becomes a
brand-new row (fresh id, not any persisted id) whose child merge starts
from the empty persisted map — the item's name plays no role in either
case. -/
theorem claim_C2_identity_only_matching :
    (∀ (persisted : List AreaRow) (payload : List AreaUP) (uid : Option Nat)
       (tid f : Nat) (p : AreaUP) (i : Nat) (a : AreaRow),
      (payload.filterMap (·.id)).Nodup → p ∈ payload → p.id = some i →
      a ∈ persisted → a.id = i → a.isactive = true →
      (persisted.map (·.id)).Nodup → (∀ b ∈ persisted, b.id < f) →
      ∃ g, f ≤ g ∧
        (mergeAreas persisted payload uid tid f).1.filter (fun r => r.id == i)
          = [updAreaRow uid p (mergeScopes a.scopes p.scopes uid a.id g).1 a])
    ∧ (∀ (persisted : List AreaRow) (payload : List AreaUP) (uid : Option Nat)
        (tid f : Nat) (p : AreaUP),
      p ∈ payload →
      (p.id = none ∨ ∃ i, p.id = some i ∧ i ∉ activeAreaIds persisted) →
      (∀ b ∈ persisted, b.id < f) →
      ∃ nid, f ≤ nid ∧ nid ∉ persisted.map (·.id) ∧
        newAreaRow uid tid nid p (mergeScopes [] p.scopes uid nid (nid + 1)).1
          ∈ (mergeAreas persisted payload uid tid f).1)
    ∧ (∀ (persisted : List ScopeRow) (payload : List ScopeUP) (uid : Option Nat)
        (aid f : Nat) (p : ScopeUP) (i : Nat) (s : ScopeRow),
      (payload.filterMap (·.id)).Nodup → p ∈ payload → p.id = some i →
      s ∈ persisted → s.id = i → s.isactive = true →
      (persisted.map (·.id)).Nodup → (∀ b ∈ persisted, b.id < f) →
      ∃ g, f ≤ g ∧
        (mergeScopes persisted payload uid aid f).1.filter (fun r => r.id == i)
          = [updScopeRow uid p (mergeQuestions s.questions p.questions uid s.id g).1 s])
    ∧ (∀ (persisted : List ScopeRow) (payload : List ScopeUP) (uid : Option Nat)
        (aid f : Nat) (p : ScopeUP),
      p ∈ payload →
      (p.id = none ∨ ∃ i, p.id = some i ∧ i ∉ activeScopeIds persisted) →
      (∀ b ∈ persisted, b.id < f) →
      ∃ nid, f ≤ nid ∧ nid ∉ persisted.map (·.id) ∧
        newScopeRow uid aid nid p (mergeQuestions [] p.questions uid nid (nid + 1)).1
          ∈ (mergeScopes persisted payload uid aid f).1)
    ∧ (∀ (persisted : List QuestionRow) (payload : List QuestionUP)
        (uid : Option Nat) (sid f : Nat) (p : QuestionUP) (i : Nat)
        (q : QuestionRow),
      (payload.filterMap (·.id)).Nodup → p ∈ payload → p.id = some i →
      q ∈ persisted → q.id = i → q.isactive = true →
      (persisted.map (·.id)).Nodup → (∀ b ∈ persisted, b.id < f) →
      ∃ g, f ≤ g ∧
        (mergeQuestions persisted payload uid sid f).1.filter (fun r => r.id == i)
          = [updQuestionRow uid p (mergeOptions q.options p.options uid q.id g).1 q])
    ∧ (∀ (persisted : List QuestionRow) (payload : List QuestionUP)
        (uid : Option Nat) (sid f : Nat) (p : QuestionUP),
      p ∈ payload →
      (p.id = none ∨ ∃ i, p.id = some i ∧ i ∉ activeQuestionIds persisted) →
      (∀ b ∈ persisted, b.id < f) →
      ∃ nid, f ≤ nid ∧ nid ∉ persisted.map (·.id) ∧
        newQuestionRow uid sid nid p (mergeOptions [] p.options uid nid (nid + 1)).1
          ∈ (mergeQuestions persisted payload uid sid f).1)
    ∧ (∀ (persisted : List OptionRow) (payload : List OptionUP)
        (uid : Option Nat) (qid f : Nat) (p : OptionUP) (i : Nat)
        (o : OptionRow),
      (payload.filterMap (·.id)).Nodup → p ∈ payload → p.id = some i →
      o ∈ persisted → o.id = i → o.isactive = true →
      (persisted.map (·.id)).Nodup → (∀ b ∈ persisted, b.id < f) →
      (mergeOptions persisted payload uid qid f).1.filter (fun r => r.id == i)
        = [updOptionRow uid p o])
    ∧ (∀ (persisted : List OptionRow) (payload : List OptionUP)
        (uid : Option Nat) (qid f : Nat) (p : OptionUP),
      p ∈ payload →
      (p.id = none ∨ ∃ i, p.id = some i ∧ i ∉ activeOptionIds persisted) →
      (∀ b ∈ persisted, b.id < f) →
      ∃ nid, f ≤ nid ∧ nid ∉ persisted.map (·.id) ∧
        newOptionRow uid qid nid p ∈ (mergeOptions persisted payload uid qid f).1) := by
  refine ⟨?_, ?_, ?_, ?_, ?_, ?_, ?_, ?_⟩
  · intro persisted payload uid tid f p i a hndP hp hpid ha haid hact hndR hlt
    exact mergeAreas_matched persisted payload uid tid f p i a hndP hp hpid
      ha haid hact hndR hlt
  · intro persisted payload uid tid f p hp hun hlt
    exact mergeAreas_new persisted payload uid tid f p hp hun hlt
  · intro persisted payload uid aid f p i s hndP hp hpid hs hsid hact hndR hlt
    exact mergeScopes_matched persisted payload uid aid f p i s hndP hp hpid
      hs hsid hact hndR hlt
  · intro persisted payload uid aid f p hp hun hlt
    exact mergeScopes_new persisted payload uid aid f p hp hun hlt
  · intro persisted payload uid sid f p i q hndP hp hpid hq hqid hact hndR hlt
    exact mergeQuestions_matched persisted payload uid sid f p i q hndP hp hpid
      hq hqid hact hndR hlt
  · intro persisted payload uid sid f p hp hun hlt
    exact mergeQuestions_new persisted payload uid sid f p hp hun hlt
  · intro persisted payload uid qid f p i o hndP hp hpid ho hoid hact hndR hlt
    exact mergeOptions_matched persisted payload uid qid f p i o hndP hp hpid
      ho hoid hact hndR hlt
  · intro persisted payload uid qid f p hp hun hlt
    exact mergeOptions_new persisted payload uid qid f p hp hun hlt

/-- Persisted option rows of the C2 witness scenario. -/
def c2orow : OptionRow :=
  { id := 4, question_id := 3, label := "Old", value := 0, isactive := true }

/-- Option payload item of the C2 witness: same id, changed label. -/
def c2oitem : OptionUP := { id := some 4, label := "New", value := 2 }

/-- Persisted area row of the C2 witness scenario, named B. -/
def c2arow : AreaRow :=
  { id := 1, template_id := 0, name := "B", weightage := 10,
    isactive := true, scopes := [] }

/-- Area payload item matching id 1 under a changed name. -/
def c2amatch : AreaUP := { id := some 1, name := "Renamed", weightage := 20 }

/-- Area payload item with no id whose name B matches the persisted
sibling. -/
def c2anew : AreaUP := { name := "B", weightage := 50 }

/-- Witness for C2: a matched option is updated in place, a matched area
keeps its id under the new name with its own (empty) scopes as the next
persisted map, and an id-less area named like its sibling still becomes a
brand-new active row. -/
theorem claim_C2_witness :
    (mergeOptions [c2orow] [c2oitem] none 3 10).1.filter (fun r => r.id == 4)
      = [updOptionRow none c2oitem c2orow] ∧
    (mergeAreas [c2arow] [c2amatch] none 0 50).1.filter (fun r => r.id == 1)
      = [{ id := 1, template_id := 0, name := "Renamed", weightage := 20,
           isactive := true, scopes := [] }] ∧
    (mergeAreas [c2arow] [c2anew] none 0 50).1.any
      (fun r => r.name == "B" && r.isactive) = true := by
  refine ⟨?_, ?_, ?_⟩
  · exact claim_C2_identity_only_matching.2.2.2.2.2.2.1 [c2orow] [c2oitem]
      none 3 10 c2oitem 4 c2orow (by decide) (by decide) (by decide)
      (by decide) (by decide) (by decide) (by decide) (by decide)
  · obtain ⟨g, _, hres⟩ := claim_C2_identity_only_matching.1 [c2arow] [c2amatch]
      none 0 50 c2amatch 1 c2arow (by decide) (by decide) (by decide)
      (by decide) (by decide) (by decide) (by decide) (by decide)
    rw [hres]
    simp [updAreaRow, c2arow, c2amatch, mergeScopes, mergeScopesGo,
      activeScopeIds, stampU]
  · obtain ⟨nid, _, _, hmem⟩ := claim_C2_identity_only_matching.2.1 [c2arow]
      [c2anew] none 0 50 c2anew (by decide) (by decide) (by decide)
    exact List.any_eq_true.mpr ⟨_, hmem, by simp [newAreaRow, c2anew]⟩

/-! ## Validation-chain reductions -/

/-- With the name check passed, create_template is the validator chain
followed by the committed creation. -/
theorem createTemplate_validation (db : DB) (p : TemplateCP) (uid : Option Nat)
    (hname : getByName db p.name = none) :
    createTemplate db p uid =
      validateAll (p.areas.map AreaCP.toU) >>=
        (fun _ => Except.ok (createResultDB db p uid, createResultDetail db p uid)) := by
  unfold createTemplate validateAll
  rw [hname]
  simp only [map_eq_pure_bind, bind_assoc]
  rfl

/-- With source and name checks passed, clone_template is the validator
chain followed by the committed creation. -/
theorem cloneTemplate_validation (db : DB) (sourceId : Nat) (p : TemplateCP)
    (uid : Option Nat) (t0 : TemplateRow)
    (hsrc : getById db sourceId = some t0)
    (hname : getByName db p.name = none) :
    cloneTemplate db sourceId p uid =
      validateAll (p.areas.map AreaCP.toU) >>=
        (fun _ => Except.ok (createResultDB db p uid, createResultDetail db p uid)) := by
  unfold cloneTemplate validateAll
  rw [hsrc, hname]
  simp only [map_eq_pure_bind, bind_assoc]
  rfl

/-- With template found and the name check passed, update_template is the
validator chain followed by the committed merge. -/
theorem updateTemplate_validation (db : DB) (tid : Nat) (p : TemplateUP)
    (uid : Option Nat) (t : TemplateRow)
    (hfind : findTemplate db tid = some t)
    (hname : p.name = t.name ∨ getByName db p.name = none) :
    updateTemplate db tid p uid =
      validateAll p.areas >>= (fun _ =>
        Except.ok
          ({ templates := db.templates.map (fun x =>
               if x.id = tid then updatedTemplateRow db tid p uid t else x),
             nextId := (mergeAreas t.areas p.areas uid tid db.nextId).2 },
           templateDetailResponse ((((findTemplate
             { templates := db.templates.map (fun x =>
                 if x.id = tid then updatedTemplateRow db tid p uid t else x),
               nextId := (mergeAreas t.areas p.areas uid tid db.nextId).2 } tid)).getD
             (updatedTemplateRow db tid p uid t)).activeView))) := by
  unfold updateTemplate validateAll
  rw [hfind]
  by_cases hn : p.name = t.name
  · simp only [pure_bind, hn, eq_self_iff_true, if_true, map_eq_pure_bind,
      bind_assoc]
    rfl
  · have hg : getByName db p.name = none := hname.resolve_left hn
    rw [hg]
    simp only [pure_bind, hn, if_false, map_eq_pure_bind, bind_assoc]
    rfl

/-- A failing validator chain fails the whole operation with its error. -/
theorem bind_error_of_validateAll {areas : List AreaUP} {e : ApiError}
    {α : Type} (k : Unit → Except ApiError α)
    (hv : validateAll areas = .error e) :
    validateAll areas >>= k = .error e := by
  rw [hv]
  rfl

/-- A passing validator chain hands control to the continuation. -/
theorem bind_ok_of_validateAll {areas : List AreaUP}
    {α : Type} (k : Unit → Except ApiError α)
    (hv : validateAll areas = .ok ()) :
    validateAll areas >>= k = k () := by
  rw [hv]
  rfl

/-- When the first six validators pass, the validator chain is exactly the
percentage check. -/
theorem validateAll_of_six (areas : List AreaUP)
    (h1 : validateEmptyQuestionScopesAreas areas = .ok ())
    (h2 : validateAreaNames areas = .ok ())
    (h3 : validateScopeNames areas = .ok ())
    (h4 : validateQuestionNames areas = .ok ())
    (h5 : validateOptionLabels areas = .ok ())
    (h6 : validateOptionValues areas = .ok ()) :
    validateAll areas = validateScopePercentages areas := by
  unfold validateAll
  rw [h1, h2, h3, h4, h5, h6]
  cases h7 : validateScopePercentages areas <;> rfl

/-- C3: the percentage validator sums percentage over all questions of all
scopes of all areas of the payload (scopes with no questions contribute 0
and never block the check), accepts exactly the total 100, and — once the
name check and the six earlier validators pass — each of create, update and
clone is rejected with the 422 percentage error precisely when that total
differs from 100, persisting nothing in that case (an error result carries
no database state). -/
theorem claim_C3_percentage_must_total_100 :
    (∀ areas : List AreaUP, scopePercentageTotal areas =
      (areas.map (fun a => (a.scopes.map (fun s =>
        (s.questions.map (·.percentage)).sum)).sum)).sum)
    ∧ (∀ areas : List AreaUP,
        validateScopePercentages areas = Except.ok () ↔
          scopePercentageTotal areas = 100)
    ∧ (∀ areas : List AreaUP, scopePercentageTotal areas ≠ 100 →
        validateScopePercentages areas =
          Except.error (ApiError.unprocessable percentageErrorMsg))
    ∧ (ApiError.unprocessable percentageErrorMsg).statusCode = 422
    ∧ (∀ (db : DB) (p : TemplateCP) (uid : Option Nat),
        getByName db p.name = none →
        validateEmptyQuestionScopesAreas (p.areas.map AreaCP.toU) = .ok () →
        validateAreaNames (p.areas.map AreaCP.toU) = .ok () →
        validateScopeNames (p.areas.map AreaCP.toU) = .ok () →
        validateQuestionNames (p.areas.map AreaCP.toU) = .ok () →
        validateOptionLabels (p.areas.map AreaCP.toU) = .ok () →
        validateOptionValues (p.areas.map AreaCP.toU) = .ok () →
        (resultOk (createTemplate db p uid) = true ↔
          scopePercentageTotal (p.areas.map AreaCP.toU) = 100) ∧
        (scopePercentageTotal (p.areas.map AreaCP.toU) ≠ 100 →
          createTemplate db p uid =
            Except.error (ApiError.unprocessable percentageErrorMsg)))
    ∧ (∀ (db : DB) (tid : Nat) (p : TemplateUP) (uid : Option Nat)
        (t : TemplateRow),
        findTemplate db tid = some t →
        (p.name = t.name ∨ getByName db p.name = none) →
        validateEmptyQuestionScopesAreas p.areas = .ok () →
        validateAreaNames p.areas = .ok () →
        validateScopeNames p.areas = .ok () →
        validateQuestionNames p.areas = .ok () →
        validateOptionLabels p.areas = .ok () →
        validateOptionValues p.areas = .ok () →
        (resultOk (updateTemplate db tid p uid) = true ↔
          scopePercentageTotal p.areas = 100) ∧
        (scopePercentageTotal p.areas ≠ 100 →
          updateTemplate db tid p uid =
            Except.error (ApiError.unprocessable percentageErrorMsg)))
    ∧ (∀ (db : DB) (sourceId : Nat) (p : TemplateCP) (uid : Option Nat)
        (t0 : TemplateRow),
        getById db sourceId = some t0 →
        getByName db p.name = none →
        validateEmptyQuestionScopesAreas (p.areas.map AreaCP.toU) = .ok () →
        validateAreaNames (p.areas.map AreaCP.toU) = .ok () →
        validateScopeNames (p.areas.map AreaCP.toU) = .ok () →
        validateQuestionNames (p.areas.map AreaCP.toU) = .ok () →
        validateOptionLabels (p.areas.map AreaCP.toU) = .ok () →
        validateOptionValues (p.areas.map AreaCP.toU) = .ok () →
        (resultOk (cloneTemplate db sourceId p uid) = true ↔
          scopePercentageTotal (p.areas.map AreaCP.toU) = 100) ∧
        (scopePercentageTotal (p.areas.map AreaCP.toU) ≠ 100 →
          cloneTemplate db sourceId p uid =
            Except.error (ApiError.unprocessable percentageErrorMsg))) := by
  refine ⟨?_, ?_, ?_, rfl, ?_, ?_, ?_⟩
  · intro areas
    unfold scopePercentageTotal
    congr 1
    apply List.map_congr_left
    intro a _
    congr 1
    apply List.map_congr_left
    intro s _
    by_cases h : s.questions.isEmpty
    · have : s.questions = [] := by simpa using h
      simp [h, this]
    · simp [h]
  · intro areas
    unfold validateScopePercentages
    by_cases h : scopePercentageTotal areas = 100 <;> simp [h]
  · intro areas h
    unfold validateScopePercentages
    simp [h]
  · intro db p uid hname h1 h2 h3 h4 h5 h6
    have hva := validateAll_of_six _ h1 h2 h3 h4 h5 h6
    have hred := createTemplate_validation db p uid hname
    by_cases htot : scopePercentageTotal (p.areas.map AreaCP.toU) = 100
    · have hv : validateAll (p.areas.map AreaCP.toU) = .ok () := by
        rw [hva]
        unfold validateScopePercentages
        simp [htot]
      have hok : createTemplate db p uid =
          Except.ok (createResultDB db p uid, createResultDetail db p uid) := by
        rw [hred]
        exact bind_ok_of_validateAll _ hv
      exact ⟨by simp [hok, resultOk, htot], fun hne => absurd htot hne⟩
    · have hv : validateAll (p.areas.map AreaCP.toU) =
          .error (.unprocessable percentageErrorMsg) := by
        rw [hva]
        unfold validateScopePercentages
        simp [htot]
      have herr : createTemplate db p uid =
          Except.error (.unprocessable percentageErrorMsg) := by
        rw [hred]
        exact bind_error_of_validateAll _ hv
      exact ⟨by simp [herr, resultOk, htot], fun _ => herr⟩
  · intro db tid p uid t hfind hname h1 h2 h3 h4 h5 h6
    have hva := validateAll_of_six _ h1 h2 h3 h4 h5 h6
    have hred := updateTemplate_validation db tid p uid t hfind hname
    by_cases htot : scopePercentageTotal p.areas = 100
    · have hv : validateAll p.areas = .ok () := by
        rw [hva]
        unfold validateScopePercentages
        simp [htot]
      rw [hred, bind_ok_of_validateAll _ hv]
      exact ⟨by simp [resultOk, htot], fun hne => absurd htot hne⟩
    · have hv : validateAll p.areas =
          .error (.unprocessable percentageErrorMsg) := by
        rw [hva]
        unfold validateScopePercentages
        simp [htot]
      rw [hred, bind_error_of_validateAll _ hv]
      exact ⟨by simp [resultOk, htot], fun _ => rfl⟩
  · intro db sourceId p uid t0 hsrc hname h1 h2 h3 h4 h5 h6
    have hva := validateAll_of_six _ h1 h2 h3 h4 h5 h6
    have hred := cloneTemplate_validation db sourceId p uid t0 hsrc hname
    by_cases htot : scopePercentageTotal (p.areas.map AreaCP.toU) = 100
    · have hv : validateAll (p.areas.map AreaCP.toU) = .ok () := by
        rw [hva]
        unfold validateScopePercentages
        simp [htot]
      rw [hred, bind_ok_of_validateAll _ hv]
      exact ⟨by simp [resultOk, htot], fun hne => absurd htot hne⟩
    · have hv : validateAll (p.areas.map AreaCP.toU) =
          .error (.unprocessable percentageErrorMsg) := by
        rw [hva]
        unfold validateScopePercentages
        simp [htot]
      rw [hred, bind_error_of_validateAll _ hv]
      exact ⟨by simp [resultOk, htot], fun _ => rfl⟩

/-- A payload whose single question carries 50 percent: structurally valid,
numerically rejected. -/
def c3p : TemplateCP :=
  { name := "Underweight", areas := [
      { name := "A", weightage := 100, scopes := [
        { name := "S", questions := [
          { text := "Q", percentage := 50, options := [
            { label := "Yes", value := 1 } ] } ] } ] } ] }

/-- Witness for C3: on the empty database the 50-percent payload is
rejected by create with the 422 percentage error, and a scope with no
questions contributes 0 to the total. -/
theorem claim_C3_witness :
    createTemplate { templates := [], nextId := 0 } c3p none =
      Except.error (ApiError.unprocessable percentageErrorMsg) ∧
    scopePercentageTotal
      [{ name := "A"
         weightage := 1
         scopes := [{ name := "S", questions := [] }] }] = 0 := by
  constructor
  · exact (claim_C3_percentage_must_total_100.2.2.2.2.1
      { templates := [], nextId := 0 } c3p none rfl rfl rfl rfl rfl rfl rfl).2
      (by decide)
  · exact (claim_C3_percentage_must_total_100.1 _).trans (by decide)

/-! ## Classification of validator errors: every validator failure is a 422
unprocessable error, never a conflict and never a not-found. -/

/-- True exactly on the 422 validation errors. -/
def ApiError.isValidation : ApiError → Bool
  | .unprocessable _ => true
  | _ => false

/-- Question-level non-emptiness errors are validation errors. -/
theorem validateQuestionsNonEmptyOpts_err (aname sname : String) :
    ∀ (qs : List QuestionUP) (e : ApiError),
      validateQuestionsNonEmptyOpts aname sname qs = .error e →
      e.isValidation = true := by
  intro qs
  induction qs with
  | nil => intro e h; cases h
  | cons q rest ih =>
    intro e h
    unfold validateQuestionsNonEmptyOpts at h
    by_cases hq : q.options.isEmpty
    · rw [if_pos hq] at h
      cases h
      rfl
    · rw [if_neg hq] at h
      exact ih e h

/-- Scope-level non-emptiness errors are validation errors. -/
theorem validateScopesNonEmpty_err (aname : String) :
    ∀ (ss : List ScopeUP) (e : ApiError),
      validateScopesNonEmpty aname ss = .error e → e.isValidation = true := by
  intro ss
  induction ss with
  | nil => intro e h; cases h
  | cons s rest ih =>
    intro e h
    unfold validateScopesNonEmpty at h
    by_cases hs : s.questions.isEmpty
    · rw [if_pos hs] at h
      cases h
      rfl
    · rw [if_neg hs] at h
      cases hq : validateQuestionsNonEmptyOpts aname s.name s.questions with
      | error e1 =>
        rw [hq] at h
        cases h
        exact validateQuestionsNonEmptyOpts_err _ _ _ _ hq
      | ok u =>
        cases u
        rw [hq] at h
        exact ih e h

/-- Non-emptiness errors are validation errors. -/
theorem validateEmptyQuestionScopesAreas_err :
    ∀ (areas : List AreaUP) (e : ApiError),
      validateEmptyQuestionScopesAreas areas = .error e →
      e.isValidation = true := by
  intro areas
  induction areas with
  | nil => intro e h; cases h
  | cons a rest ih =>
    intro e h
    unfold validateEmptyQuestionScopesAreas at h
    by_cases ha : a.scopes.isEmpty
    · rw [if_pos ha] at h
      cases h
      rfl
    · rw [if_neg ha] at h
      cases hs : validateScopesNonEmpty a.name a.scopes with
      | error e1 =>
        rw [hs] at h
        cases h
        exact validateScopesNonEmpty_err _ _ _ hs
      | ok u =>
        cases u
        rw [hs] at h
        exact ih e h

/-- Area-name duplicate errors are validation errors. -/
theorem validateAreaNamesGo_err :
    ∀ (seen : List String) (areas : List AreaUP) (e : ApiError),
      validateAreaNamesGo seen areas = .error e → e.isValidation = true := by
  intro seen areas
  induction areas generalizing seen with
  | nil => intro e h; cases h
  | cons a rest ih =>
    intro e h
    unfold validateAreaNamesGo at h
    by_cases hc : seen.contains (a.name.trim.toLower)
    · rw [if_pos hc] at h
      cases h
      rfl
    · rw [if_neg hc] at h
      exact ih _ e h

/-- validateAreaNames errors are validation errors. -/
theorem validateAreaNames_err (areas : List AreaUP) (e : ApiError)
    (h : validateAreaNames areas = .error e) : e.isValidation = true :=
  validateAreaNamesGo_err [] areas e h

/-- Scope-name duplicate errors are validation errors. -/
theorem validateScopeNamesGo_err (aname : String) :
    ∀ (seen : List String) (ss : List ScopeUP) (e : ApiError),
      validateScopeNamesGo aname seen ss = .error e → e.isValidation = true := by
  intro seen ss
  induction ss generalizing seen with
  | nil => intro e h; cases h
  | cons s rest ih =>
    intro e h
    unfold validateScopeNamesGo at h
    by_cases hc : seen.contains (s.name.trim.toLower)
    · rw [if_pos hc] at h
      cases h
      rfl
    · rw [if_neg hc] at h
      exact ih _ e h

/-- validateScopeNames errors are validation errors. -/
theorem validateScopeNames_err :
    ∀ (areas : List AreaUP) (e : ApiError),
      validateScopeNames areas = .error e → e.isValidation = true := by
  intro areas
  induction areas with
  | nil => intro e h; cases h
  | cons a rest ih =>
    intro e h
    unfold validateScopeNames at h
    cases hg : validateScopeNamesGo a.name [] a.scopes with
    | error e1 =>
      rw [hg] at h
      cases h
      exact validateScopeNamesGo_err _ _ _ _ hg
    | ok u =>
      cases u
      rw [hg] at h
      exact ih e h

/-- Question-text duplicate errors are validation errors. -/
theorem validateQuestionNamesGo_err (aname sname : String) :
    ∀ (seen : List String) (qs : List QuestionUP) (e : ApiError),
      validateQuestionNamesGo aname sname seen qs = .error e →
      e.isValidation = true := by
  intro seen qs
  induction qs generalizing seen with
  | nil => intro e h; cases h
  | cons q rest ih =>
    intro e h
    unfold validateQuestionNamesGo at h
    by_cases hc : seen.contains (q.text.trim.toLower)
    · rw [if_pos hc] at h
      cases h
      rfl
    · rw [if_neg hc] at h
      exact ih _ e h

/-- Per-area question-text duplicate errors are validation errors. -/
theorem validateQuestionNamesScopes_err (aname : String) :
    ∀ (ss : List ScopeUP) (e : ApiError),
      validateQuestionNamesScopes aname ss = .error e →
      e.isValidation = true := by
  intro ss
  induction ss with
  | nil => intro e h; cases h
  | cons s rest ih =>
    intro e h
    unfold validateQuestionNamesScopes at h
    cases hg : validateQuestionNamesGo aname s.name [] s.questions with
    | error e1 =>
      rw [hg] at h
      cases h
      exact validateQuestionNamesGo_err _ _ _ _ _ hg
    | ok u =>
      cases u
      rw [hg] at h
      exact ih e h

/-- validateQuestionNames errors are validation errors. -/
theorem validateQuestionNames_err :
    ∀ (areas : List AreaUP) (e : ApiError),
      validateQuestionNames areas = .error e → e.isValidation = true := by
  intro areas
  induction areas with
  | nil => intro e h; cases h
  | cons a rest ih =>
    intro e h
    unfold validateQuestionNames at h
    cases hg : validateQuestionNamesScopes a.name a.scopes with
    | error e1 =>
      rw [hg] at h
      cases h
      exact validateQuestionNamesScopes_err _ _ _ hg
    | ok u =>
      cases u
      rw [hg] at h
      exact ih e h

/-- Option-label duplicate errors are validation errors. -/
theorem validateOptionLabelsGo_err (sname qtext : String) :
    ∀ (seen : List String) (os : List OptionUP) (e : ApiError),
      validateOptionLabelsGo sname qtext seen os = .error e →
      e.isValidation = true := by
  intro seen os
  induction os generalizing seen with
  | nil => intro e h; cases h
  | cons o rest ih =>
    intro e h
    unfold validateOptionLabelsGo at h
    by_cases hc : seen.contains (o.label.trim.toLower)
    · rw [if_pos hc] at h
      cases h
      rfl
    · rw [if_neg hc] at h
      exact ih _ e h

/-- Per-question option-label duplicate errors are validation errors. -/
theorem validateOptionLabelsQuestions_err (sname : String) :
    ∀ (qs : List QuestionUP) (e : ApiError),
      validateOptionLabelsQuestions sname qs = .error e →
      e.isValidation = true := by
  intro qs
  induction qs with
  | nil => intro e h; cases h
  | cons q rest ih =>
    intro e h
    unfold validateOptionLabelsQuestions at h
    cases hg : validateOptionLabelsGo sname q.text [] q.options with
    | error e1 =>
      rw [hg] at h
      cases h
      exact validateOptionLabelsGo_err _ _ _ _ _ hg
    | ok u =>
      cases u
      rw [hg] at h
      exact ih e h

/-- Per-area option-label duplicate errors are validation errors. -/
theorem validateOptionLabelsScopes_err :
    ∀ (ss : List ScopeUP) (e : ApiError),
      validateOptionLabelsScopes ss = .error e → e.isValidation = true := by
  intro ss
  induction ss with
  | nil => intro e h; cases h
  | cons s rest ih =>
    intro e h
    unfold validateOptionLabelsScopes at h
    cases hg : validateOptionLabelsQuestions s.name s.questions with
    | error e1 =>
      rw [hg] at h
      cases h
      exact validateOptionLabelsQuestions_err _ _ _ hg
    | ok u =>
      cases u
      rw [hg] at h
      exact ih e h

/-- validateOptionLabels errors are validation errors. -/
theorem validateOptionLabels_err :
    ∀ (areas : List AreaUP) (e : ApiError),
      validateOptionLabels areas = .error e → e.isValidation = true := by
  intro areas
  induction areas with
  | nil => intro e h; cases h
  | cons a rest ih =>
    intro e h
    unfold validateOptionLabels at h
    cases hg : validateOptionLabelsScopes a.scopes with
    | error e1 =>
      rw [hg] at h
      cases h
      exact validateOptionLabelsScopes_err _ _ hg
    | ok u =>
      cases u
      rw [hg] at h
      exact ih e h

/-- Option-value duplicate errors are validation errors. -/
theorem validateOptionValuesGo_err (sname qtext : String) :
    ∀ (seen : List Int) (os : List OptionUP) (e : ApiError),
      validateOptionValuesGo sname qtext seen os = .error e →
      e.isValidation = true := by
  intro seen os
  induction os generalizing seen with
  | nil => intro e h; cases h
  | cons o rest ih =>
    intro e h
    unfold validateOptionValuesGo at h
    by_cases hc : seen.contains o.value
    · rw [if_pos hc] at h
      cases h
      rfl
    · rw [if_neg hc] at h
      exact ih _ e h

/-- Per-question option-value duplicate errors are validation errors. -/
theorem validateOptionValuesQuestions_err (sname : String) :
    ∀ (qs : List QuestionUP) (e : ApiError),
      validateOptionValuesQuestions sname qs = .error e →
      e.isValidation = true := by
  intro qs
  induction qs with
  | nil => intro e h; cases h
  | cons q rest ih =>
    intro e h
    unfold validateOptionValuesQuestions at h
    cases hg : validateOptionValuesGo sname q.text [] q.options with
    | error e1 =>
      rw [hg] at h
      cases h
      exact validateOptionValuesGo_err _ _ _ _ _ hg
    | ok u =>
      cases u
      rw [hg] at h
      exact ih e h

/-- Per-area option-value duplicate errors are validation errors. -/
theorem validateOptionValuesScopes_err :
    ∀ (ss : List ScopeUP) (e : ApiError),
      validateOptionValuesScopes ss = .error e → e.isValidation = true := by
  intro ss
  induction ss with
  | nil => intro e h; cases h
  | cons s rest ih =>
    intro e h
    unfold validateOptionValuesScopes at h
    cases hg : validateOptionValuesQuestions s.name s.questions with
    | error e1 =>
      rw [hg] at h
      cases h
      exact validateOptionValuesQuestions_err _ _ _ hg
    | ok u =>
      cases u
      rw [hg] at h
      exact ih e h

/-- validateOptionValues errors are validation errors. -/
theorem validateOptionValues_err :
    ∀ (areas : List AreaUP) (e : ApiError),
      validateOptionValues areas = .error e → e.isValidation = true := by
  intro areas
  induction areas with
  | nil => intro e h; cases h
  | cons a rest ih =>
    intro e h
    unfold validateOptionValues at h
    cases hg : validateOptionValuesScopes a.scopes with
    | error e1 =>
      rw [hg] at h
      cases h
      exact validateOptionValuesScopes_err _ _ hg
    | ok u =>
      cases u
      rw [hg] at h
      exact ih e h

/-- Percentage errors are validation errors. -/
theorem validateScopePercentages_err (areas : List AreaUP) (e : ApiError)
    (h : validateScopePercentages areas = .error e) : e.isValidation = true := by
  unfold validateScopePercentages at h
  by_cases ht : scopePercentageTotal areas ≠ 100
  · rw [if_pos ht] at h
    cases h
    rfl
  · rw [if_neg ht] at h
    cases h

/-- Every validator-chain failure is a 422 validation error. -/
theorem validateAll_err (areas : List AreaUP) (e : ApiError)
    (h : validateAll areas = .error e) : e.isValidation = true := by
  unfold validateAll at h
  cases h1 : validateEmptyQuestionScopesAreas areas with
  | error e1 =>
    rw [h1] at h
    cases h
    exact validateEmptyQuestionScopesAreas_err _ _ h1
  | ok u =>
    cases u
    rw [h1] at h
    cases h2 : validateAreaNames areas with
    | error e2 =>
      rw [h2] at h
      cases h
      exact validateAreaNames_err _ _ h2
    | ok u =>
      cases u
      rw [h2] at h
      cases h3 : validateScopeNames areas with
      | error e3 =>
        rw [h3] at h
        cases h
        exact validateScopeNames_err _ _ h3
      | ok u =>
        cases u
        rw [h3] at h
        cases h4 : validateQuestionNames areas with
        | error e4 =>
          rw [h4] at h
          cases h
          exact validateQuestionNames_err _ _ h4
        | ok u =>
          cases u
          rw [h4] at h
          cases h5 : validateOptionLabels areas with
          | error e5 =>
            rw [h5] at h
            cases h
            exact validateOptionLabels_err _ _ h5
          | ok u =>
            cases u
            rw [h5] at h
            cases h6 : validateOptionValues areas with
            | error e6 =>
              rw [h6] at h
              cases h
              exact validateOptionValues_err _ _ h6
            | ok u =>
              cases u
              rw [h6] at h
              cases h7 : validateScopePercentages areas with
              | error e7 =>
                rw [h7] at h
                cases h
                exact validateScopePercentages_err _ _ h7
              | ok u =>
                cases u
                rw [h7] at h
                cases h

/-! ## C4: the name-collision check is case-sensitive, not
case-insensitive -/

/-- A database holding one active template named Abc. -/
def c4db : DB :=
  { templates := [ { id := 0, name := "Abc", isactive := true, areas := [] } ],
    nextId := 1 }

/-- A structurally valid create payload whose name abc collides with Abc
only up to case. -/
def c4p : TemplateCP :=
  { name := "abc", areas := [
      { name := "A", weightage := 100, scopes := [
        { name := "S", questions := [
          { text := "Q", percentage := 100, options := [
            { label := "Yes", value := 1 } ] } ] } ] } ] }

/-- C4 counterexample: the names abc and Abc collide case-insensitively,
yet createTemplate accepts the request — get_by_name compares the varchar
column with SQL equality, which is case-sensitive, so the claimed
case-insensitive Conflict never fires. -/
theorem claim_C4_counterexample :
    "abc".toLower = "Abc".toLower ∧
    resultOk (createTemplate c4db c4p none) = true := by
  constructor
  · rw [String.toLower, String.map_eq, String.toLower, String.map_eq]
    decide
  · rfl

/-- C4 amended: create, clone, and update with a changed name reject with
409 Conflict exactly when the requested name equals, case-sensitively and
exactly, the name of an existing active template; a collision that is only
case-insensitive is not rejected. -/
theorem claim_C4_exact_name_conflict :
    (∀ (db : DB) (n : String),
      (getByName db n).isSome ↔ ∃ t ∈ db.templates, t.isactive = true ∧ t.name = n)
    ∧ (∀ (db : DB) (p : TemplateCP) (uid : Option Nat) (t0 : TemplateRow),
      getByName db p.name = some t0 →
      createTemplate db p uid = .error (.conflict (conflictMsg p.name)))
    ∧ (∀ (db : DB) (p : TemplateCP) (uid : Option Nat),
      getByName db p.name = none →
      ∀ m, createTemplate db p uid ≠ .error (.conflict m))
    ∧ (∀ (db : DB) (tid : Nat) (p : TemplateUP) (uid : Option Nat)
        (t t0 : TemplateRow),
      findTemplate db tid = some t → p.name ≠ t.name →
      getByName db p.name = some t0 →
      updateTemplate db tid p uid = .error (.conflict (conflictMsg p.name)))
    ∧ (∀ (db : DB) (sourceId : Nat) (p : TemplateCP) (uid : Option Nat)
        (t0 t1 : TemplateRow),
      getById db sourceId = some t1 → getByName db p.name = some t0 →
      cloneTemplate db sourceId p uid = .error (.conflict (conflictMsg p.name))) := by
  refine ⟨?_, ?_, ?_, ?_, ?_⟩
  · intro db n
    unfold getByName
    rw [List.find?_isSome]
    constructor
    · rintro ⟨t, ht, hp⟩
      refine ⟨t, ht, ?_, ?_⟩
      · have := (Bool.and_eq_true _ _).mp hp
        exact this.2
      · have := (Bool.and_eq_true _ _).mp hp
        simpa using this.1
    · rintro ⟨t, ht, hact, hname⟩
      exact ⟨t, ht, by simp [hname, hact]⟩
  · intro db p uid t0 h
    unfold createTemplate
    rw [h]
    rfl
  · intro db p uid hname m hEq
    rw [createTemplate_validation db p uid hname] at hEq
    cases hv : validateAll (p.areas.map AreaCP.toU) with
    | error e =>
      rw [bind_error_of_validateAll _ hv] at hEq
      have he : e = .conflict m := by simpa using hEq
      have hval := validateAll_err _ _ hv
      rw [he] at hval
      cases hval
    | ok u =>
      cases u
      rw [bind_ok_of_validateAll _ hv] at hEq
      cases hEq
  · intro db tid p uid t t0 hfind hne h
    unfold updateTemplate
    rw [hfind]
    simp only [pure_bind]
    rw [if_neg hne, h]
    rfl
  · intro db sourceId p uid t0 t1 hsrc h
    unfold cloneTemplate
    rw [hsrc, h]
    rfl

/-- Witness for the amended C4: an exact duplicate of the active name Abc
is rejected with 409. -/
theorem claim_C4_witness :
    createTemplate c4db { name := "Abc", areas := c4p.areas } none =
      Except.error (ApiError.conflict (conflictMsg "Abc")) ∧
    (ApiError.conflict (conflictMsg "Abc")).statusCode = 409 := by
  constructor
  · exact claim_C4_exact_name_conflict.2.1 c4db
      { name := "Abc", areas := c4p.areas } none
      { id := 0, name := "Abc", isactive := true, areas := [] } rfl
  · rfl

/-! ## C5: what 404 means for detail reads and updates -/

/-- When the template row exists — active or not — update_template never
fails with anything but a conflict or a validation error. -/
theorem updateTemplate_err_of_found {db : DB} {tid : Nat} {p : TemplateUP}
    {uid : Option Nat} {t : TemplateRow} {e : ApiError}
    (hfind : findTemplate db tid = some t)
    (h : updateTemplate db tid p uid = .error e) :
    (∃ m, e = .conflict m) ∨ e.isValidation = true := by
  by_cases hn : p.name = t.name
  · rw [updateTemplate_validation db tid p uid t hfind (Or.inl hn)] at h
    cases hv : validateAll p.areas with
    | error e1 =>
      rw [bind_error_of_validateAll _ hv] at h
      have he : e1 = e := by simpa using h
      right
      rw [← he]
      exact validateAll_err _ _ hv
    | ok u =>
      cases u
      rw [bind_ok_of_validateAll _ hv] at h
      cases h
  · cases hg : getByName db p.name with
    | some t0 =>
      have hconf : updateTemplate db tid p uid =
          .error (.conflict (conflictMsg p.name)) := by
        unfold updateTemplate
        rw [hfind]
        simp only [pure_bind]
        rw [if_neg hn, hg]
        rfl
      rw [hconf] at h
      have he : ApiError.conflict (conflictMsg p.name) = e := by simpa using h
      exact Or.inl ⟨conflictMsg p.name, he.symm⟩
    | none =>
      rw [updateTemplate_validation db tid p uid t hfind (Or.inr hg)] at h
      cases hv : validateAll p.areas with
      | error e1 =>
        rw [bind_error_of_validateAll _ hv] at h
        have he : e1 = e := by simpa using h
        right
        rw [← he]
        exact validateAll_err _ _ hv
      | ok u =>
        cases u
        rw [bind_ok_of_validateAll _ hv] at h
        cases h

/-- A database holding one soft-deleted template and nothing else. -/
def c5db : DB :=
  { templates := [ { id := 0, name := "Dead", isactive := false, areas := [] } ],
    nextId := 1 }

/-- C5 counterexample: the detail read of a soft-deleted template does not
yield 404 — get_by_id_with_details has no isactive filter on the template
row, so the service returns the detail, carrying isactive = false. -/
theorem claim_C5_counterexample :
    getTemplateDetail c5db 0 =
      Except.ok { id := 0, name := "Dead", isactive := false, areas := [],
                  total_weightage := 0 } := rfl

/-- C5 amended: detail reads and updateTemplate surface the 404 NotFound
exactly when no template row with the id exists at all, active or not; a
soft-deleted template is still found, its detail is returned with the
stored isactive flag rather than a 404. -/
theorem claim_C5_notFound_only_when_no_row :
    (∀ (db : DB) (tid : Nat),
      getTemplateDetail db tid = .error (.notFound "Template not found") ↔
        findTemplate db tid = none)
    ∧ (∀ (db : DB) (tid : Nat),
      findTemplate db tid = none ↔ ∀ t ∈ db.templates, t.id ≠ tid)
    ∧ (∀ (db : DB) (tid : Nat) (t : TemplateRow),
      findTemplate db tid = some t →
      getTemplateDetail db tid = .ok (templateDetailResponse t.activeView) ∧
      (templateDetailResponse t.activeView).isactive = t.isactive)
    ∧ (∀ (db : DB) (tid : Nat) (p : TemplateUP) (uid : Option Nat),
      updateTemplate db tid p uid = .error (.notFound "Template not found") ↔
        findTemplate db tid = none) := by
  refine ⟨?_, ?_, ?_, ?_⟩
  · intro db tid
    unfold getTemplateDetail getByIdWithDetails
    cases hf : findTemplate db tid <;> simp
  · intro db tid
    unfold findTemplate
    rw [List.find?_eq_none]
    constructor
    · intro h t ht
      have := h t ht
      simpa using this
    · intro h t ht
      simpa using h t ht
  · intro db tid t hf
    unfold getTemplateDetail getByIdWithDetails
    rw [hf]
    exact ⟨rfl, rfl⟩
  · intro db tid p uid
    constructor
    · intro h
      cases hf : findTemplate db tid with
      | none => rfl
      | some t =>
        rcases updateTemplate_err_of_found hf h with ⟨m, hm⟩ | hval
        · cases hm
        · cases hval
    · intro h
      unfold updateTemplate
      rw [h]
      rfl

/-- Witness for the amended C5: the dead template is still served in full,
and updating a wholly absent id is the only way to the 404. -/
theorem claim_C5_witness :
    getTemplateDetail c5db 0 =
      Except.ok (templateDetailResponse (TemplateRow.activeView
        { id := 0, name := "Dead", isactive := false, areas := [] })) ∧
    updateTemplate { templates := [], nextId := 0 } 0
        { name := "X", areas := [] } none =
      Except.error (ApiError.notFound "Template not found") := by
  constructor
  · exact (claim_C5_notFound_only_when_no_row.2.2.1 c5db 0
      { id := 0, name := "Dead", isactive := false, areas := [] } rfl).1
  · exact (claim_C5_notFound_only_when_no_row.2.2.2
      { templates := [], nextId := 0 } 0 { name := "X", areas := [] } none).mpr rfl

/-! ## C6: the standalone delete operations do not cascade -/

/-- The state after deleting the template of the cascade scenario: the
template row alone is inactive, its area, scope, question and options keep
their active flags. -/
def c6after : DB :=
  { templates := [
      { id := 0, name := "T", isactive := false, areas := [
        { id := 1, template_id := 0, name := "A", weightage := 100,
          isactive := true, scopes := [
          { id := 2, area_id := 1, name := "S", isactive := true, questions := [
            { id := 3, scope_id := 2, text := "Q", percentage := 100,
              is_mandatory := true, isactive := true, options := [
              { id := 4, question_id := 3, label := "Yes", value := 1,
                isactive := true },
              { id := 5, question_id := 3, label := "No", value := 0,
                isactive := true } ] } ] } ] } ] } ],
    nextId := 6 }

/-- C6 counterexample: delete_template marks only the template row
inactive — after deleting the template above its area, scope, question and
options are all still active, contradicting the claimed cascade. -/
theorem claim_C6_counterexample :
    deleteTemplate c1db 0 none = Except.ok c6after ∧
    c6after.templates.all (fun t => !t.isactive) = true ∧
    c6after.templates.all (fun t => t.areas.all (fun a =>
      a.isactive && a.scopes.all (fun s =>
        s.isactive && s.questions.all (fun q =>
          q.isactive && q.options.all (·.isactive))))) = true := by
  exact ⟨rfl, rfl, rfl⟩

/-- C6 amended: delete_template and delete_area soft-delete exactly the
targeted row; every other row, descendants included, is carried to the new
state unchanged — in particular each committed template keeps its areas
list, and each area its scopes list, so no deactivation cascades (the
cascade exists only inside update_template's reconciliation). -/
theorem claim_C6_delete_is_not_cascading :
    (∀ (db : DB) (tid : Nat) (uid : Option Nat) (t : TemplateRow),
      getById db tid = some t →
      deleteTemplate db tid uid = .ok { db with
        templates := db.templates.map (fun x =>
          if x.id = tid ∧ x.isactive then
            { x with isactive := false, updated_by := stampU uid x.updated_by }
          else x) })
    ∧ (∀ (db : DB) (tid : Nat) (uid : Option Nat) (db' : DB),
      deleteTemplate db tid uid = .ok db' →
      ∀ t' ∈ db'.templates, ∃ t ∈ db.templates, t'.areas = t.areas)
    ∧ (∀ (db : DB) (aid : Nat) (uid : Option Nat) (a : AreaRow),
      findAreaActive db aid = some a →
      deleteArea db aid uid = .ok { db with
        templates := db.templates.map (fun t =>
          { t with areas := t.areas.map (fun b =>
            if b.id = aid ∧ b.isactive then
              { b with isactive := false, updated_by := stampU uid b.updated_by }
            else b) }) })
    ∧ (∀ (db : DB) (aid : Nat) (uid : Option Nat) (db' : DB),
      deleteArea db aid uid = .ok db' →
      ∀ t' ∈ db'.templates, ∀ a' ∈ t'.areas,
        ∃ t ∈ db.templates, ∃ a ∈ t.areas, a'.scopes = a.scopes) := by
  refine ⟨?_, ?_, ?_, ?_⟩
  · intro db tid uid t h
    unfold deleteTemplate
    rw [h]
  · intro db tid uid db' h t' ht'
    unfold deleteTemplate at h
    cases hg : getById db tid with
    | none => rw [hg] at h; cases h
    | some t =>
      rw [hg] at h
      have hdb : db' = { db with templates := db.templates.map (fun x =>
          if x.id = tid ∧ x.isactive then
            { x with isactive := false, updated_by := stampU uid x.updated_by }
          else x) } := by
        have := h
        simpa using this.symm
      rw [hdb] at ht'
      obtain ⟨t0, ht0, hmap⟩ := List.mem_map.mp ht'
      refine ⟨t0, ht0, ?_⟩
      rw [← hmap]
      by_cases hc : t0.id = tid ∧ t0.isactive <;> simp [hc]
  · intro db aid uid a h
    unfold deleteArea
    rw [h]
  · intro db aid uid db' h t' ht' a' ha'
    unfold deleteArea at h
    cases hg : findAreaActive db aid with
    | none => rw [hg] at h; cases h
    | some a0 =>
      rw [hg] at h
      have hdb : db' = { db with templates := db.templates.map (fun t =>
          { t with areas := t.areas.map (fun b =>
            if b.id = aid ∧ b.isactive then
              { b with isactive := false, updated_by := stampU uid b.updated_by }
            else b) }) } := by
        have := h
        simpa using this.symm
      rw [hdb] at ht'
      obtain ⟨t0, ht0, hmap⟩ := List.mem_map.mp ht'
      rw [← hmap] at ha'
      simp only at ha'
      obtain ⟨b0, hb0, hbmap⟩ := List.mem_map.mp ha'
      refine ⟨t0, ht0, b0, hb0, ?_⟩
      rw [← hbmap]
      by_cases hc : b0.id = aid ∧ b0.isactive <;> simp [hc]

/-- Witness for the amended C6 at the concrete scenario. -/
theorem claim_C6_witness :
    deleteTemplate c1db 0 none = Except.ok { c1db with
      templates := c1db.templates.map (fun x =>
        if x.id = 0 ∧ x.isactive then
          { x with isactive := false, updated_by := stampU none x.updated_by }
        else x) } ∧
    deleteArea c1db 1 none = Except.ok { c1db with
      templates := c1db.templates.map (fun t =>
        { t with areas := t.areas.map (fun b =>
          if b.id = 1 ∧ b.isactive then
            { b with isactive := false, updated_by := stampU none b.updated_by }
          else b) }) } := by
  constructor
  · exact claim_C6_delete_is_not_cascading.1 c1db 0 none c1tmpl rfl
  · exact claim_C6_delete_is_not_cascading.2.2.1 c1db 1 none
      (c1area.activeView) rfl

/-! ## C7: validator order -/

/-- Failed computations short-circuit the chain. -/
theorem error_bind {α β : Type} (e : ApiError) (k : α → Except ApiError β) :
    (Except.error e >>= k) = Except.error e := rfl

/-- Successful computations hand their value to the continuation. -/
theorem ok_bind {α β : Type} (a : α) (k : α → Except ApiError β) :
    (Except.ok a >>= k) = k a := rfl

/-- C7: in each of create, update and clone the validators run in the fixed
order non-empty, area names, scope names, question names, option labels,
option values, percentage total, stopping at the first failing rule: the
chain fails with e exactly when some validator fails with e and every
earlier one passed, and the operation (its preceding checks passed)
surfaces exactly that error. -/
theorem claim_C7_validators_fixed_order :
    (∀ (areas : List AreaUP) (e : ApiError),
      validateAll areas = .error e ↔
        (validateEmptyQuestionScopesAreas areas = .error e
         ∨ (validateEmptyQuestionScopesAreas areas = .ok () ∧
            validateAreaNames areas = .error e)
         ∨ (validateEmptyQuestionScopesAreas areas = .ok () ∧
            validateAreaNames areas = .ok () ∧
            validateScopeNames areas = .error e)
         ∨ (validateEmptyQuestionScopesAreas areas = .ok () ∧
            validateAreaNames areas = .ok () ∧
            validateScopeNames areas = .ok () ∧
            validateQuestionNames areas = .error e)
         ∨ (validateEmptyQuestionScopesAreas areas = .ok () ∧
            validateAreaNames areas = .ok () ∧
            validateScopeNames areas = .ok () ∧
            validateQuestionNames areas = .ok () ∧
            validateOptionLabels areas = .error e)
         ∨ (validateEmptyQuestionScopesAreas areas = .ok () ∧
            validateAreaNames areas = .ok () ∧
            validateScopeNames areas = .ok () ∧
            validateQuestionNames areas = .ok () ∧
            validateOptionLabels areas = .ok () ∧
            validateOptionValues areas = .error e)
         ∨ (validateEmptyQuestionScopesAreas areas = .ok () ∧
            validateAreaNames areas = .ok () ∧
            validateScopeNames areas = .ok () ∧
            validateQuestionNames areas = .ok () ∧
            validateOptionLabels areas = .ok () ∧
            validateOptionValues areas = .ok () ∧
            validateScopePercentages areas = .error e)))
    ∧ (∀ (db : DB) (p : TemplateCP) (uid : Option Nat) (e : ApiError),
      getByName db p.name = none →
      validateAll (p.areas.map AreaCP.toU) = .error e →
      createTemplate db p uid = .error e)
    ∧ (∀ (db : DB) (tid : Nat) (p : TemplateUP) (uid : Option Nat)
        (t : TemplateRow) (e : ApiError),
      findTemplate db tid = some t →
      (p.name = t.name ∨ getByName db p.name = none) →
      validateAll p.areas = .error e →
      updateTemplate db tid p uid = .error e)
    ∧ (∀ (db : DB) (sourceId : Nat) (p : TemplateCP) (uid : Option Nat)
        (t0 : TemplateRow) (e : ApiError),
      getById db sourceId = some t0 →
      getByName db p.name = none →
      validateAll (p.areas.map AreaCP.toU) = .error e →
      cloneTemplate db sourceId p uid = .error e) := by
  refine ⟨?_, ?_, ?_, ?_⟩
  · intro areas e
    unfold validateAll
    cases h1 : validateEmptyQuestionScopesAreas areas with
    | error e1 => rw [error_bind]; simp [h1]
    | ok u =>
      cases u
      rw [ok_bind]
      cases h2 : validateAreaNames areas with
      | error e2 => rw [error_bind]; simp [h2]
      | ok u =>
        cases u
        rw [ok_bind]
        cases h3 : validateScopeNames areas with
        | error e3 => rw [error_bind]; simp [h2, h3]
        | ok u =>
          cases u
          rw [ok_bind]
          cases h4 : validateQuestionNames areas with
          | error e4 => rw [error_bind]; simp [h2, h3, h4]
          | ok u =>
            cases u
            rw [ok_bind]
            cases h5 : validateOptionLabels areas with
            | error e5 => rw [error_bind]; simp [h2, h3, h4, h5]
            | ok u =>
              cases u
              rw [ok_bind]
              cases h6 : validateOptionValues areas with
              | error e6 => rw [error_bind]; simp [h2, h3, h4, h5, h6]
              | ok u =>
                cases u
                rw [ok_bind]
                simp [h2, h3, h4, h5, h6]
  · intro db p uid e hname hv
    rw [createTemplate_validation db p uid hname]
    exact bind_error_of_validateAll _ hv
  · intro db tid p uid t e hfind hname hv
    rw [updateTemplate_validation db tid p uid t hfind hname]
    exact bind_error_of_validateAll _ hv
  · intro db sourceId p uid t0 e hsrc hname hv
    rw [cloneTemplate_validation db sourceId p uid t0 hsrc hname]
    exact bind_error_of_validateAll _ hv

/-- Evaluation of String.trim on the one-letter literal A: one step of each
position scan exposes decidable leaves. -/
theorem trim_A : "A".trim = "A" := by
  rw [String.trim]
  show ("A".toSubstring.trim).toString = "A"
  rw [show "A".toSubstring = ⟨"A", 0, "A".endPos⟩ from rfl]
  rw [Substring.trim]
  rw [Substring.takeWhileAux]
  rw [Substring.takeRightWhileAux]
  norm_num
  rfl

/-- The case-insensitive key of the name A. -/
theorem key_A : "A".trim.toLower = "a" := by
  rw [trim_A, String.toLower, String.map_eq]
  decide

/-- Unfolding of one step of the area-name walk. -/
theorem validateAreaNamesGo_cons (seen : List String) (a : AreaUP)
    (rest : List AreaUP) :
    validateAreaNamesGo seen (a :: rest) =
      if seen.contains (a.name.trim.toLower) then
        .error (.unprocessable ("Duplicate area name: " ++ a.name))
      else validateAreaNamesGo (a.name.trim.toLower :: seen) rest := rfl

/-- A payload that violates two rules at once: both areas are named A
(stage two, duplicate area name) and the percentages total 20 (stage
seven). -/
def c7p : TemplateCP :=
  { name := "Dup", areas := [
      { name := "A", weightage := 10, scopes := [
        { name := "S", questions := [
          { text := "Q", percentage := 10, options := [
            { label := "Yes", value := 1 } ] } ] } ] },
      { name := "A", weightage := 10, scopes := [
        { name := "S2", questions := [
          { text := "Q2", percentage := 10, options := [
            { label := "No", value := 1 } ] } ] } ] } ] }

/-- Witness for C7: the doubly invalid payload surfaces the earlier
(duplicate-area-name) error through create, not the percentage error, on
the empty database. -/
theorem claim_C7_witness :
    createTemplate { templates := [], nextId := 0 } c7p none =
      Except.error (ApiError.unprocessable "Duplicate area name: A") ∧
    scopePercentageTotal (c7p.areas.map AreaCP.toU) = 20 := by
  have h2 : validateAreaNames (c7p.areas.map AreaCP.toU) =
      .error (.unprocessable "Duplicate area name: A") := by
    show validateAreaNamesGo [] _ = _
    rw [show (c7p.areas.map AreaCP.toU) =
      [AreaCP.toU c7p.areas[0], AreaCP.toU c7p.areas[1]] from rfl]
    rw [validateAreaNamesGo_cons]
    rw [if_neg (by decide)]
    rw [validateAreaNamesGo_cons]
    rw [show (AreaCP.toU c7p.areas[0]).name.trim.toLower = "a" from key_A]
    rw [show (AreaCP.toU c7p.areas[1]).name.trim.toLower = "a" from key_A]
    rw [if_pos (by decide)]
    rfl
  have hv : validateAll (c7p.areas.map AreaCP.toU) =
      .error (.unprocessable "Duplicate area name: A") := by
    unfold validateAll
    rw [show validateEmptyQuestionScopesAreas (c7p.areas.map AreaCP.toU) =
      .ok () from rfl]
    rw [ok_bind, h2, error_bind]
  constructor
  · exact claim_C7_validators_fixed_order.2.1
      { templates := [], nextId := 0 } c7p none
      (.unprocessable "Duplicate area name: A") rfl hv
  · decide

/-! ## C8: idempotence of seed_default_template -/

/-- A find? over an append skips a prefix containing no match. -/
theorem find?_append_of_none {α : Type} (p : α → Bool) (l l' : List α)
    (h : l.find? p = none) : (l ++ l').find? p = l'.find? p := by
  induction l with
  | nil => rfl
  | cons a rest ih =>
    rw [List.cons_append]
    cases hp : p a with
    | true =>
      rw [List.find?_cons_of_pos _ hp] at h
      exact absurd h (by simp)
    | false =>
      have hp' : ¬ p a = true := by simp [hp]
      rw [List.find?_cons_of_neg _ hp'] at h
      rw [List.find?_cons_of_neg _ hp']
      exact ih h

/-- The template row built by the fresh branch of seed_default_template. -/
def seedT (db : DB) (uid : Option Nat) : TemplateRow :=
  (createWithTree db defaultTemplateName defaultAreas uid).1

/-- The database committed by the fresh branch of seed_default_template. -/
def seedDB (db : DB) (uid : Option Nat) : DB :=
  { templates := db.templates ++ [seedT db uid],
    nextId := (createWithTree db defaultTemplateName defaultAreas uid).2 }

/-- The found branch of seed_default_template: the database is unchanged
and the existing template is serialized through _template_to_response. -/
theorem seed_found (db : DB) (uid : Option Nat) (t : TemplateRow)
    (ht : getByName db defaultTemplateName = some t) :
    seedDefaultTemplate db uid =
      .ok (db, templateResponse (((findTemplate db t.id).getD t).activeView)) := by
  unfold seedDefaultTemplate
  rw [ht]

/-- The fresh branch of seed_default_template: the default tree is
committed and the reloaded row is serialized. -/
theorem seed_fresh (db : DB) (uid : Option Nat)
    (hname : getByName db defaultTemplateName = none) :
    seedDefaultTemplate db uid =
      .ok (seedDB db uid,
        templateResponse
          (((findTemplate (seedDB db uid) (seedT db uid).id).getD
            (seedT db uid)).activeView)) := by
  unfold seedDefaultTemplate seedDB seedT
  rw [hname]

/-- C8: seed_default_template is idempotent.  If an active template of the
default name exists, the database is unchanged and that template is
serialized; otherwise the DEFAULT_AREAS tree is created — five areas of
weightage 20 summing to 100, each with no scopes — and a second call
returns the very same database and the very same response. -/
theorem claim_C8_seed_idempotent :
    (∀ (db : DB) (uid : Option Nat) (t : TemplateRow),
        getByName db defaultTemplateName = some t →
        seedDefaultTemplate db uid =
          .ok (db, templateResponse (((findTemplate db t.id).getD t).activeView)))
    ∧ (∀ (db : DB) (uid : Option Nat),
        getByName db defaultTemplateName = none →
        (∀ x ∈ db.templates, x.id ≠ db.nextId) →
        ∃ db1 r1,
          seedDefaultTemplate db uid = .ok (db1, r1) ∧
          seedDefaultTemplate db1 uid = .ok (db1, r1) ∧
          r1.name = defaultTemplateName ∧
          r1.areas.map (fun a => (a.name, a.weightage)) =
            [("Project Execution", 20), ("Engineering Excellence", 20),
             ("Communication", 20), ("People Management", 20),
             ("Learning & Innovation", 20)] ∧
          r1.total_weightage = 100 ∧
          ∃ t, t ∈ db1.templates ∧ t.id = r1.id ∧
            t.name = defaultTemplateName ∧
            t.areas.all (fun a => a.scopes.isEmpty) = true) := by
  constructor
  · intro db uid t ht
    exact seed_found db uid t ht
  · intro db uid hname hid
    have hfindDb : db.templates.find?
        (fun x => x.id == (seedT db uid).id) = none := by
      rw [List.find?_eq_none]
      intro x hx
      simp only [beq_iff_eq]
      exact hid x hx
    have hfind1 : findTemplate (seedDB db uid) (seedT db uid).id =
        some (seedT db uid) := by
      show List.find? (fun x => x.id == (seedT db uid).id)
        (db.templates ++ [seedT db uid]) = some (seedT db uid)
      rw [find?_append_of_none _ _ _ hfindDb]
      rw [List.find?_cons_of_pos _ (by simp)]
    have hname1 : getByName (seedDB db uid) defaultTemplateName =
        some (seedT db uid) := by
      show List.find? (fun x => x.name == defaultTemplateName && x.isactive)
        (db.templates ++ [seedT db uid]) = some (seedT db uid)
      rw [find?_append_of_none _ _ _ hname]
      rfl
    refine ⟨seedDB db uid, templateResponse (seedT db uid).activeView,
      ?_, ?_, rfl, rfl, rfl,
      ⟨seedT db uid, by simp [seedDB], rfl, rfl, rfl⟩⟩
    · rw [seed_fresh db uid hname, hfind1]
      rfl
    · rw [seed_found (seedDB db uid) uid (seedT db uid) hname1, hfind1]
      rfl

/-- An existing row with the default name, exercising the found branch. -/
def c8t : TemplateRow :=
  { id := 7, name := "Default Audit Template", isactive := true, areas := [] }

/-- Witness for C8: on a database already holding the default template the
seed returns it with the database unchanged; on the empty database the
seed creates the five canonical areas and a second call repeats the very
same result. -/
theorem claim_C8_witness :
    getByName { templates := [c8t], nextId := 8 } defaultTemplateName = some c8t ∧
    seedDefaultTemplate { templates := [c8t], nextId := 8 } none =
      .ok ({ templates := [c8t], nextId := 8 },
        templateResponse (((findTemplate { templates := [c8t], nextId := 8 } c8t.id).getD c8t).activeView)) ∧
    (∃ db1 r1,
      seedDefaultTemplate { templates := [], nextId := 0 } none = .ok (db1, r1) ∧
      seedDefaultTemplate db1 none = .ok (db1, r1) ∧
      r1.name = defaultTemplateName ∧
      r1.areas.map (fun a => (a.name, a.weightage)) =
        [("Project Execution", 20), ("Engineering Excellence", 20),
         ("Communication", 20), ("People Management", 20),
         ("Learning & Innovation", 20)] ∧
      r1.total_weightage = 100 ∧
      ∃ t, t ∈ db1.templates ∧ t.id = r1.id ∧
        t.name = defaultTemplateName ∧
        t.areas.all (fun a => a.scopes.isEmpty) = true) :=
  ⟨rfl,
   claim_C8_seed_idempotent.1 { templates := [c8t], nextId := 8 } none c8t rfl,
   claim_C8_seed_idempotent.2 { templates := [], nextId := 0 } none rfl
     (by simp)⟩

/-! ## C9: derived totals and the create round trip -/

/-- Evaluation of String.trim on the literal Yes. -/
theorem trim_Yes : "Yes".trim = "Yes" := by
  rw [String.trim]
  show ("Yes".toSubstring.trim).toString = "Yes"
  rw [show "Yes".toSubstring = ⟨"Yes", 0, "Yes".endPos⟩ from rfl]
  rw [Substring.trim]
  rw [Substring.takeWhileAux]
  rw [Substring.takeRightWhileAux]
  norm_num
  rfl

/-- Evaluation of String.trim on the literal No. -/
theorem trim_No : "No".trim = "No" := by
  rw [String.trim]
  show ("No".toSubstring.trim).toString = "No"
  rw [show "No".toSubstring = ⟨"No", 0, "No".endPos⟩ from rfl]
  rw [Substring.trim]
  rw [Substring.takeWhileAux]
  rw [Substring.takeRightWhileAux]
  norm_num
  rfl

/-- The case-insensitive key of the label Yes. -/
theorem key_Yes : "Yes".trim.toLower = "yes" := by
  rw [trim_Yes, String.toLower, String.map_eq]
  decide

/-- The case-insensitive key of the label No. -/
theorem key_No : "No".trim.toLower = "no" := by
  rw [trim_No, String.toLower, String.map_eq]
  decide

/-- The round-trip payload of the spec: one area of weightage 100 with one
scope holding one question of percentage 100 and two options. -/
def c9p : TemplateCP :=
  { name := "T", areas := [
      { name := "A", weightage := 100, scopes := [
        { name := "S", questions := [
          { text := "Q", percentage := 100, options := [
            { label := "Yes", value := 1 },
            { label := "No", value := 0 } ] } ] } ] } ] }

/-- The database committed by creating the round-trip payload on an empty
database. -/
def c9db1 : DB := createResultDB { templates := [], nextId := 0 } c9p none

/-- The detail returned by that creation. -/
def c9d : TemplateDetail :=
  createResultDetail { templates := [], nextId := 0 } c9p none

/-- C9: total_weightage and total_percentage are derived at read time —
every detail read satisfies the two sum equations — and creating the
payload with one area of weightage 100 holding one scope with one question
of percentage 100 (with options Yes and No) then reading its detail
returns total_weightage 100 and scope total_percentage 100. -/
theorem claim_C9_derived_totals :
    (∀ (db : DB) (tid : Nat) (d : TemplateDetail),
        getTemplateDetail db tid = .ok d →
        d.total_weightage = (d.areas.map (·.weightage)).sum ∧
        ∀ a ∈ d.areas, ∀ s ∈ a.scopes,
          s.total_percentage = (s.questions.map (·.percentage)).sum)
    ∧ createTemplate { templates := [], nextId := 0 } c9p none = .ok (c9db1, c9d)
    ∧ getTemplateDetail c9db1 c9d.id = .ok c9d
    ∧ c9d.total_weightage = 100
    ∧ c9d.areas.map (fun a => a.scopes.map (fun s => s.total_percentage)) =
        [[100]] := by
  refine ⟨?_, ?_, ?_, ?_, ?_⟩
  · intro db tid d hd
    unfold getTemplateDetail at hd
    cases hv : getByIdWithDetails db tid with
    | none => rw [hv] at hd; exact absurd hd (by simp)
    | some t =>
      rw [hv] at hd
      simp only [Except.ok.injEq] at hd
      subst hd
      constructor
      · simp [templateDetailResponse, computeTotalWeightage, areaDetail,
          List.map_map, Function.comp_def]
      · intro a ha s hs
        simp only [templateDetailResponse, List.mem_map] at ha
        obtain ⟨a0, ha0, rfl⟩ := ha
        simp only [areaDetail, List.mem_map] at hs
        obtain ⟨s0, hs0, rfl⟩ := hs
        simp [scopeDetail, questionDetail, List.map_map, Function.comp_def]
  · have hv : validateAll (c9p.areas.map AreaCP.toU) = .ok () := by
      rw [show c9p.areas.map AreaCP.toU =
        [{ name := "A", weightage := 100, scopes := [
          { name := "S", questions := [
            { text := "Q", percentage := 100, is_mandatory := true, options := [
              { label := "Yes", value := 1 },
              { label := "No", value := 0 } ] } ] } ] }] from rfl]
      simp [validateAll, validateEmptyQuestionScopesAreas, validateScopesNonEmpty,
        validateQuestionsNonEmptyOpts, validateAreaNames, validateAreaNamesGo,
        validateScopeNames, validateScopeNamesGo, validateQuestionNames,
        validateQuestionNamesScopes, validateQuestionNamesGo, validateOptionLabels,
        validateOptionLabelsScopes, validateOptionLabelsQuestions,
        validateOptionLabelsGo, validateOptionValues, validateOptionValuesScopes,
        validateOptionValuesQuestions, validateOptionValuesGo,
        validateScopePercentages, scopePercentageTotal, key_Yes, key_No]
      rfl
    rw [createTemplate_validation { templates := [], nextId := 0 } c9p none rfl,
      hv, ok_bind]
    rfl
  · rfl
  · rfl
  · rfl

/-- Witness for C9: applying the derived-totals law to the concrete detail
of the round-trip creation. -/
theorem claim_C9_witness :
    getTemplateDetail c9db1 c9d.id = Except.ok c9d ∧
    c9d.total_weightage = (c9d.areas.map (·.weightage)).sum ∧
    (∀ a ∈ c9d.areas, ∀ s ∈ a.scopes,
      s.total_percentage = (s.questions.map (·.percentage)).sum) :=
  ⟨rfl,
   (claim_C9_derived_totals.1 c9db1 c9d.id c9d rfl).1,
   (claim_C9_derived_totals.1 c9db1 c9d.id c9d rfl).2⟩

/-! ## C10: an empty areas list is rejected with the percentage error -/

/-- C10: with the name checks passed, create_template and clone_template on
a payload whose areas list is empty fail with the 422 percentage error —
the emptiness and uniqueness validators pass vacuously and the total of 0
is rejected — and, the result being an error, no database state is
produced. -/
theorem claim_C10_empty_areas_rejected :
    (∀ (db : DB) (n : String) (uid : Option Nat),
        getByName db n = none →
        createTemplate db { name := n, areas := [] } uid =
          .error (.unprocessable percentageErrorMsg))
    ∧ (∀ (db : DB) (sourceId : Nat) (n : String) (uid : Option Nat)
          (t : TemplateRow),
        getById db sourceId = some t →
        getByName db n = none →
        cloneTemplate db sourceId { name := n, areas := [] } uid =
          .error (.unprocessable percentageErrorMsg))
    ∧ (ApiError.unprocessable percentageErrorMsg).statusCode = 422 := by
  refine ⟨?_, ?_, rfl⟩
  · intro db n uid hname
    rw [createTemplate_validation db { name := n, areas := [] } uid hname]
    rfl
  · intro db sourceId n uid t hsrc hname
    rw [cloneTemplate_validation db sourceId { name := n, areas := [] } uid t
      hsrc hname]
    rfl

/-- An active source template for the clone branch of the C10 witness. -/
def c10t : TemplateRow :=
  { id := 3, name := "Src", isactive := true, areas := [] }

/-- Witness for C10: the empty-areas payload is rejected with the 422
percentage error both on create over the empty database and on clone from
an existing active source. -/
theorem claim_C10_witness :
    createTemplate { templates := [], nextId := 0 } { name := "E", areas := [] }
        none =
      Except.error (ApiError.unprocessable percentageErrorMsg) ∧
    cloneTemplate { templates := [c10t], nextId := 4 } 3
        { name := "E", areas := [] } none =
      Except.error (ApiError.unprocessable percentageErrorMsg) :=
  ⟨claim_C10_empty_areas_rejected.1 { templates := [], nextId := 0 } "E" none rfl,
   claim_C10_empty_areas_rejected.2.1 { templates := [c10t], nextId := 4 } 3 "E"
     none c10t rfl rfl⟩

end AuditBackend
